import Mathlib

/-! The 6502 code generator of cc65 (`src/cc65/codegen.c`).

A shallow embedding of the code generator together with the properties
established about it.

Conventions of the embedding:

* `unsigned` values are natural numbers below `2 ^ 32`; `~x` on an `unsigned`
  is `unot x`; the conversion of an `int` to `unsigned` is `toUnsigned`.
* `int` and `long` values are mathematical integers (signed overflow is
  undefined in C and lies outside the model); `long` is converted to
  `unsigned long` in two's complement (`toULong`). A conversion to a narrower
  unsigned type that a following mask absorbs is not written.
* The globals `oursp` and `funcargs`, the local label counter, the emitted
  output and the reported diagnostics form the state `CGState`.
* `Internal (...)` never returns: a generator is a function from the state to
  either a fatal error, with the state at the moment it was raised, or a
  result with the new state (`Gen`).
* The header `codegen.h` (the `CF_*` flag values), the target CPU, the code
  size factor and the label naming of `asmlabel.c` are not part of the source
  file; they are the fields of the environment `Env`.
-/

namespace CodeGen

/-! ## Machine integers -/

/-- Conversion of an `int` to `unsigned` (reduction modulo `2 ^ 32`). -/
def toUnsigned (x : Int) : Nat := (x % 4294967296).toNat

/-- Conversion of a `long` to `unsigned long` (two's complement, 64 bit). -/
def toULong (x : Int) : Nat := (x % 18446744073709551616).toNat

/-- Bitwise complement `~x` of an `unsigned`. -/
def unot (x : Nat) : Nat := 0xFFFFFFFF ^^^ x

/-! ## printf conversions -/

/-- One upper case hexadecimal digit. -/
def hexDigit (d : Nat) : Char :=
  if d < 10 then Char.ofNat (48 + d) else Char.ofNat (55 + d)

/-- The hexadecimal digits of `v`, most significant first; the first argument
bounds the number of digits produced. -/
def hexDigits : Nat → Nat → List Char
  | 0, _ => []
  | f + 1, v => if v < 16 then [hexDigit v] else hexDigits f (v / 16) ++ [hexDigit (v % 16)]

/-- The conversion `%0<width>X`: all hexadecimal digits of `v`, padded on the
left with `0` to at least `width` characters. -/
def fmtHex (width v : Nat) : String :=
  let ds := hexDigits (v + 1) v
  String.mk (List.replicate (width - ds.length) '0' ++ ds)

/-- The conversions `%u` and `%lu`. -/
def fmtDec (v : Nat) : String := toString v

/-- Value of a hexadecimal digit character (upper case). -/
def hexVal (c : Char) : Option Nat :=
  if 48 ≤ c.toNat ∧ c.toNat ≤ 57 then some (c.toNat - 48)
  else if 65 ≤ c.toNat ∧ c.toNat ≤ 70 then some (c.toNat - 55)
  else none

/-- Reads a list of hexadecimal digits as a base 16 number. -/
def parseHex : List Char → Option Nat
  | cs => cs.foldl (fun acc c => acc.bind (fun a => (hexVal c).map (fun d => a * 16 + d))) (some 0)

/-! ## Environment: what the source file takes from its headers -/

/-- Target CPU (`cpu.h`). -/
inductive CPUType where
  | CPU_6502
  | CPU_65C02
  deriving DecidableEq, Repr

/-- The parts the code generator reads from other files: the flag values of
`codegen.h`, the configuration of `global.h` and `cpu.h`, the label names of
`asmlabel.c` and the symbol names referenced by external labels. -/
structure Env where
  CF_TYPE : Nat
  CF_CHAR : Nat
  CF_INT : Nat
  CF_PTR : Nat
  CF_LONG : Nat
  CF_UNSIGNED : Nat
  CF_CONST : Nat
  CF_TEST : Nat
  CF_FIXARGC : Nat
  CF_FORCECHAR : Nat
  CF_REG : Nat
  CF_ADDRMASK : Nat
  CF_STATIC : Nat
  CF_EXTERNAL : Nat
  CF_ABSOLUTE : Nat
  CF_REGVAR : Nat
  CPU : CPUType
  CodeSizeFactor : Nat
  /-- `LocalLabelName` of `asmlabel.c`. -/
  LocalLabelName : Nat → String
  /-- The C string stored at an address (the symbol name of an external label). -/
  strAt : Nat → String

/-- A modifier flag is a single bit of an `unsigned`. -/
def IsBit (m : Nat) : Prop := ∃ k, k < 32 ∧ m = 2 ^ k

/-- Modelled from the spec: the header `codegen.h` is missing; the data model
describes the flag word as a bit field with independent sub-fields: a width
class out of char, int, long (mutually exclusive), single-bit modifiers and a
storage class. The `case` labels of one `switch` are distinct in C. -/
structure Env.WF (E : Env) : Prop where
  type_lt : E.CF_TYPE < 2 ^ 32
  char_ne_int : E.CF_CHAR ≠ E.CF_INT
  char_ne_long : E.CF_CHAR ≠ E.CF_LONG
  int_ne_long : E.CF_INT ≠ E.CF_LONG
  char_sub : E.CF_CHAR &&& E.CF_TYPE = E.CF_CHAR
  int_sub : E.CF_INT &&& E.CF_TYPE = E.CF_INT
  long_sub : E.CF_LONG &&& E.CF_TYPE = E.CF_LONG
  ptr_int : E.CF_PTR = E.CF_INT
  unsigned_bit : IsBit E.CF_UNSIGNED
  const_bit : IsBit E.CF_CONST
  test_bit : IsBit E.CF_TEST
  fixargc_bit : IsBit E.CF_FIXARGC
  forcechar_bit : IsBit E.CF_FORCECHAR
  reg_bit : IsBit E.CF_REG
  unsigned_type : E.CF_UNSIGNED &&& E.CF_TYPE = 0
  const_type : E.CF_CONST &&& E.CF_TYPE = 0
  test_type : E.CF_TEST &&& E.CF_TYPE = 0
  fixargc_type : E.CF_FIXARGC &&& E.CF_TYPE = 0
  forcechar_type : E.CF_FORCECHAR &&& E.CF_TYPE = 0
  reg_type : E.CF_REG &&& E.CF_TYPE = 0
  const_ne_unsigned : E.CF_CONST ≠ E.CF_UNSIGNED
  const_ne_test : E.CF_CONST ≠ E.CF_TEST
  const_ne_forcechar : E.CF_CONST ≠ E.CF_FORCECHAR
  const_ne_reg : E.CF_CONST ≠ E.CF_REG
  unsigned_ne_test : E.CF_UNSIGNED ≠ E.CF_TEST
  unsigned_ne_forcechar : E.CF_UNSIGNED ≠ E.CF_FORCECHAR
  unsigned_ne_reg : E.CF_UNSIGNED ≠ E.CF_REG
  addrmask_lt : E.CF_ADDRMASK < 2 ^ 32
  addr_type : E.CF_ADDRMASK &&& E.CF_TYPE = 0
  addr_unsigned : E.CF_ADDRMASK &&& E.CF_UNSIGNED = 0
  addr_const : E.CF_ADDRMASK &&& E.CF_CONST = 0
  static_ne_external : E.CF_STATIC ≠ E.CF_EXTERNAL
  static_ne_absolute : E.CF_STATIC ≠ E.CF_ABSOLUTE
  static_ne_regvar : E.CF_STATIC ≠ E.CF_REGVAR
  external_ne_absolute : E.CF_EXTERNAL ≠ E.CF_ABSOLUTE
  external_ne_regvar : E.CF_EXTERNAL ≠ E.CF_REGVAR
  absolute_ne_regvar : E.CF_ABSOLUTE ≠ E.CF_REGVAR

/-- The width field of a flag word is one of char, int, long. -/
def ValidWidth (E : Env) (flags : Nat) : Prop :=
  flags &&& E.CF_TYPE = E.CF_CHAR ∨ flags &&& E.CF_TYPE = E.CF_INT ∨
    flags &&& E.CF_TYPE = E.CF_LONG

instance (E : Env) (flags : Nat) : Decidable (ValidWidth E flags) := by
  unfold ValidWidth
  infer_instance

/-! ## State of the code generator -/

/-- Opcodes of the structured emission `AddCode`. -/
inductive Opc where
  | OPC_ENTER | OPC_SPACE | OPC_LEAVE | OPC_RET
  | OPC_LDA | OPC_LDAX | OPC_LDEAX | OPC_LEA
  | OPC_STA | OPC_STAX | OPC_STEAX | OPC_STAEAX
  deriving DecidableEq, Repr

/-- Addressing modes of the structured emission `AddCode`. -/
inductive AM where
  | AM_IMP | AM_IMM | AM_ABS | AM_STACK
  deriving DecidableEq, Repr

/-- One unit of emitted output. -/
inductive Emit where
  /-- `AddCodeLine (...)` with the formatted text. -/
  | codeLine (text : String)
  /-- `AddCode (opc, am, arg, 0)`; a null `arg` is `none`. -/
  | code (opc : Opc) (am : AM) (arg : Option String)
  /-- `CS_AddLabel (CS->Code, name)`. -/
  | codeLabel (name : String)
  /-- `AddDataLine (...)` with the formatted text. -/
  | dataLine (text : String)
  /-- `AddTextLine (...)` with the formatted text. -/
  | textLine (text : String)
  deriving DecidableEq, Repr

/-- Diagnostics that do not stop the compilation. -/
inductive Diag where
  | error (msg : String)
  | warning (msg : String)
  deriving DecidableEq, Repr

/-- The fatal internal error raised by `Internal (...)`. -/
inductive Fatal where
  | internal (msg : String)
  deriving DecidableEq, Repr

/-- Mutable state: the globals of `codegen.c`, the label counter of
`asmlabel.c`, the output and the diagnostics. -/
structure CGState where
  oursp : Int
  funcargs : Int
  nextLabel : Nat
  out : List Emit
  diags : List Diag
  deriving DecidableEq, Repr

deriving instance DecidableEq for Except

/-- A generator: runs on a state and either stops with a fatal error (kept
with the state reached when it was raised) or returns a value and the new
state. -/
def Gen (α : Type) : Type := CGState → Except (Fatal × CGState) (α × CGState)

instance : Monad Gen where
  pure a := fun st => .ok (a, st)
  bind m f := fun st =>
    match m st with
    | .ok (a, st1) => f a st1
    | .error e => .error e

/-- `Internal (msg)`: stops with the fatal internal error. -/
def Internal {α : Type} (msg : String) : Gen α := fun st => .error (.internal msg, st)

/-- `Error (msg)`: reports an error and continues. -/
def Error (msg : String) : Gen Unit := fun st =>
  .ok ((), { st with diags := st.diags ++ [.error msg] })

/-- `Warning (msg)`: reports a warning and continues. -/
def Warning (msg : String) : Gen Unit := fun st =>
  .ok ((), { st with diags := st.diags ++ [.warning msg] })

/-- Appends one unit to the output. -/
def emit (e : Emit) : Gen Unit := fun st =>
  .ok ((), { st with out := st.out ++ [e] })

/-- `AddCodeLine (...)`, applied to the formatted line. -/
def AddCodeLine (text : String) : Gen Unit := emit (.codeLine text)

/-- `AddCode (opc, am, arg, 0)`. -/
def AddCode (opc : Opc) (am : AM) (arg : Option String) : Gen Unit := emit (.code opc am arg)

/-- Modelled from the spec: `GetLocalLabel` of `asmlabel.c` is missing; it
allocates a fresh label id, unique within the compilation unit and never
reused. -/
def GetLocalLabel : Gen Nat := fun st =>
  .ok (st.nextLabel, { st with nextLabel := st.nextLabel + 1 })

/-- Reads the global `oursp`. -/
def getOursp : Gen Int := fun st => .ok (st.oursp, st)

/-- Writes the global `oursp`. -/
def setOursp (v : Int) : Gen Unit := fun st => .ok ((), { st with oursp := v })

/-! ## Helpers -/

/-- `typeerror`: "Invalid type in CF flags: %04X, type = %u". -/
def typeerror {α : Type} (E : Env) (type : Nat) : Gen α :=
  Internal ("Invalid type in CF flags: " ++ fmtHex 4 type ++ ", type = " ++
    fmtDec (type &&& E.CF_TYPE))

/-- `CheckLocalOffs`: check the offset into the stack for 8 bit range. -/
def CheckLocalOffs (Offs : Nat) : Gen Unit :=
  if Offs ≥ 256 then Error "Too many local variables" else pure ()

/-! ## Size of an argument, push and pop -/

/-- `sizeofarg`: the size of a function argument type encoded in `flags`. -/
def sizeofarg (E : Env) (flags : Nat) : Gen Nat :=
  if flags &&& E.CF_TYPE = E.CF_CHAR then
    pure (if flags &&& E.CF_FORCECHAR ≠ 0 then 1 else 2)
  else if flags &&& E.CF_TYPE = E.CF_INT then
    pure 2
  else if flags &&& E.CF_TYPE = E.CF_LONG then
    pure 4
  else
    typeerror E flags

/-- `pop`: `return oursp += sizeofarg (flags);`. -/
def pop (E : Env) (flags : Nat) : Gen Int := do
  let n ← sizeofarg E flags
  let sp ← getOursp
  setOursp (sp + n)
  pure (sp + n)

/-- `push`: `return oursp -= sizeofarg (flags);`. -/
def push (E : Env) (flags : Nat) : Gen Int := do
  let n ← sizeofarg E flags
  let sp ← getOursp
  setOursp (sp - n)
  pure (sp - n)

/-! ## Labels and literals -/

/-- `GetLabelName`: the operand text of a (storage class, label, offset)
triple. A label of class static is a local label id (an `unsigned`), a label
of class external is the address of the symbol name. -/
def GetLabelName (E : Env) (flags label offs : Nat) : Gen String :=
  if flags &&& E.CF_ADDRMASK = E.CF_STATIC then
    pure (E.LocalLabelName (label % 4294967296) ++ "+" ++ fmtDec offs)
  else if flags &&& E.CF_ADDRMASK = E.CF_EXTERNAL then
    pure ("_" ++ E.strAt label ++ "+" ++ fmtDec offs)
  else if flags &&& E.CF_ADDRMASK = E.CF_ABSOLUTE then
    pure ("$" ++ fmtHex 4 ((label + offs) &&& 0xFFFF))
  else if flags &&& E.CF_ADDRMASK = E.CF_REGVAR then
    pure ("regbank+" ++ fmtDec ((label + offs) &&& 0xFFFF))
  else
    Internal "Invalid address flags"

/-- `NumToStr`: `sprintf (Buf, "$%04X", (unsigned) (Val & 0xFFFF))` on a `long`. -/
def NumToStr (Val : Int) : String := "$" ++ fmtHex 4 (toULong Val &&& 0xFFFF)

/-- `ByteToStr`: `sprintf (Buf, "$%02X", Val & 0xFF)`. -/
def ByteToStr (Val : Nat) : String := "$" ++ fmtHex 2 (Val &&& 0xFF)

/-- `WordToStr`: `sprintf (Buf, "$%04X", Val & 0xFFFF)`. -/
def WordToStr (Val : Nat) : String := "$" ++ fmtHex 4 (Val &&& 0xFFFF)

/-- `DWordToStr`: `sprintf (Buf, "$%08lX", Val & 0xFFFFFFFF)`. -/
def DWordToStr (Val : Nat) : String := "$" ++ fmtHex 8 (Val &&& 0xFFFFFFFF)

/-- A character is one of `0`..`9`, `A`..`F`. -/
def IsUpperHexDigit (c : Char) : Prop :=
  (48 ≤ c.toNat ∧ c.toNat ≤ 57) ∨ (65 ≤ c.toNat ∧ c.toNat ≤ 70)

instance (c : Char) : Decidable (IsUpperHexDigit c) := by
  unfold IsUpperHexDigit
  infer_instance

/-- `g_defcodelabel`: define a local code label. -/
def g_defcodelabel (E : Env) (label : Nat) : Gen Unit :=
  emit (.codeLabel (E.LocalLabelName label))

/-- `ldaconst`: `AddCodeLine ("lda #$%02X", val & 0xFF)`. -/
def ldaconst (val : Nat) : Gen Unit := AddCodeLine ("lda #$" ++ fmtHex 2 (val &&& 0xFF))

/-- `ldxconst`: `AddCodeLine ("ldx #$%02X", val & 0xFF)`. -/
def ldxconst (val : Nat) : Gen Unit := AddCodeLine ("ldx #$" ++ fmtHex 2 (val &&& 0xFF))

/-- `ldyconst`: `AddCodeLine ("ldy #$%02X", val & 0xFF)`. -/
def ldyconst (val : Nat) : Gen Unit := AddCodeLine ("ldy #$" ++ fmtHex 2 (val &&& 0xFF))

/-! ## Fetching and storing -/

/-- `g_getimmed`: load a constant into the primary register. -/
def g_getimmed (E : Env) (Flags Val Offs : Nat) : Gen Unit :=
  if Flags &&& E.CF_CONST ≠ 0 then
    if Flags &&& E.CF_TYPE = E.CF_CHAR then
      if Flags &&& E.CF_FORCECHAR ≠ 0 then
        AddCode .OPC_LDA .AM_IMM (some (ByteToStr Val))
      else
        AddCode .OPC_LDAX .AM_IMM (some (WordToStr Val))
    else if Flags &&& E.CF_TYPE = E.CF_INT then
      AddCode .OPC_LDAX .AM_IMM (some (WordToStr Val))
    else if Flags &&& E.CF_TYPE = E.CF_LONG then
      AddCode .OPC_LDEAX .AM_IMM (some (DWordToStr Val))
    else
      typeerror E Flags
  else do
    let name ← GetLabelName E Flags Val Offs
    AddCode .OPC_LEA .AM_ABS (some name)

/-- The sign extension idiom: `bpl L`, `dex`, label `L` for a fresh `L`. -/
def signExtend (E : Env) : Gen Unit := do
  let L ← GetLocalLabel
  AddCodeLine ("bpl " ++ E.LocalLabelName L)
  AddCodeLine "dex"
  g_defcodelabel E L

/-- `g_getlocal`: fetch the specified local object; `offs` is an `int`. -/
def g_getlocal (E : Env) (flags : Nat) (offs0 : Int) : Gen Unit := do
  let sp ← getOursp
  let offs : Int := offs0 - sp
  CheckLocalOffs (toUnsigned offs)
  if flags &&& E.CF_TYPE = E.CF_CHAR then
    if flags &&& E.CF_FORCECHAR ≠ 0 ∨ flags &&& E.CF_TEST ≠ 0 then
      if E.CPU = .CPU_65C02 ∧ offs = 0 then
        AddCodeLine "lda (sp)"
      else do
        ldyconst (toUnsigned offs)
        AddCodeLine "lda (sp),y"
    else do
      ldyconst (toUnsigned offs)
      AddCodeLine "ldx #$00"
      AddCodeLine "lda (sp),y"
      (if flags &&& E.CF_UNSIGNED = 0 then
        signExtend E
      else
        pure ())
  else if flags &&& E.CF_TYPE = E.CF_INT then do
    CheckLocalOffs (toUnsigned (offs + 1))
    if flags &&& E.CF_TEST ≠ 0 then do
      ldyconst (toUnsigned (offs + 1))
      AddCodeLine "lda (sp),y"
      AddCodeLine "dey"
      AddCodeLine "ora (sp),y"
    else if E.CodeSizeFactor > 180 then do
      ldyconst (toUnsigned (offs + 1))
      AddCodeLine "lda (sp),y"
      AddCodeLine "tax"
      AddCodeLine "dey"
      AddCodeLine "lda (sp),y"
    else if offs ≠ 0 then do
      ldyconst (toUnsigned (offs + 1))
      AddCodeLine "jsr ldaxysp"
    else
      AddCodeLine "jsr ldax0sp"
  else if flags &&& E.CF_TYPE = E.CF_LONG then
    if offs ≠ 0 then do
      ldyconst (toUnsigned (offs + 3))
      AddCodeLine "jsr ldeaxysp"
    else
      AddCodeLine "jsr ldeax0sp"
  else
    typeerror E flags

/-- `g_putlocal`: put data into a local object; `Offs` is an `int`, `Val` a
`long`. -/
def g_putlocal (E : Env) (Flags : Nat) (Offs0 : Int) (Val : Int) : Gen Unit := do
  let sp ← getOursp
  let Offs : Int := Offs0 - sp
  CheckLocalOffs (toUnsigned Offs)
  (if Flags &&& E.CF_CONST ≠ 0 then
    g_getimmed E Flags (toULong Val) (toUnsigned Offs)
  else
    pure ())
  if Flags &&& E.CF_TYPE = E.CF_CHAR then
    AddCode .OPC_STA .AM_STACK (some (WordToStr (toUnsigned Offs)))
  else if Flags &&& E.CF_TYPE = E.CF_INT then
    AddCode .OPC_STAX .AM_STACK (some (WordToStr (toUnsigned Offs)))
  else if Flags &&& E.CF_TYPE = E.CF_LONG then
    AddCode .OPC_STAEAX .AM_STACK (some (WordToStr (toUnsigned Offs)))
  else
    typeerror E Flags

/-- `g_addeqlocal`: emit += for a local variable; `offs` is an `int`. -/
def g_addeqlocal (E : Env) (flags : Nat) (offs0 : Int) (val : Nat) : Gen Unit := do
  let sp ← getOursp
  let offs : Int := offs0 - sp
  CheckLocalOffs (toUnsigned offs)
  if flags &&& E.CF_TYPE = E.CF_CHAR ∧ flags &&& E.CF_FORCECHAR ≠ 0 then do
    ldyconst (toUnsigned offs)
    AddCodeLine "ldx #$00"
    (if flags &&& E.CF_CONST ≠ 0 then do
      AddCodeLine "clc"
      AddCodeLine ("lda #$" ++ fmtHex 2 (val &&& 0xFF))
      AddCodeLine "adc (sp),y"
      AddCodeLine "sta (sp),y"
    else do
      AddCodeLine "clc"
      AddCodeLine "adc (sp),y"
      AddCodeLine "sta (sp),y")
    (if flags &&& E.CF_UNSIGNED = 0 then
      signExtend E
    else
      pure ())
  else if flags &&& E.CF_TYPE = E.CF_CHAR ∨ flags &&& E.CF_TYPE = E.CF_INT then do
    (if flags &&& E.CF_CONST ≠ 0 then
      g_getimmed E flags val 0
    else
      pure ())
    if offs = 0 then
      AddCodeLine "jsr addeq0sp"
    else do
      ldyconst (toUnsigned offs)
      AddCodeLine "jsr addeqysp"
  else if flags &&& E.CF_TYPE = E.CF_LONG then do
    (if flags &&& E.CF_CONST ≠ 0 then
      g_getimmed E flags val 0
    else
      pure ())
    if offs = 0 then
      AddCodeLine "jsr laddeq0sp"
    else do
      ldyconst (toUnsigned offs)
      AddCodeLine "jsr laddeqysp"
  else
    typeerror E flags

/-- `g_subeqlocal`: emit -= for a local variable; `offs` is an `int`. -/
def g_subeqlocal (E : Env) (flags : Nat) (offs0 : Int) (val : Nat) : Gen Unit := do
  let sp ← getOursp
  let offs : Int := offs0 - sp
  CheckLocalOffs (toUnsigned offs)
  if flags &&& E.CF_TYPE = E.CF_CHAR ∧ flags &&& E.CF_FORCECHAR ≠ 0 then do
    ldyconst (toUnsigned offs)
    AddCodeLine "ldx #$00"
    AddCodeLine "sec"
    (if flags &&& E.CF_CONST ≠ 0 then do
      AddCodeLine "lda (sp),y"
      AddCodeLine ("sbc #$" ++ fmtHex 2 (val % 256))
    else do
      AddCodeLine "sta tmp1"
      AddCodeLine "lda (sp),y"
      AddCodeLine "sbc tmp1")
    AddCodeLine "sta (sp),y"
    (if flags &&& E.CF_UNSIGNED = 0 then
      signExtend E
    else
      pure ())
  else if flags &&& E.CF_TYPE = E.CF_CHAR ∨ flags &&& E.CF_TYPE = E.CF_INT then do
    (if flags &&& E.CF_CONST ≠ 0 then
      g_getimmed E flags val 0
    else
      pure ())
    if offs = 0 then
      AddCodeLine "jsr subeq0sp"
    else do
      ldyconst (toUnsigned offs)
      AddCodeLine "jsr subeqysp"
  else if flags &&& E.CF_TYPE = E.CF_LONG then do
    (if flags &&& E.CF_CONST ≠ 0 then
      g_getimmed E flags val 0
    else
      pure ())
    if offs = 0 then
      AddCodeLine "jsr lsubeq0sp"
    else do
      ldyconst (toUnsigned offs)
      AddCodeLine "jsr lsubeqysp"
  else
    typeerror E flags

/-! ## Type conversion -/

/-- `g_toslong`: make sure the value on TOS is a long. -/
def g_toslong (E : Env) (flags : Nat) : Gen Unit :=
  if flags &&& E.CF_TYPE = E.CF_CHAR ∨ flags &&& E.CF_TYPE = E.CF_INT then do
    (if flags &&& E.CF_UNSIGNED ≠ 0 then
      AddCodeLine "jsr tosulong"
    else
      AddCodeLine "jsr toslong")
    let _r ← push E E.CF_INT
    pure ()
  else if flags &&& E.CF_TYPE = E.CF_LONG then
    pure ()
  else
    typeerror E flags

/-- `g_reglong`: make sure the value in the primary register is a long. -/
def g_reglong (E : Env) (flags : Nat) : Gen Unit :=
  if flags &&& E.CF_TYPE = E.CF_CHAR ∨ flags &&& E.CF_TYPE = E.CF_INT then
    if flags &&& E.CF_UNSIGNED ≠ 0 then
      if E.CodeSizeFactor ≥ 200 then do
        ldyconst 0
        AddCodeLine "sty sreg"
        AddCodeLine "sty sreg+1"
      else
        AddCodeLine "jsr axulong"
    else
      AddCodeLine "jsr axlong"
  else if flags &&& E.CF_TYPE = E.CF_LONG then
    pure ()
  else
    typeerror E flags

/-- The end of `g_typeadjust` (the result type of the operation), on the
values the locals `lhs`, `rhs`, `ltype`, `rtype` have at that point. -/
def typeadjustResult (E : Env) (lhs rhs ltype rtype : Nat) : Nat :=
  (((lhs &&& E.CF_CONST) &&& (rhs &&& E.CF_CONST)) |||
    ((lhs &&& E.CF_UNSIGNED) ||| (rhs &&& E.CF_UNSIGNED))) |||
    (if rtype = E.CF_LONG ∨ ltype = E.CF_LONG then E.CF_LONG else E.CF_INT)

/-- `g_typeadjust`: adjust the integer operands before a binary operation and
return the flags of the resulting type. -/
def g_typeadjust (E : Env) (lhs rhs : Nat) : Gen Nat :=
  let ltype := lhs &&& E.CF_TYPE
  let rtype := rhs &&& E.CF_TYPE
  if ltype = E.CF_LONG ∧ rtype ≠ E.CF_LONG ∧ rhs &&& E.CF_CONST = 0 then do
    g_reglong E rhs
    pure (typeadjustResult E lhs ((rhs &&& unot E.CF_TYPE) ||| E.CF_LONG) ltype E.CF_LONG)
  else if ltype ≠ E.CF_LONG ∧ lhs &&& E.CF_CONST = 0 ∧ rtype = E.CF_LONG then do
    (if lhs &&& E.CF_REG ≠ 0 then
      g_reglong E lhs
    else
      g_toslong E lhs)
    pure (typeadjustResult E ((lhs &&& unot E.CF_TYPE) ||| E.CF_LONG) rhs E.CF_LONG rtype)
  else
    pure (typeadjustResult E lhs rhs ltype rtype)

/-! ## Binary operations used by the offset folding -/

/-- Conversion of an `unsigned long` to `int` (two's complement, 32 bit). -/
def toInt (n : Nat) : Int :=
  if n % 4294967296 < 2147483648 then (n % 4294967296 : Nat) else (n % 4294967296 : Nat) - 4294967296

/-- The value an `int` has after `x += u` with an `unsigned` `u`: the sum is
taken in `unsigned` and converted back to `int`. -/
def intAddUnsigned (x : Int) (u : Nat) : Int := toInt (toUnsigned x + u)

/-- The value an `int` has after `x -= u` with an `unsigned` `u`: the
difference is taken in `unsigned` and converted back to `int`. -/
def intSubUnsigned (x : Int) (u : Nat) : Int := toInt (toUnsigned ((toUnsigned x : Int) - u))

/-- The conversion `%d`. -/
def fmtInt (v : Int) : String := toString v

/-- The conversion `%s`; a null pointer (undefined in C) prints as `(null)`. -/
def fmtStr : Option String → String
  | some s => s
  | none => "(null)"

/-- Runs a generator `n` times (`while (val--)`). -/
def repeatGen : Nat → Gen Unit → Gen Unit
  | 0, _ => pure ()
  | n + 1, g => do g; repeatGen n g

/-- `g_push`: push the primary register or a constant value onto the stack. -/
def g_push (E : Env) (flags val : Nat) : Gen Unit := do
  (if flags &&& E.CF_CONST ≠ 0 ∧ flags &&& E.CF_TYPE ≠ E.CF_LONG then
    if flags &&& E.CF_TYPE = E.CF_CHAR ∧ flags &&& E.CF_FORCECHAR ≠ 0 then
      if E.CodeSizeFactor ≥ 165 ∨ val > 2 then do
        ldaconst val
        AddCodeLine "jsr pusha"
      else
        AddCodeLine ("jsr pushc" ++ fmtInt (toInt val))
    else
      let hi := (val >>> 8) % 256
      if val ≤ 7 then
        AddCodeLine ("jsr push" ++ fmtDec (val % 4294967296))
      else if hi = 0 ∨ hi = 0xFF then do
        ldaconst val
        AddCodeLine ("jsr " ++ (if hi = 0 then "pusha0" else "pushaFF"))
      else do
        g_getimmed E flags val 0
        AddCodeLine "jsr pushax"
  else do
    (if flags &&& E.CF_CONST ≠ 0 then
      g_getimmed E flags val 0
    else
      pure ())
    if flags &&& E.CF_TYPE = E.CF_CHAR then
      if flags &&& E.CF_FORCECHAR ≠ 0 then
        AddCodeLine "jsr pusha"
      else
        AddCodeLine "jsr pushax"
    else if flags &&& E.CF_TYPE = E.CF_INT then
      AddCodeLine "jsr pushax"
    else if flags &&& E.CF_TYPE = E.CF_LONG then
      AddCodeLine "jsr pusheax"
    else
      typeerror E flags)
  let _r ← push E flags
  pure ()

/-- `oper`: encode a binary operation; `subs` is the table of twelve
subroutine names, a null entry is `none`. -/
def oper (E : Env) (flags val : Nat) (subs : List (Option String)) : Gen Unit := do
  let offs0 : Nat := if flags &&& E.CF_UNSIGNED ≠ 0 then 3 else 0
  let offs ← (if flags &&& E.CF_TYPE = E.CF_CHAR ∨ flags &&& E.CF_TYPE = E.CF_INT then
      pure offs0
    else if flags &&& E.CF_TYPE = E.CF_LONG then
      pure (offs0 + 6)
    else
      typeerror E flags : Gen Nat)
  (if flags &&& E.CF_CONST ≠ 0 then
    if val = 0 ∧ (subs.getD (offs + 0) none).isSome then
      AddCodeLine ("jsr " ++ fmtStr (subs.getD (offs + 0) none))
    else if val < 0x100 ∧ (subs.getD (offs + 1) none).isSome then do
      ldaconst val
      AddCodeLine ("jsr " ++ fmtStr (subs.getD (offs + 1) none))
    else do
      g_getimmed E flags val 0
      AddCodeLine ("jsr " ++ fmtStr (subs.getD (offs + 2) none))
  else
    AddCodeLine ("jsr " ++ fmtStr (subs.getD (offs + 2) none)))
  let _r ← pop E flags
  pure ()

/-- The table `ops` of `g_add`. -/
def g_add_ops : List (Option String) :=
  [none, some "tosadda0", some "tosaddax",
   none, some "tosadda0", some "tosaddax",
   none, none, some "tosaddeax",
   none, none, some "tosaddeax"]

/-- `g_add`: primary = TOS + primary. -/
def g_add (E : Env) (flags val : Nat) : Gen Unit :=
  if flags &&& E.CF_CONST ≠ 0 then do
    g_push E ((flags &&& unot E.CF_FORCECHAR) &&& unot E.CF_CONST) 0
    oper E (flags &&& unot E.CF_FORCECHAR) val g_add_ops
  else
    oper E flags val g_add_ops

/-- The body of `g_inc` for an int, and for a char without `CF_FORCECHAR`
that falls through to it; `flags` has `CF_CONST` cleared already. -/
def g_inc_int (E : Env) (flags val : Nat) : Gen Unit :=
  if E.CPU = .CPU_65C02 ∧ val = 1 then do
    let L ← GetLocalLabel
    AddCodeLine "ina"
    AddCodeLine ("bne " ++ E.LocalLabelName L)
    AddCodeLine "inx"
    g_defcodelabel E L
  else if E.CodeSizeFactor < 200 then
    if val ≤ 8 then
      AddCodeLine ("jsr incax" ++ fmtDec val)
    else if val ≤ 255 then do
      ldyconst val
      AddCodeLine "jsr incaxy"
    else
      g_add E (flags ||| E.CF_CONST) val
  else if val < 0x300 then do
    (if val &&& 0xFF ≠ 0 then do
      let L ← GetLocalLabel
      AddCodeLine "clc"
      AddCodeLine ("adc #$" ++ fmtHex 2 (val % 256))
      AddCodeLine ("bcc " ++ E.LocalLabelName L)
      AddCodeLine "inx"
      g_defcodelabel E L
    else
      pure ())
    (if val ≥ 0x100 then AddCodeLine "inx" else pure ())
    (if val ≥ 0x200 then AddCodeLine "inx" else pure ())
  else do
    AddCodeLine "clc"
    (if val &&& 0xFF ≠ 0 then
      AddCodeLine ("adc #$" ++ fmtHex 2 (val % 256))
    else
      pure ())
    AddCodeLine "pha"
    AddCodeLine "txa"
    AddCodeLine ("adc #$" ++ fmtHex 2 ((val >>> 8) % 256))
    AddCodeLine "tax"
    AddCodeLine "pla"

/-- `g_inc`: increment the primary register by a given number. -/
def g_inc (E : Env) (flags0 val : Nat) : Gen Unit :=
  if val = 0 then
    pure ()
  else
    let flags := flags0 &&& unot E.CF_CONST
    if flags &&& E.CF_TYPE = E.CF_CHAR then
      if flags &&& E.CF_FORCECHAR ≠ 0 then
        if E.CPU = .CPU_65C02 ∧ val ≤ 2 then
          repeatGen val (AddCodeLine "ina")
        else do
          AddCodeLine "clc"
          AddCodeLine ("adc #$" ++ fmtHex 2 (val % 256))
      else
        g_inc_int E flags val
    else if flags &&& E.CF_TYPE = E.CF_INT then
      g_inc_int E flags val
    else if flags &&& E.CF_TYPE = E.CF_LONG then
      if val ≤ 255 then do
        ldyconst val
        AddCodeLine "jsr inceaxy"
      else
        g_add E (flags ||| E.CF_CONST) val
    else
      typeerror E flags

/-- `MakeByteOffs`: add part of the offset to the address in a/x so that the
remaining offset fits into an index register; returns the remaining offset. -/
def MakeByteOffs (E : Env) (Flags Offs : Nat) : Gen Nat := do
  let O : Nat := Offs &&& unot 0xFF
  let n ← sizeofarg E Flags
  let O : Nat := if Offs &&& 0xFF > 256 - n then O + (Offs &&& 0xFF) else O
  if O ≠ 0 then do
    g_inc E (E.CF_INT ||| E.CF_CONST) O
    pure (Offs - O)
  else
    pure Offs

/-! ## Binary operators -/

/-- The search of `powerof2`: the first exponent `i`, `i + 1`, ... whose power
of two is `val`; it stops with -1 once the power exceeds `val` (the first
argument bounds the number of steps). -/
def powerof2From : Nat → Nat → Nat → Int
  | 0, _, _ => -1
  | fuel + 1, i, val =>
    if val = 2 ^ i then (i : Int)
    else if val < 2 ^ i then -1
    else powerof2From fuel (i + 1) val

/-- Modelled from the spec: `powerof2` of `util.c` is missing; the spec speaks
of a factor that is a power of two: the exponent when `val` is a power of
two, -1 otherwise. -/
def powerof2 (val : Nat) : Int :=
  powerof2From (val + 1) 0 val

/-- The end of the constant branch of a binary operator, reached when no
special code was emitted: `g_push (flags & ~CF_CONST, 0)`, then the long way
over the stack, `oper (flags, val, ops)`. -/
def pushOper (E : Env) (flags val : Nat) (ops : List (Option String)) : Gen Unit := do
  g_push E (flags &&& unot E.CF_CONST) 0
  oper E flags val ops

/-- The table `ops` of `g_sub`. -/
def g_sub_ops : List (Option String) :=
  [none, some "tossuba0", some "tossubax",
   none, some "tossuba0", some "tossubax",
   none, none, some "tossubeax",
   none, none, some "tossubeax"]

/-- `g_sub`: primary = TOS - primary. -/
def g_sub (E : Env) (flags val : Nat) : Gen Unit :=
  if flags &&& E.CF_CONST ≠ 0 then
    pushOper E (flags &&& unot E.CF_FORCECHAR) val g_sub_ops
  else
    oper E flags val g_sub_ops

/-- The table `ops` of `g_rsub`. -/
def g_rsub_ops : List (Option String) :=
  [none, some "tosrsuba0", some "tosrsubax",
   none, some "tosrsuba0", some "tosrsubax",
   none, none, some "tosrsubeax",
   none, none, some "tosrsubeax"]

/-- `g_rsub`: primary = primary - TOS. -/
def g_rsub (E : Env) (flags val : Nat) : Gen Unit :=
  oper E flags val g_rsub_ops

/-- The table `ops` of `g_or`. -/
def g_or_ops : List (Option String) :=
  [none, some "tosora0", some "tosorax",
   none, some "tosora0", some "tosorax",
   none, none, some "tosoreax",
   none, none, some "tosoreax"]

/-- `g_or`: primary = TOS | primary. -/
def g_or (E : Env) (flags val : Nat) : Gen Unit :=
  if flags &&& E.CF_CONST ≠ 0 then
    if flags &&& E.CF_TYPE = E.CF_CHAR ∧ flags &&& E.CF_FORCECHAR ≠ 0 then
      if val &&& 0xFF ≠ 0xFF then
        AddCodeLine ("ora #$" ++ fmtHex 2 (val % 256))
      else
        pure ()
    else if flags &&& E.CF_TYPE = E.CF_CHAR ∨ flags &&& E.CF_TYPE = E.CF_INT then
      if val ≤ 0xFF then
        AddCodeLine ("ora #$" ++ fmtHex 2 (val % 256))
      else
        pushOper E flags val g_or_ops
    else if flags &&& E.CF_TYPE = E.CF_LONG then
      if val ≤ 0xFF then
        AddCodeLine ("ora #$" ++ fmtHex 2 (val % 256))
      else
        pushOper E flags val g_or_ops
    else
      typeerror E flags
  else
    oper E flags val g_or_ops

/-- The table `ops` of `g_xor`. -/
def g_xor_ops : List (Option String) :=
  [none, some "tosxora0", some "tosxorax",
   none, some "tosxora0", some "tosxorax",
   none, none, some "tosxoreax",
   none, none, some "tosxoreax"]

/-- `g_xor`: primary = TOS ^ primary. -/
def g_xor (E : Env) (flags val : Nat) : Gen Unit :=
  if flags &&& E.CF_CONST ≠ 0 then
    if flags &&& E.CF_TYPE = E.CF_CHAR ∧ flags &&& E.CF_FORCECHAR ≠ 0 then
      if val &&& 0xFF ≠ 0 then
        AddCodeLine ("eor #$" ++ fmtHex 2 (val % 256))
      else
        pure ()
    else if flags &&& E.CF_TYPE = E.CF_CHAR ∨ flags &&& E.CF_TYPE = E.CF_INT then
      if val ≤ 0xFF then
        if val ≠ 0 then
          AddCodeLine ("eor #$" ++ fmtHex 2 (val % 256))
        else
          pure ()
      else if val &&& 0xFF = 0 then do
        AddCodeLine "pha"
        AddCodeLine "txa"
        AddCodeLine ("eor #$" ++ fmtHex 2 ((val >>> 8) % 256))
        AddCodeLine "tax"
        AddCodeLine "pla"
      else
        pushOper E flags val g_xor_ops
    else if flags &&& E.CF_TYPE = E.CF_LONG then
      if val ≤ 0xFF then
        if val ≠ 0 then
          AddCodeLine ("eor #$" ++ fmtHex 2 (val % 256))
        else
          pure ()
      else
        pushOper E flags val g_xor_ops
    else
      typeerror E flags
  else
    oper E flags val g_xor_ops

/-- The table `ops` of `g_and`. -/
def g_and_ops : List (Option String) :=
  [none, some "tosanda0", some "tosandax",
   none, some "tosanda0", some "tosandax",
   none, none, some "tosandeax",
   none, none, some "tosandeax"]

/-- `g_and`: primary = TOS & primary. -/
def g_and (E : Env) (flags val : Nat) : Gen Unit :=
  if flags &&& E.CF_CONST ≠ 0 then
    if flags &&& E.CF_TYPE = E.CF_CHAR ∧ flags &&& E.CF_FORCECHAR ≠ 0 then
      AddCodeLine ("and #$" ++ fmtHex 2 (val % 256))
    else if flags &&& E.CF_TYPE = E.CF_CHAR ∨ flags &&& E.CF_TYPE = E.CF_INT then
      if val &&& 0xFFFF ≠ 0xFFFF then
        if val ≤ 0xFF then do
          ldxconst 0
          if val = 0 then
            ldaconst 0
          else if val ≠ 0xFF then
            AddCodeLine ("and #$" ++ fmtHex 2 (val % 256))
          else
            pure ()
        else if val &&& 0xFF00 = 0xFF00 then
          AddCodeLine ("and #$" ++ fmtHex 2 (val % 256))
        else if val &&& 0x00FF = 0x0000 then do
          AddCodeLine "txa"
          AddCodeLine ("and #$" ++ fmtHex 2 ((val >>> 8) % 256))
          AddCodeLine "tax"
          ldaconst 0
        else do
          AddCodeLine "tay"
          AddCodeLine "txa"
          AddCodeLine ("and #$" ++ fmtHex 2 ((val >>> 8) % 256))
          AddCodeLine "tax"
          AddCodeLine "tya"
          if val &&& 0x00FF ≠ 0x00FF then
            AddCodeLine ("and #$" ++ fmtHex 2 (val % 256))
          else
            pure ()
      else
        pure ()
    else if flags &&& E.CF_TYPE = E.CF_LONG then
      if val ≤ 0xFF then do
        ldxconst 0
        AddCodeLine "stx sreg+1"
        AddCodeLine "stx sreg"
        if val &&& 0xFF ≠ 0xFF then
          AddCodeLine ("and #$" ++ fmtHex 2 (val % 256))
        else
          pure ()
      else if val = 0xFF00 then do
        ldaconst 0
        AddCodeLine "sta sreg+1"
        AddCodeLine "sta sreg"
      else
        pushOper E flags val g_and_ops
    else
      typeerror E flags
  else
    oper E flags val g_and_ops

/-- The table `ops` of `g_asr`. -/
def g_asr_ops : List (Option String) :=
  [none, some "tosasra0", some "tosasrax",
   none, some "tosshra0", some "tosshrax",
   none, none, some "tosasreax",
   none, none, some "tosshreax"]

/-- `g_asr`: primary = TOS >> primary. -/
def g_asr (E : Env) (flags val : Nat) : Gen Unit :=
  if flags &&& E.CF_CONST ≠ 0 then
    if flags &&& E.CF_TYPE = E.CF_CHAR ∨ flags &&& E.CF_TYPE = E.CF_INT then
      if val ≥ 1 ∧ val ≤ 3 then
        if flags &&& E.CF_UNSIGNED ≠ 0 then
          AddCodeLine ("jsr shrax" ++ fmtDec val)
        else
          AddCodeLine ("jsr asrax" ++ fmtDec val)
      else if val = 8 ∧ flags &&& E.CF_UNSIGNED ≠ 0 then do
        AddCodeLine "txa"
        ldxconst 0
      else
        pushOper E flags val g_asr_ops
    else if flags &&& E.CF_TYPE = E.CF_LONG then
      if val ≥ 1 ∧ val ≤ 3 then
        if flags &&& E.CF_UNSIGNED ≠ 0 then
          AddCodeLine ("jsr shreax" ++ fmtDec val)
        else
          AddCodeLine ("jsr asreax" ++ fmtDec val)
      else if val = 8 ∧ flags &&& E.CF_UNSIGNED ≠ 0 then do
        AddCodeLine "txa"
        AddCodeLine "ldx sreg"
        AddCodeLine "ldy sreg+1"
        AddCodeLine "sty sreg"
        AddCodeLine "ldy #$00"
        AddCodeLine "sty sreg+1"
      else if val = 16 then do
        AddCodeLine "ldy #$00"
        AddCodeLine "ldx sreg+1"
        (if flags &&& E.CF_UNSIGNED = 0 then do
          let L ← GetLocalLabel
          AddCodeLine ("bpl " ++ E.LocalLabelName L)
          AddCodeLine "dey"
          g_defcodelabel E L
        else
          pure ())
        AddCodeLine "lda sreg"
        AddCodeLine "sty sreg+1"
        AddCodeLine "sty sreg"
      else
        pushOper E flags val g_asr_ops
    else
      typeerror E flags
  else
    oper E flags val g_asr_ops

/-- The table `ops` of `g_asl`. -/
def g_asl_ops : List (Option String) :=
  [none, some "tosasla0", some "tosaslax",
   none, some "tosshla0", some "tosshlax",
   none, none, some "tosasleax",
   none, none, some "tosshleax"]

/-- `g_asl`: primary = TOS << primary. -/
def g_asl (E : Env) (flags val : Nat) : Gen Unit :=
  if flags &&& E.CF_CONST ≠ 0 then
    if flags &&& E.CF_TYPE = E.CF_CHAR ∨ flags &&& E.CF_TYPE = E.CF_INT then
      if val ≥ 1 ∧ val ≤ 3 then
        if flags &&& E.CF_UNSIGNED ≠ 0 then
          AddCodeLine ("jsr shlax" ++ fmtDec val)
        else
          AddCodeLine ("jsr aslax" ++ fmtDec val)
      else if val = 8 then do
        AddCodeLine "tax"
        AddCodeLine "lda #$00"
      else
        pushOper E flags val g_asl_ops
    else if flags &&& E.CF_TYPE = E.CF_LONG then
      if val ≥ 1 ∧ val ≤ 3 then
        if flags &&& E.CF_UNSIGNED ≠ 0 then
          AddCodeLine ("jsr shleax" ++ fmtDec val)
        else
          AddCodeLine ("jsr asleax" ++ fmtDec val)
      else if val = 8 then do
        AddCodeLine "ldy sreg"
        AddCodeLine "sty sreg+1"
        AddCodeLine "stx sreg"
        AddCodeLine "tax"
        AddCodeLine "lda #$00"
      else if val = 16 then do
        AddCodeLine "stx sreg+1"
        AddCodeLine "sta sreg"
        AddCodeLine "lda #$00"
        AddCodeLine "tax"
      else
        pushOper E flags val g_asl_ops
    else
      typeerror E flags
  else
    oper E flags val g_asl_ops

/-- The table `ops` of `g_mul`. -/
def g_mul_ops : List (Option String) :=
  [none, some "tosmula0", some "tosmulax",
   none, some "tosumula0", some "tosumulax",
   none, none, some "tosmuleax",
   none, none, some "tosumuleax"]

/-- `g_mul`: primary = TOS * primary. -/
def g_mul (E : Env) (flags val : Nat) : Gen Unit :=
  if flags &&& E.CF_CONST ≠ 0 ∧ powerof2 val ≥ 0 then
    g_asl E flags (powerof2 val).toNat
  else if flags &&& E.CF_CONST ≠ 0 then
    if flags &&& E.CF_TYPE = E.CF_CHAR then
      if flags &&& E.CF_FORCECHAR ≠ 0 ∧ val = 3 then do
        AddCodeLine "sta tmp1"
        AddCodeLine "asl a"
        AddCodeLine "clc"
        AddCodeLine "adc tmp1"
      else if flags &&& E.CF_FORCECHAR ≠ 0 ∧ val = 5 then do
        AddCodeLine "sta tmp1"
        AddCodeLine "asl a"
        AddCodeLine "asl a"
        AddCodeLine "clc"
        AddCodeLine "adc tmp1"
      else if flags &&& E.CF_FORCECHAR ≠ 0 ∧ val = 10 then do
        AddCodeLine "sta tmp1"
        AddCodeLine "asl a"
        AddCodeLine "asl a"
        AddCodeLine "clc"
        AddCodeLine "adc tmp1"
        AddCodeLine "asl a"
      else
        pushOper E (flags &&& unot E.CF_FORCECHAR) val g_mul_ops
    else if flags &&& E.CF_TYPE = E.CF_INT then
      pushOper E (flags &&& unot E.CF_FORCECHAR) val g_mul_ops
    else if flags &&& E.CF_TYPE = E.CF_LONG then
      pushOper E (flags &&& unot E.CF_FORCECHAR) val g_mul_ops
    else
      typeerror E flags
  else
    oper E flags val g_mul_ops

/-- The table `ops` of `g_div`. -/
def g_div_ops : List (Option String) :=
  [none, some "tosdiva0", some "tosdivax",
   none, some "tosudiva0", some "tosudivax",
   none, none, some "tosdiveax",
   none, none, some "tosudiveax"]

/-- `g_div`: primary = TOS / primary. -/
def g_div (E : Env) (flags val : Nat) : Gen Unit :=
  if flags &&& E.CF_CONST ≠ 0 ∧ powerof2 val ≥ 0 then
    g_asr E flags (powerof2 val).toNat
  else if flags &&& E.CF_CONST ≠ 0 then
    pushOper E (flags &&& unot E.CF_FORCECHAR) val g_div_ops
  else
    oper E flags val g_div_ops

/-- The table `ops` of `g_mod`. -/
def g_mod_ops : List (Option String) :=
  [none, some "tosmoda0", some "tosmodax",
   none, some "tosumoda0", some "tosumodax",
   none, none, some "tosmodeax",
   none, none, some "tosumodeax"]

/-- `g_mod`: primary = TOS % primary. -/
def g_mod (E : Env) (flags val : Nat) : Gen Unit :=
  if flags &&& E.CF_CONST ≠ 0 ∧ flags &&& E.CF_UNSIGNED ≠ 0 ∧ val ≠ 0xFFFFFFFF ∧
      powerof2 val ≥ 0 then
    g_and E flags (val - 1)
  else if flags &&& E.CF_CONST ≠ 0 then
    pushOper E (flags &&& unot E.CF_FORCECHAR) val g_mod_ops
  else
    oper E flags val g_mod_ops

/-! ## Relational operators -/

/-- The byte-serialised 16 bit compare shared by the relational operators:
a fresh label `L`, `cpx #$HH`, `bne L`, `cmp #$LL`, the label `L`, and the
call of the boolean routine. -/
def cmpWord (E : Env) (val : Nat) (routine : String) : Gen Unit := do
  let L ← GetLocalLabel
  AddCodeLine ("cpx #$" ++ fmtHex 2 ((val >>> 8) % 256))
  AddCodeLine ("bne " ++ E.LocalLabelName L)
  AddCodeLine ("cmp #$" ++ fmtHex 2 (val % 256))
  g_defcodelabel E L
  AddCodeLine ("jsr " ++ routine)

/-- The table `ops` of `g_eq`. -/
def g_eq_ops : List (Option String) :=
  [some "toseq00", some "toseqa0", some "toseqax",
   some "toseq00", some "toseqa0", some "toseqax",
   none, none, some "toseqeax",
   none, none, some "toseqeax"]

/-- `g_eq`: test for equal. -/
def g_eq (E : Env) (flags val : Nat) : Gen Unit :=
  if flags &&& E.CF_CONST ≠ 0 then
    if flags &&& E.CF_TYPE = E.CF_CHAR ∧ flags &&& E.CF_FORCECHAR ≠ 0 then do
      AddCodeLine ("cmp #$" ++ fmtHex 2 (val % 256))
      AddCodeLine "jsr booleq"
    else if flags &&& E.CF_TYPE = E.CF_CHAR ∨ flags &&& E.CF_TYPE = E.CF_INT then
      cmpWord E val "booleq"
    else if flags &&& E.CF_TYPE = E.CF_LONG then
      pushOper E flags val g_eq_ops
    else
      typeerror E flags
  else
    oper E flags val g_eq_ops

/-- The table `ops` of `g_ne`. -/
def g_ne_ops : List (Option String) :=
  [some "tosne00", some "tosnea0", some "tosneax",
   some "tosne00", some "tosnea0", some "tosneax",
   none, none, some "tosneeax",
   none, none, some "tosneeax"]

/-- `g_ne`: test for not equal. -/
def g_ne (E : Env) (flags val : Nat) : Gen Unit :=
  if flags &&& E.CF_CONST ≠ 0 then
    if flags &&& E.CF_TYPE = E.CF_CHAR ∧ flags &&& E.CF_FORCECHAR ≠ 0 then do
      AddCodeLine ("cmp #$" ++ fmtHex 2 (val % 256))
      AddCodeLine "jsr boolne"
    else if flags &&& E.CF_TYPE = E.CF_CHAR ∨ flags &&& E.CF_TYPE = E.CF_INT then
      cmpWord E val "boolne"
    else if flags &&& E.CF_TYPE = E.CF_LONG then
      pushOper E flags val g_ne_ops
    else
      typeerror E flags
  else
    oper E flags val g_ne_ops

/-- The table `ops` of `g_lt`. -/
def g_lt_ops : List (Option String) :=
  [some "toslt00", some "toslta0", some "tosltax",
   some "tosult00", some "tosulta0", some "tosultax",
   none, none, some "toslteax",
   none, none, some "tosulteax"]

/-- The `switch` of `g_lt` on the operand type, in the constant branch. -/
def g_lt_const (E : Env) (flags val : Nat) : Gen Unit :=
  if flags &&& E.CF_TYPE = E.CF_CHAR ∧ flags &&& E.CF_FORCECHAR ≠ 0 then do
    AddCodeLine ("cmp #$" ++ fmtHex 2 (val % 256))
    if flags &&& E.CF_UNSIGNED ≠ 0 then
      AddCodeLine "jsr boolult"
    else
      AddCodeLine "jsr boollt"
  else if flags &&& E.CF_TYPE = E.CF_CHAR ∨ flags &&& E.CF_TYPE = E.CF_INT then
    if flags &&& E.CF_UNSIGNED = 0 ∧ val = 0 then do
      AddCodeLine "txa"
      AddCodeLine "jsr boollt"
    else if flags &&& E.CF_UNSIGNED ≠ 0 then
      cmpWord E val "boolult"
    else
      pushOper E flags val g_lt_ops
  else if flags &&& E.CF_TYPE = E.CF_LONG then
    if flags &&& E.CF_UNSIGNED = 0 ∧ val = 0 then do
      AddCodeLine "lda sreg+1"
      AddCodeLine "jsr boollt"
    else
      pushOper E flags val g_lt_ops
  else
    typeerror E flags

/-- `g_lt`: test for less than. -/
def g_lt (E : Env) (flags val : Nat) : Gen Unit :=
  if flags &&& E.CF_CONST ≠ 0 then do
    (if flags &&& E.CF_UNSIGNED ≠ 0 ∧ val = 0 then
      Warning "Condition is never true"
    else
      pure ())
    g_lt_const E flags val
  else
    oper E flags val g_lt_ops

/-- The table `ops` of `g_le`. -/
def g_le_ops : List (Option String) :=
  [some "tosle00", some "toslea0", some "tosleax",
   some "tosule00", some "tosulea0", some "tosuleax",
   none, none, some "tosleeax",
   none, none, some "tosuleeax"]

/-- `g_le`: test for less than or equal to. -/
def g_le (E : Env) (flags val : Nat) : Gen Unit :=
  if flags &&& E.CF_CONST ≠ 0 then
    if flags &&& E.CF_TYPE = E.CF_CHAR ∧ flags &&& E.CF_FORCECHAR ≠ 0 then do
      AddCodeLine ("cmp #$" ++ fmtHex 2 (val % 256))
      if flags &&& E.CF_UNSIGNED ≠ 0 then
        AddCodeLine "jsr boolule"
      else
        AddCodeLine "jsr boolle"
    else if flags &&& E.CF_TYPE = E.CF_CHAR ∨ flags &&& E.CF_TYPE = E.CF_INT then
      if flags &&& E.CF_UNSIGNED ≠ 0 then
        cmpWord E val "boolule"
      else
        pushOper E flags val g_le_ops
    else if flags &&& E.CF_TYPE = E.CF_LONG then
      pushOper E flags val g_le_ops
    else
      typeerror E flags
  else
    oper E flags val g_le_ops

/-- The table `ops` of `g_gt`. -/
def g_gt_ops : List (Option String) :=
  [some "tosgt00", some "tosgta0", some "tosgtax",
   some "tosugt00", some "tosugta0", some "tosugtax",
   none, none, some "tosgteax",
   none, none, some "tosugteax"]

/-- `g_gt`: test for greater than. -/
def g_gt (E : Env) (flags val : Nat) : Gen Unit :=
  if flags &&& E.CF_CONST ≠ 0 then
    if flags &&& E.CF_TYPE = E.CF_CHAR ∧ flags &&& E.CF_FORCECHAR ≠ 0 then do
      AddCodeLine ("cmp #$" ++ fmtHex 2 (val % 256))
      if flags &&& E.CF_UNSIGNED ≠ 0 then
        if val &&& 0xFF ≠ 0 then
          AddCodeLine "jsr boolugt"
        else
          AddCodeLine "jsr boolne"
      else
        AddCodeLine "jsr boolgt"
    else if flags &&& E.CF_TYPE = E.CF_CHAR ∨ flags &&& E.CF_TYPE = E.CF_INT then
      if flags &&& E.CF_UNSIGNED ≠ 0 then
        if val &&& 0xFFFF = 0 then do
          AddCodeLine "stx tmp1"
          AddCodeLine "ora tmp1"
          AddCodeLine "jsr boolne"
        else
          cmpWord E val "boolugt"
      else
        pushOper E flags val g_gt_ops
    else if flags &&& E.CF_TYPE = E.CF_LONG then
      pushOper E flags val g_gt_ops
    else
      typeerror E flags
  else
    oper E flags val g_gt_ops

/-- The table `ops` of `g_ge`. -/
def g_ge_ops : List (Option String) :=
  [some "tosge00", some "tosgea0", some "tosgeax",
   some "tosuge00", some "tosugea0", some "tosugeax",
   none, none, some "tosgeeax",
   none, none, some "tosugeeax"]

/-- The `switch` of `g_ge` on the operand type, in the constant branch. -/
def g_ge_const (E : Env) (flags val : Nat) : Gen Unit :=
  if flags &&& E.CF_TYPE = E.CF_CHAR ∧ flags &&& E.CF_FORCECHAR ≠ 0 then do
    AddCodeLine ("cmp #$" ++ fmtHex 2 (val % 256))
    if flags &&& E.CF_UNSIGNED ≠ 0 then
      AddCodeLine "jsr booluge"
    else
      AddCodeLine "jsr boolge"
  else if flags &&& E.CF_TYPE = E.CF_CHAR ∨ flags &&& E.CF_TYPE = E.CF_INT then
    if flags &&& E.CF_UNSIGNED = 0 ∧ val = 0 then do
      AddCodeLine "txa"
      AddCodeLine "jsr boolge"
    else if flags &&& E.CF_UNSIGNED ≠ 0 then
      cmpWord E val "booluge"
    else
      pushOper E flags val g_ge_ops
  else if flags &&& E.CF_TYPE = E.CF_LONG then
    if flags &&& E.CF_UNSIGNED = 0 ∧ val = 0 then do
      AddCodeLine "lda sreg+1"
      AddCodeLine "jsr boolge"
    else
      pushOper E flags val g_ge_ops
  else
    typeerror E flags

/-- `g_ge`: test for greater than or equal to. -/
def g_ge (E : Env) (flags val : Nat) : Gen Unit :=
  if flags &&& E.CF_CONST ≠ 0 then do
    (if flags &&& E.CF_UNSIGNED ≠ 0 ∧ val = 0 then
      Warning "Condition is always true"
    else
      pure ())
    g_ge_const E flags val
  else
    oper E flags val g_ge_ops

/-! ## Scaling -/

/-- `g_scale`: scale the value in the primary register by the given value
(a `long`): up when positive, down when negative. -/
def g_scale (E : Env) (flags : Nat) (val : Int) : Gen Unit :=
  if val = 0 then
    Internal "Data type has no size"
  else if val > 0 then
    let p2 := powerof2 (toULong val)
    if p2 > 0 ∧ p2 ≤ 3 then
      if flags &&& E.CF_TYPE = E.CF_CHAR ∧ flags &&& E.CF_FORCECHAR ≠ 0 then
        repeatGen p2.toNat (AddCodeLine "asl a")
      else if flags &&& E.CF_TYPE = E.CF_CHAR ∨ flags &&& E.CF_TYPE = E.CF_INT then
        if E.CodeSizeFactor ≥ (p2.toNat + 1) * 130 then do
          AddCodeLine "stx tmp1"
          repeatGen p2.toNat (do
            AddCodeLine "asl a"
            AddCodeLine "rol tmp1")
          AddCodeLine "ldx tmp1"
        else if flags &&& E.CF_UNSIGNED ≠ 0 then
          AddCodeLine ("jsr shlax" ++ fmtInt p2)
        else
          AddCodeLine ("jsr aslax" ++ fmtInt p2)
      else if flags &&& E.CF_TYPE = E.CF_LONG then
        if flags &&& E.CF_UNSIGNED ≠ 0 then
          AddCodeLine ("jsr shleax" ++ fmtInt p2)
        else
          AddCodeLine ("jsr asleax" ++ fmtInt p2)
      else
        typeerror E flags
    else if val ≠ 1 then
      g_mul E (flags ||| E.CF_CONST) (toULong val)
    else
      pure ()
  else
    let nval : Int := -val
    let p2 := powerof2 (toULong nval)
    if p2 > 0 ∧ p2 ≤ 3 then
      if flags &&& E.CF_TYPE = E.CF_CHAR ∧ flags &&& E.CF_FORCECHAR ≠ 0 ∧
          flags &&& E.CF_UNSIGNED ≠ 0 then
        repeatGen p2.toNat (AddCodeLine "lsr a")
      else if flags &&& E.CF_TYPE = E.CF_CHAR ∧ flags &&& E.CF_FORCECHAR ≠ 0 ∧ p2 ≤ 2 then do
        AddCodeLine "cmp #$80"
        AddCodeLine "ror a"
      else if flags &&& E.CF_TYPE = E.CF_CHAR ∨ flags &&& E.CF_TYPE = E.CF_INT then
        if flags &&& E.CF_UNSIGNED ≠ 0 then
          if E.CodeSizeFactor ≥ (p2.toNat + 1) * 130 then do
            AddCodeLine "stx tmp1"
            repeatGen p2.toNat (do
              AddCodeLine "lsr tmp1"
              AddCodeLine "ror a")
            AddCodeLine "ldx tmp1"
          else
            AddCodeLine ("jsr lsrax" ++ fmtInt p2)
        else if E.CodeSizeFactor ≥ (p2.toNat + 1) * 150 then do
          AddCodeLine "stx tmp1"
          repeatGen p2.toNat (do
            AddCodeLine "cpx #$80"
            AddCodeLine "ror tmp1"
            AddCodeLine "ror a")
          AddCodeLine "ldx tmp1"
        else
          AddCodeLine ("jsr asrax" ++ fmtInt p2)
      else if flags &&& E.CF_TYPE = E.CF_LONG then
        if flags &&& E.CF_UNSIGNED ≠ 0 then
          AddCodeLine ("jsr lsreax" ++ fmtInt p2)
        else
          AddCodeLine ("jsr asreax" ++ fmtInt p2)
      else
        typeerror E flags
    else if nval ≠ 1 then
      g_div E (flags ||| E.CF_CONST) (toULong nval)
    else
      pure ()

/-! ## Function entry and exit, calls -/

/-- Reads the global `funcargs`. -/
def getFuncargs : Gen Int := fun st => .ok (st.funcargs, st)

/-- Writes the global `funcargs`. -/
def setFuncargs (v : Int) : Gen Unit := fun st => .ok ((), { st with funcargs := v })

/-- `g_enter`: function prologue; `funcargs = argsize` converts the
`unsigned` argument to `int`. -/
def g_enter (E : Env) (flags argsize : Nat) : Gen Unit :=
  if flags &&& E.CF_FIXARGC ≠ 0 then
    setFuncargs (toInt argsize)
  else do
    setFuncargs (-1)
    AddCode .OPC_ENTER .AM_IMP none

/-- `g_leave`: function epilogue. -/
def g_leave : Gen Unit := do
  let sp ← getOursp
  let fa ← getFuncargs
  let k : Int := -sp
  (if fa ≥ 0 then
    if k + fa > 0 then do
      CheckLocalOffs (toUnsigned (k + fa))
      AddCode .OPC_SPACE .AM_IMM (some (NumToStr (-(k + fa))))
    else
      pure ()
  else do
    (if k > 0 then
      AddCode .OPC_SPACE .AM_IMM (some (NumToStr (-k)))
    else
      pure ())
    AddCode .OPC_LEAVE .AM_IMP none)
  AddCode .OPC_RET .AM_IMP none

/-- `g_call`: call the specified subroutine name. -/
def g_call (E : Env) (Flags : Nat) (Label : String) (ArgSize : Nat) : Gen Unit := do
  (if Flags &&& E.CF_FIXARGC = 0 then
    ldyconst ArgSize
  else
    pure ())
  AddCodeLine ("jsr _" ++ Label)
  let sp ← getOursp
  setOursp (intAddUnsigned sp ArgSize)

/-- `g_callind`: call subroutine with address in AX. -/
def g_callind (E : Env) (Flags ArgSize : Nat) : Gen Unit := do
  (if Flags &&& E.CF_FIXARGC = 0 then
    ldyconst ArgSize
  else
    pure ())
  AddCodeLine "jsr callax"
  let sp ← getOursp
  setOursp (intAddUnsigned sp ArgSize)

/-! ## Static and indirect accesses, test -/

/-- `g_getstatic`: fetch a static memory cell into the primary register. -/
def g_getstatic (E : Env) (flags label offs : Nat) : Gen Unit := do
  let lbuf ← GetLabelName E flags label offs
  if flags &&& E.CF_TYPE = E.CF_CHAR then
    if flags &&& E.CF_FORCECHAR ≠ 0 ∨ flags &&& E.CF_TEST ≠ 0 then
      AddCodeLine ("lda " ++ lbuf)
    else do
      ldxconst 0
      AddCodeLine ("lda " ++ lbuf)
      (if flags &&& E.CF_UNSIGNED = 0 then
        signExtend E
      else
        pure ())
  else if flags &&& E.CF_TYPE = E.CF_INT then do
    AddCodeLine ("lda " ++ lbuf)
    if flags &&& E.CF_TEST ≠ 0 then
      AddCodeLine ("ora " ++ lbuf ++ "+1")
    else
      AddCodeLine ("ldx " ++ lbuf ++ "+1")
  else if flags &&& E.CF_TYPE = E.CF_LONG then
    if flags &&& E.CF_TEST ≠ 0 then do
      AddCodeLine ("lda " ++ lbuf ++ "+3")
      AddCodeLine ("ora " ++ lbuf ++ "+2")
      AddCodeLine ("ora " ++ lbuf ++ "+1")
      AddCodeLine ("ora " ++ lbuf ++ "+0")
    else do
      AddCodeLine ("lda " ++ lbuf ++ "+3")
      AddCodeLine "sta sreg+1"
      AddCodeLine ("lda " ++ lbuf ++ "+2")
      AddCodeLine "sta sreg"
      AddCodeLine ("ldx " ++ lbuf ++ "+1")
      AddCodeLine ("lda " ++ lbuf)
  else
    typeerror E flags

/-- `g_putstatic`: store the primary register into a static memory cell. -/
def g_putstatic (E : Env) (flags label offs : Nat) : Gen Unit := do
  let lbuf ← GetLabelName E flags label offs
  if flags &&& E.CF_TYPE = E.CF_CHAR then
    AddCode .OPC_STA .AM_ABS (some lbuf)
  else if flags &&& E.CF_TYPE = E.CF_INT then
    AddCode .OPC_STAX .AM_ABS (some lbuf)
  else if flags &&& E.CF_TYPE = E.CF_LONG then
    AddCode .OPC_STEAX .AM_ABS (some lbuf)
  else
    typeerror E flags

/-- `g_getind`: fetch the specified object type indirect through the primary
register into the primary register. -/
def g_getind (E : Env) (flags offs0 : Nat) : Gen Unit := do
  let offs ← MakeByteOffs E flags offs0
  if flags &&& E.CF_TYPE = E.CF_CHAR then
    if offs ≠ 0 then do
      ldyconst offs
      if flags &&& E.CF_UNSIGNED ≠ 0 then
        AddCodeLine "jsr ldauidx"
      else
        AddCodeLine "jsr ldaidx"
    else if flags &&& E.CF_UNSIGNED ≠ 0 then
      if E.CodeSizeFactor > 330 then do
        AddCodeLine "sta ptr1"
        AddCodeLine "stx ptr1+1"
        AddCodeLine "ldy #$00"
        AddCodeLine "ldx #$00"
        AddCodeLine "lda (ptr1),y"
      else
        AddCodeLine "jsr ldaui"
    else
      AddCodeLine "jsr ldai"
  else if flags &&& E.CF_TYPE = E.CF_INT then
    if flags &&& E.CF_TEST ≠ 0 then do
      ldyconst offs
      AddCodeLine "sta ptr1"
      AddCodeLine "stx ptr1+1"
      AddCodeLine "lda (ptr1),y"
      AddCodeLine "iny"
      AddCodeLine "ora (ptr1),y"
    else if offs = 0 then
      AddCodeLine "jsr ldaxi"
    else do
      ldyconst (offs + 1)
      AddCodeLine "jsr ldaxidx"
  else if flags &&& E.CF_TYPE = E.CF_LONG then do
    (if offs = 0 then
      AddCodeLine "jsr ldeaxi"
    else do
      ldyconst (offs + 3)
      AddCodeLine "jsr ldeaxidx")
    if flags &&& E.CF_TEST ≠ 0 then
      AddCodeLine "jsr tsteax"
    else
      pure ()
  else
    typeerror E flags

/-- `g_putind`: store the specified object type in the primary register at
the address on the top of the stack. -/
def g_putind (E : Env) (Flags Offs0 : Nat) : Gen Unit := do
  let n ← sizeofarg E (Flags ||| E.CF_FORCECHAR)
  let Offs ← (if Offs0 &&& 0xFF > 256 - n then do
      AddCodeLine "ldy #$00"
      AddCodeLine "clc"
      AddCodeLine "pha"
      AddCodeLine ("lda #$" ++ fmtHex 2 (Offs0 &&& 0xFF))
      AddCodeLine "adc (sp),y"
      AddCodeLine "sta (sp),y"
      AddCodeLine "iny"
      AddCodeLine ("lda #$" ++ fmtHex 2 ((Offs0 >>> 8) &&& 0xFF))
      AddCodeLine "adc (sp),y"
      AddCodeLine "sta (sp),y"
      AddCodeLine "pla"
      pure 0
    else if Offs0 &&& 0xFF00 ≠ 0 then do
      AddCodeLine "ldy #$01"
      AddCodeLine "clc"
      AddCodeLine "pha"
      AddCodeLine ("lda #$" ++ fmtHex 2 ((Offs0 >>> 8) &&& 0xFF))
      AddCodeLine "adc (sp),y"
      AddCodeLine "sta (sp),y"
      AddCodeLine "pla"
      pure (Offs0 &&& 0x00FF)
    else
      pure Offs0 : Gen Nat)
  (if Flags &&& E.CF_TYPE = E.CF_CHAR then
    if Offs ≠ 0 then do
      ldyconst Offs
      AddCodeLine "jsr staspidx"
    else
      AddCodeLine "jsr staspp"
  else if Flags &&& E.CF_TYPE = E.CF_INT then
    if Offs ≠ 0 then do
      ldyconst Offs
      AddCodeLine "jsr staxspidx"
    else
      AddCodeLine "jsr staxspp"
  else if Flags &&& E.CF_TYPE = E.CF_LONG then
    if Offs ≠ 0 then do
      ldyconst Offs
      AddCodeLine "jsr steaxspidx"
    else
      AddCodeLine "jsr steaxspp"
  else
    typeerror E Flags)
  let _r ← pop E E.CF_PTR
  pure ()

/-- `g_test`: test the value in the primary and set the condition codes. -/
def g_test (E : Env) (flags : Nat) : Gen Unit :=
  if flags &&& E.CF_TYPE = E.CF_CHAR then
    if flags &&& E.CF_FORCECHAR ≠ 0 then
      AddCodeLine "tax"
    else do
      AddCodeLine "stx tmp1"
      AddCodeLine "ora tmp1"
  else if flags &&& E.CF_TYPE = E.CF_INT then do
    AddCodeLine "stx tmp1"
    AddCodeLine "ora tmp1"
  else if flags &&& E.CF_TYPE = E.CF_LONG then
    if flags &&& E.CF_UNSIGNED ≠ 0 then
      AddCodeLine "jsr utsteax"
    else
      AddCodeLine "jsr tsteax"
  else
    typeerror E flags

/-- The result type of a binary operation in the words of the specification:
const iff both operands are const, unsigned iff either is unsigned, long iff
either is long, else int. -/
def typeadjustSpec (E : Env) (lhs rhs : Nat) : Nat :=
  ((if lhs &&& E.CF_CONST ≠ 0 ∧ rhs &&& E.CF_CONST ≠ 0 then E.CF_CONST else 0) |||
    (if lhs &&& E.CF_UNSIGNED ≠ 0 ∨ rhs &&& E.CF_UNSIGNED ≠ 0 then E.CF_UNSIGNED else 0)) |||
    (if lhs &&& E.CF_TYPE = E.CF_LONG ∨ rhs &&& E.CF_TYPE = E.CF_LONG then E.CF_LONG
     else E.CF_INT)

/-- The diagnostic of `CheckLocalOffs`. -/
def tooManyLocals : Diag := .error "Too many local variables"

/-- The output emitted between the states `st` and `st1`. -/
def emitted (st st1 : CGState) : List Emit := st1.out.drop st.out.length

/-- The diagnostics reported between the states `st` and `st1`. -/
def reported (st st1 : CGState) : List Diag := st1.diags.drop st.diags.length

/-- A generator, started in `st`, returns normally in `st1`, having reported
the too-many-locals error and emitted code. -/
def CompletesWithLocalsError (g : Gen Unit) (st : CGState) : Prop :=
  ∃ st1, g st = .ok ((), st1) ∧
    st1.diags = st.diags ++ reported st st1 ∧ tooManyLocals ∈ reported st st1 ∧
    st1.out = st.out ++ emitted st st1 ∧ emitted st st1 ≠ []

/-- A generator, started in `st`, returns normally without reporting a
diagnostic. -/
def CompletesSilently (g : Gen Unit) (st : CGState) : Prop :=
  ∃ st1, g st = .ok ((), st1) ∧ st1.diags = st.diags

/-- A sample environment: flag values in the layout of `codegen.h`, a 6502
target and the default code size factor. -/
def sampleEnv : Env where
  CF_TYPE := 0x0007
  CF_CHAR := 0x0003
  CF_INT := 0x0001
  CF_PTR := 0x0001
  CF_LONG := 0x0000
  CF_UNSIGNED := 0x0010
  CF_CONST := 0x0020
  CF_TEST := 0x0080
  CF_FIXARGC := 0x0100
  CF_FORCECHAR := 0x0200
  CF_REG := 0x0800
  CF_ADDRMASK := 0xF000
  CF_STATIC := 0x0000
  CF_EXTERNAL := 0x1000
  CF_ABSOLUTE := 0x2000
  CF_REGVAR := 0x8000
  CPU := .CPU_6502
  CodeSizeFactor := 100
  LocalLabelName := fun n => "L" ++ fmtHex 4 n
  strAt := fun _ => "sym"

/-- The state at the start of a function; the label counter starts at 1, the
id 0 being the value `g_addaddr_local` keeps for "no label". -/
def initState : CGState :=
  { oursp := 0, funcargs := 0, nextLabel := 1, out := [], diags := [] }

/-- The value `sizeofarg` returns for `flags` (0 when it raises the fatal
error); `sizeofarg` does not read the state. -/
def argSize (E : Env) (flags : Nat) : Nat :=
  match sizeofarg E flags initState with
  | .ok (n, _) => n
  | .error _ => 0

/-- The residual offset in the words of the claim on `MakeByteOffs`: 0 if
`offs mod 256` exceeds `256 - width`, and `offs mod 256` otherwise. -/
def residual (E : Env) (flags offs : Nat) : Nat :=
  if offs % 256 > 256 - argSize E flags then 0 else offs % 256

/-- One call in a sequence of `push` and `pop` calls. -/
inductive StackOp where
  | push (flags : Nat)
  | pop (flags : Nat)
  deriving DecidableEq, Repr

/-- Runs a sequence of `push` and `pop` calls in order. -/
def runOps (E : Env) : List StackOp → Gen Unit
  | [] => pure ()
  | .push f :: rest => do let _r ← push E f; runOps E rest
  | .pop f :: rest => do let _r ← pop E f; runOps E rest

/-- Sum of the argument sizes of the pushed flag words of a sequence. -/
def pushedSum (E : Env) : List StackOp → Nat
  | [] => 0
  | .push f :: rest => argSize E f + pushedSum E rest
  | .pop _ :: rest => pushedSum E rest

/-- Sum of the argument sizes of the popped flag words of a sequence. -/
def poppedSum (E : Env) : List StackOp → Nat
  | [] => 0
  | .push _ :: rest => poppedSum E rest
  | .pop f :: rest => argSize E f + poppedSum E rest

/-- The flag word of a call. -/
def StackOp.flags : StackOp → Nat
  | .push f => f
  | .pop f => f

/-- A prologue, a sequence of `push` and `pop` calls, and the epilogue. -/
def enterOpsLeave (E : Env) (flags argsize : Nat) (ops : List StackOp) : Gen Unit := do
  g_enter E flags argsize
  runOps E ops
  g_leave

/-- The mnemonic of an emitted code line: its first three characters. -/
def lineMnemonic : Emit → List Char
  | .codeLine text => text.data.take 3
  | _ => []

/-- The index of the general-case slot of an operator table:
(3 if unsigned) + (6 if long) + 2. -/
def generalSlot (E : Env) (flags : Nat) : Nat :=
  (if flags &&& E.CF_UNSIGNED ≠ 0 then 3 else 0) +
    (if flags &&& E.CF_TYPE = E.CF_LONG then 6 else 0) + 2

/-- The seventeen binary operators, each with its table of routine names. -/
def binaryOperators : List ((Env → Nat → Nat → Gen Unit) × List (Option String)) :=
  [(g_add, g_add_ops), (g_sub, g_sub_ops), (g_rsub, g_rsub_ops), (g_mul, g_mul_ops),
   (g_div, g_div_ops), (g_mod, g_mod_ops), (g_or, g_or_ops), (g_xor, g_xor_ops),
   (g_and, g_and_ops), (g_asr, g_asr_ops), (g_asl, g_asl_ops), (g_eq, g_eq_ops),
   (g_ne, g_ne_ops), (g_lt, g_lt_ops), (g_le, g_le_ops), (g_gt, g_gt_ops),
   (g_ge, g_ge_ops)]

/-- A generator, started in `st`, returns normally and changes nothing but
the output, to which it appends at least one unit, and the virtual stack
offset, to which it adds `delta`. -/
def EmitsOnly (g : Gen Unit) (st : CGState) (delta : Int) : Prop :=
  ∃ st1, g st = .ok ((), st1) ∧
    st1 = { st with out := st.out ++ emitted st st1, oursp := st.oursp + delta } ∧
    emitted st st1 ≠ []

/-- A generator, started in `st`, returns normally, having reported exactly
the diagnostics `ds` and emitted code. -/
def RunsWith (g : Gen Unit) (st : CGState) (ds : List Diag) : Prop :=
  ∃ st1, g st = .ok ((), st1) ∧ st1.diags = st.diags ++ ds ∧
    st1.out = st.out ++ emitted st st1 ∧ emitted st st1 ≠ []

/-- The calls `jsr <routine><count>` of the shift routines with a fixed shift
count of 1, 2 or 3. -/
def shiftCalls : List Emit :=
  (["shlax", "aslax", "shleax", "asleax", "lsrax", "asrax", "lsreax", "asreax"].map
    fun r => ["1", "2", "3"].map fun d => Emit.codeLine ("jsr " ++ r ++ d)).flatten

/-- Shift code: the inline shift and rotate instructions with the save and
reload of the high byte in `tmp1`, and the calls of the shift routines. -/
def shiftCode : List Emit :=
  [.codeLine "asl a", .codeLine "lsr a", .codeLine "ror a", .codeLine "rol tmp1",
   .codeLine "lsr tmp1", .codeLine "ror tmp1", .codeLine "cmp #$80", .codeLine "cpx #$80",
   .codeLine "stx tmp1", .codeLine "ldx tmp1"] ++ shiftCalls

/-- A call of a push routine or of a routine working on the top of stack
(the names of the multiply and divide routines start with `tos`). -/
def isPushOrTosCall : Emit → Bool
  | .codeLine text => "jsr push".data.isPrefixOf text.data || "jsr tos".data.isPrefixOf text.data
  | _ => false

/-- A generator, started in `st`, returns normally and changes nothing but
the output, to which it appends at least one unit, all of them shift code. -/
def EmitsShiftCode (g : Gen Unit) (st : CGState) : Prop :=
  ∃ st1, g st = .ok ((), st1) ∧ st1 = { st with out := st.out ++ emitted st st1 } ∧
    emitted st st1 ≠ [] ∧ ∀ l ∈ emitted st st1, l ∈ shiftCode

/-- Widening code: the calls that extend the value on the top of the stack or
in the primary register to a long, and the inline clearing of the high word. -/
def wideningCode : List Emit :=
  [.codeLine "jsr tosulong", .codeLine "jsr toslong", .codeLine "jsr axulong",
   .codeLine "jsr axlong", .codeLine "ldy #$00", .codeLine "sty sreg", .codeLine "sty sreg+1"]

/-- The condition under which `g_typeadjust` promotes an operand: exactly one
operand has long width and the other one is no constant. -/
def promotes (E : Env) (lhs rhs : Nat) : Prop :=
  (lhs &&& E.CF_TYPE = E.CF_LONG ∧ rhs &&& E.CF_TYPE ≠ E.CF_LONG ∧ rhs &&& E.CF_CONST = 0) ∨
  (lhs &&& E.CF_TYPE ≠ E.CF_LONG ∧ rhs &&& E.CF_TYPE = E.CF_LONG ∧ lhs &&& E.CF_CONST = 0)

instance (E : Env) (lhs rhs : Nat) : Decidable (promotes E lhs rhs) := by
  unfold promotes
  infer_instance

/-! ## Register variables, compound assignment through a pointer, more -/

/-- The conversion `%+d`: a decimal number that always carries its sign. -/
def fmtSigned (v : Int) : String :=
  if v ≥ 0 then "+" ++ fmtInt v else fmtInt v

/-- `mod_internal`: the stack pointer adjustment by `k` bytes; for `k <= 8`
the routine name ends in the character `k + '0'`. -/
def mod_internal (k : Int) (verb1 verb2 : String) : Gen Unit :=
  if k ≤ 8 then
    AddCodeLine ("jsr " ++ verb1 ++ "sp" ++ String.mk [Char.ofNat (toUnsigned (k + 48) % 256)])
  else do
    CheckLocalOffs (toUnsigned k)
    ldyconst (toUnsigned k)
    AddCodeLine ("jsr " ++ verb2 ++ "sp")

/-- `g_space`: create or drop space on the stack; `space` is an `int`. -/
def g_space (space : Int) : Gen Unit :=
  if space < 0 then
    mod_internal (-space) "inc" "addy"
  else if space > 0 then
    mod_internal space "dec" "suby"
  else
    pure ()

/-- `g_save_regvars`: save register variables; `RegOffs` is an `int`, `Bytes`
an `unsigned`. -/
def g_save_regvars (E : Env) (RegOffs : Int) (Bytes : Nat) : Gen Unit := do
  (if Bytes = 1 then do
    AddCodeLine ("lda regbank" ++ fmtSigned RegOffs)
    AddCodeLine "jsr pusha"
  else if Bytes = 2 then do
    AddCodeLine ("lda regbank" ++ fmtSigned RegOffs)
    AddCodeLine ("ldx regbank" ++ fmtSigned (RegOffs + 1))
    AddCodeLine "jsr pushax"
  else do
    let Label ← GetLocalLabel
    g_space (toInt Bytes)
    ldyconst (toUnsigned ((Bytes : Int) - 1))
    ldxconst Bytes
    g_defcodelabel E Label
    AddCodeLine ("lda regbank" ++ fmtSigned (RegOffs - 1) ++ ",x")
    AddCodeLine "sta (sp),y"
    AddCodeLine "dey"
    AddCodeLine "dex"
    AddCodeLine ("bne " ++ E.LocalLabelName Label))
  let sp ← getOursp
  setOursp (intSubUnsigned sp Bytes)

/-- `g_restore_regvars`: restore register variables; `StackOffs` and
`RegOffs` are `int`s, `Bytes` an `unsigned`. -/
def g_restore_regvars (E : Env) (StackOffs0 RegOffs : Int) (Bytes : Nat) : Gen Unit := do
  let sp ← getOursp
  let StackOffs : Int := StackOffs0 - sp
  CheckLocalOffs (toUnsigned StackOffs)
  if Bytes = 1 then do
    ldyconst (toUnsigned StackOffs)
    AddCodeLine "lda (sp),y"
    AddCodeLine ("sta regbank" ++ fmtSigned RegOffs)
  else if Bytes = 2 then do
    ldyconst (toUnsigned StackOffs)
    AddCodeLine "lda (sp),y"
    AddCodeLine ("sta regbank" ++ fmtSigned RegOffs)
    AddCodeLine "iny"
    AddCodeLine "lda (sp),y"
    AddCodeLine ("sta regbank" ++ fmtSigned (RegOffs + 1))
  else do
    let Label ← GetLocalLabel
    ldyconst (toUnsigned (StackOffs + Bytes - 1))
    ldxconst Bytes
    g_defcodelabel E Label
    AddCodeLine "lda (sp),y"
    AddCodeLine ("sta regbank" ++ fmtSigned (RegOffs - 1) ++ ",x")
    AddCodeLine "dey"
    AddCodeLine "dex"
    AddCodeLine ("bne " ++ E.LocalLabelName Label)

/-- The body of `g_dec` for an int, and for a char without `CF_FORCECHAR`
that falls through to it; `flags` has `CF_CONST` cleared already. -/
def g_dec_int (E : Env) (flags val : Nat) : Gen Unit :=
  if E.CodeSizeFactor < 200 then
    if val ≤ 8 then
      AddCodeLine ("jsr decax" ++ fmtInt (toInt val))
    else if val ≤ 255 then do
      ldyconst val
      AddCodeLine "jsr decaxy"
    else
      g_sub E (flags ||| E.CF_CONST) val
  else if val < 0x300 then do
    (if val &&& 0xFF ≠ 0 then do
      let L ← GetLocalLabel
      AddCodeLine "sec"
      AddCodeLine ("sbc #$" ++ fmtHex 2 (val % 256))
      AddCodeLine ("bcs " ++ E.LocalLabelName L)
      AddCodeLine "dex"
      g_defcodelabel E L
    else
      pure ())
    (if val ≥ 0x100 then AddCodeLine "dex" else pure ())
    (if val ≥ 0x200 then AddCodeLine "dex" else pure ())
  else do
    AddCodeLine "sec"
    (if val &&& 0xFF ≠ 0 then
      AddCodeLine ("sbc #$" ++ fmtHex 2 (val % 256))
    else
      pure ())
    AddCodeLine "pha"
    AddCodeLine "txa"
    AddCodeLine ("sbc #$" ++ fmtHex 2 ((val >>> 8) % 256))
    AddCodeLine "tax"
    AddCodeLine "pla"

/-- `g_dec`: decrement the primary register by a given number. -/
def g_dec (E : Env) (flags0 val : Nat) : Gen Unit :=
  if val = 0 then
    pure ()
  else
    let flags := flags0 &&& unot E.CF_CONST
    if flags &&& E.CF_TYPE = E.CF_CHAR then
      if flags &&& E.CF_FORCECHAR ≠ 0 then
        if E.CPU = .CPU_65C02 ∧ val ≤ 2 then
          repeatGen val (AddCodeLine "dea")
        else do
          AddCodeLine "sec"
          AddCodeLine ("sbc #$" ++ fmtHex 2 (val % 256))
      else
        g_dec_int E flags val
    else if flags &&& E.CF_TYPE = E.CF_INT then
      g_dec_int E flags val
    else if flags &&& E.CF_TYPE = E.CF_LONG then
      if val ≤ 255 then do
        ldyconst val
        AddCodeLine "jsr deceaxy"
      else
        g_sub E (flags ||| E.CF_CONST) val
    else
      typeerror E flags

/-- `g_addeqind`: emit `+=` for the location with address in ax. -/
def g_addeqind (E : Env) (flags offs0 val : Nat) : Gen Unit := do
  let offs ← MakeByteOffs E flags offs0
  if flags &&& E.CF_TYPE = E.CF_CHAR then do
    AddCodeLine "sta ptr1"
    AddCodeLine "stx ptr1+1"
    AddCodeLine ("ldy #$" ++ fmtHex 2 offs)
    AddCodeLine "ldx #$00"
    AddCodeLine ("lda #$" ++ fmtHex 2 (val &&& 0xFF))
    AddCodeLine "clc"
    AddCodeLine "adc (ptr1),y"
    AddCodeLine "sta (ptr1),y"
  else if flags &&& E.CF_TYPE = E.CF_INT ∧ E.CodeSizeFactor ≥ 200 then do
    AddCodeLine "sta ptr1"
    AddCodeLine "stx ptr1+1"
    AddCodeLine ("ldy #$" ++ fmtHex 2 offs)
    AddCodeLine ("lda #$" ++ fmtHex 2 (val &&& 0xFF))
    AddCodeLine "clc"
    AddCodeLine "adc (ptr1),y"
    AddCodeLine "sta (ptr1),y"
    AddCodeLine "pha"
    AddCodeLine "iny"
    AddCodeLine ("lda #$" ++ fmtHex 2 ((val >>> 8) % 256))
    AddCodeLine "adc (ptr1),y"
    AddCodeLine "sta (ptr1),y"
    AddCodeLine "tax"
    AddCodeLine "pla"
  else if flags &&& E.CF_TYPE = E.CF_INT ∨ flags &&& E.CF_TYPE = E.CF_LONG then do
    AddCodeLine "jsr pushax"
    let _r ← push E flags
    g_getind E flags offs
    g_inc E flags val
    g_putind E flags offs
  else
    typeerror E flags

/-- `g_subeqind`: emit `-=` for the location with address in ax. -/
def g_subeqind (E : Env) (flags offs0 val : Nat) : Gen Unit := do
  let offs ← MakeByteOffs E flags offs0
  if flags &&& E.CF_TYPE = E.CF_CHAR then do
    AddCodeLine "sta ptr1"
    AddCodeLine "stx ptr1+1"
    AddCodeLine ("ldy #$" ++ fmtHex 2 offs)
    AddCodeLine "ldx #$00"
    AddCodeLine "lda (ptr1),y"
    AddCodeLine "sec"
    AddCodeLine ("sbc #$" ++ fmtHex 2 (val % 256))
    AddCodeLine "sta (ptr1),y"
  else if flags &&& E.CF_TYPE = E.CF_INT ∧ E.CodeSizeFactor ≥ 200 then do
    AddCodeLine "sta ptr1"
    AddCodeLine "stx ptr1+1"
    AddCodeLine ("ldy #$" ++ fmtHex 2 offs)
    AddCodeLine "lda (ptr1),y"
    AddCodeLine "sec"
    AddCodeLine ("sbc #$" ++ fmtHex 2 (val % 256))
    AddCodeLine "sta (ptr1),y"
    AddCodeLine "pha"
    AddCodeLine "iny"
    AddCodeLine "lda (ptr1),y"
    AddCodeLine ("sbc #$" ++ fmtHex 2 ((val >>> 8) % 256))
    AddCodeLine "sta (ptr1),y"
    AddCodeLine "tax"
    AddCodeLine "pla"
  else if flags &&& E.CF_TYPE = E.CF_INT ∨ flags &&& E.CF_TYPE = E.CF_LONG then do
    AddCodeLine "jsr pushax"
    let _r ← push E flags
    g_getind E flags offs
    g_dec E flags val
    g_putind E flags offs
  else
    typeerror E flags

/-- `g_addlocal`: add a local variable to ax; `offs` is an `int`. -/
def g_addlocal (E : Env) (flags : Nat) (offs0 : Int) : Gen Unit := do
  let sp ← getOursp
  let offs : Int := offs0 - sp
  CheckLocalOffs (toUnsigned offs)
  if flags &&& E.CF_TYPE = E.CF_CHAR then do
    let L ← GetLocalLabel
    AddCodeLine ("ldy #$" ++ fmtHex 2 (toUnsigned offs &&& 0xFF))
    AddCodeLine "clc"
    AddCodeLine "adc (sp),y"
    AddCodeLine ("bcc " ++ E.LocalLabelName L)
    AddCodeLine "inx"
    g_defcodelabel E L
  else if flags &&& E.CF_TYPE = E.CF_INT then do
    AddCodeLine ("ldy #$" ++ fmtHex 2 (toUnsigned offs &&& 0xFF))
    AddCodeLine "clc"
    AddCodeLine "adc (sp),y"
    AddCodeLine "pha"
    AddCodeLine "txa"
    AddCodeLine "iny"
    AddCodeLine "adc (sp),y"
    AddCodeLine "tax"
    AddCodeLine "pla"
  else if flags &&& E.CF_TYPE = E.CF_LONG then do
    g_push E flags 0
    g_getlocal E flags offs
    g_add E flags 0
  else
    typeerror E flags

/-- `g_addaddr_local`: add the address of a local variable to ax; `offs` is
an `int`, the local `L` starts as 0; the parameter `flags` is not used. -/
def g_addaddr_local (E : Env) (_flags : Nat) (offs0 : Int) : Gen Unit := do
  let sp ← getOursp
  let offs : Int := offs0 - sp
  let L ← (if offs ≠ 0 then do
      let L ← GetLocalLabel
      CheckLocalOffs (toUnsigned offs)
      AddCodeLine "clc"
      AddCodeLine ("adc #$" ++ fmtHex 2 (toUnsigned offs &&& 0xFF))
      AddCodeLine ("bcc " ++ E.LocalLabelName L)
      AddCodeLine "inx"
      pure L
    else
      pure 0 : Gen Nat)
  AddCodeLine "clc"
  (if L ≠ 0 then
    g_defcodelabel E L
  else
    pure ())
  AddCodeLine "adc sp"
  AddCodeLine "tay"
  AddCodeLine "txa"
  AddCodeLine "adc sp+1"
  AddCodeLine "tax"
  AddCodeLine "tya"

/-! ## Static storage -/

/-- `AddDataLine (...)`, applied to the formatted line. -/
def AddDataLine (text : String) : Gen Unit := emit (.dataLine text)

/-- The inner `do ... while (Chunk)` loop of `g_defbytes`, started with
`Chunk = n + 1`: appends `$XX` for the next byte of `Data` and a comma if
bytes remain for this line; returns the buffer and the advanced `Data`. A
byte read through `*Data++` is an `unsigned char`. -/
def defbytesLine : Nat → List Nat → String → String × List Nat
  | 0, Data, Buf => (Buf ++ "$" ++ fmtHex 2 (Data.headD 0 % 256), Data.tail)
  | n + 1, Data, Buf =>
    defbytesLine n Data.tail (Buf ++ "$" ++ fmtHex 2 (Data.headD 0 % 256) ++ ",")

/-- The `while (Count)` loop of `g_defbytes`; the first argument bounds the
number of iterations (every iteration takes at least one byte off `Count`,
so `Count` iterations are enough). -/
def defbytesLoop : Nat → List Nat → Nat → Gen Unit
  | 0, _, _ => pure ()
  | fuel + 1, Data, Count =>
    if Count ≠ 0 then
      let Chunk := if Count > 16 then 16 else Count
      let line := defbytesLine (Chunk - 1) Data "\t.byte\t"
      do
        AddDataLine line.1
        defbytesLoop fuel line.2 (Count - Chunk)
    else
      pure ()

/-- `g_defbytes`: output a row of bytes as a constant; `Bytes` is the memory
behind the pointer. -/
def g_defbytes (Bytes : List Nat) (Count : Nat) : Gen Unit :=
  defbytesLoop Count Bytes Count

/-- A generator, started in `st`, returns normally and leaves the virtual
stack offset as it was. -/
def StackNeutral (g : Gen Unit) (st : CGState) : Prop :=
  ∃ st1, g st = .ok ((), st1) ∧ st1.oursp = st.oursp

/-- The sixteen binary operators that treat a constant right operand
(all but `g_rsub`). -/
def constOperators : List (Env → Nat → Nat → Gen Unit) :=
  [g_add, g_sub, g_mul, g_div, g_mod, g_or, g_xor, g_and, g_asr, g_asl, g_eq, g_ne, g_lt,
   g_le, g_gt, g_ge]

/-- A call of a modulo routine: a line that starts with `jsr tosmod` or
`jsr tosumod`. -/
def isModCall : Emit → Bool
  | .codeLine text =>
    "jsr tosmod".data.isPrefixOf text.data || "jsr tosumod".data.isPrefixOf text.data
  | _ => false

/-- One item of a `.byte` line: `$` and the two hexadecimal digits of a
byte. -/
def byteItem (b : Nat) : String := "$" ++ fmtHex 2 b

/-- Items separated by commas, without a trailing comma. -/
def joinItems : List String → String
  | [] => ""
  | [a] => a
  | a :: b :: rest => a ++ "," ++ joinItems (b :: rest)

/-- A data line in the words of the claim: `\t.byte\t` followed by the
comma-separated items of the bytes of the line. -/
def byteLine (chunk : List Nat) : String := "\t.byte\t" ++ joinItems (chunk.map byteItem)

/-- The consecutive chunks of 16 bytes of a sequence, the last one possibly
shorter; the first argument bounds the number of chunks. -/
def chunks16 : Nat → List Nat → List (List Nat)
  | 0, _ => []
  | _ + 1, [] => []
  | fuel + 1, b :: bs => (b :: bs).take 16 :: chunks16 fuel ((b :: bs).drop 16)

/-- The lines of bytes of a sequence, 16 bytes to a line. -/
def byteChunks (Bytes : List Nat) : List (List Nat) := chunks16 Bytes.length Bytes

/-! # Theorems -/

/-! ## The monad -/

theorem Gen.pure_apply {α : Type} (a : α) (st : CGState) :
    (pure a : Gen α) st = .ok (a, st) := rfl

theorem Gen.bind_apply {α β : Type} (m : Gen α) (f : α → Gen β) (st : CGState) :
    (m >>= f) st = match m st with
      | .ok (a, st1) => f a st1
      | .error e => .error e := rfl

theorem Gen.bind_of_ok {α β : Type} {m : Gen α} {f : α → Gen β} {st st1 : CGState} {a : α}
    (h : m st = .ok (a, st1)) : (m >>= f) st = f a st1 := by
  rw [Gen.bind_apply, h]

theorem Gen.bind_of_error {α β : Type} {m : Gen α} {f : α → Gen β} {st : CGState}
    {e : Fatal × CGState} (h : m st = .error e) : (m >>= f) st = .error e := by
  rw [Gen.bind_apply, h]

/-! ## Bit fields -/

theorem isBit_and (m x : Nat) (hm : IsBit m) : x &&& m = 0 ∨ x &&& m = m := by
  obtain ⟨k, _, rfl⟩ := hm
  cases hx : x.testBit k
  · left
    apply Nat.eq_of_testBit_eq
    intro i
    simp only [Nat.testBit_and, Nat.testBit_two_pow, Nat.zero_testBit]
    by_cases hki : k = i
    · subst hki; simp [hx]
    · simp [hki]
  · right
    apply Nat.eq_of_testBit_eq
    intro i
    simp only [Nat.testBit_and, Nat.testBit_two_pow]
    by_cases hki : k = i
    · subst hki; simp [hx]
    · simp [hki]

theorem isBit_disjoint (a b : Nat) (ha : IsBit a) (hb : IsBit b) (h : a ≠ b) : a &&& b = 0 := by
  obtain ⟨j, _, rfl⟩ := ha
  obtain ⟨k, _, rfl⟩ := hb
  have hjk : j ≠ k := fun e => h (by rw [e])
  apply Nat.eq_of_testBit_eq
  intro i
  simp only [Nat.testBit_and, Nat.testBit_two_pow, Nat.zero_testBit]
  by_cases hji : j = i
  · subst hji; simp [Ne.symm hjk]
  · simp [hji]

theorem isBit_lt (m : Nat) (hm : IsBit m) : m < 2 ^ 32 := by
  obtain ⟨k, hk, rfl⟩ := hm
  exact Nat.pow_lt_pow_right (by norm_num) hk

theorem and_or_zero (a b m : Nat) (ha : a &&& m = 0) (hb : b &&& m = 0) : (a ||| b) &&& m = 0 := by
  apply Nat.eq_of_testBit_eq
  intro i
  have h1 := congrArg (fun z => z.testBit i) ha
  have h2 := congrArg (fun z => z.testBit i) hb
  simp only [Nat.testBit_and, Nat.zero_testBit] at h1 h2
  simp only [Nat.testBit_and, Nat.testBit_or, Nat.zero_testBit]
  revert h1 h2
  cases a.testBit i <;> cases b.testBit i <;> cases m.testBit i <;> simp

theorem and_of_sub_zero (w t m : Nat) (hw : w &&& t = w) (hm : m &&& t = 0) : w &&& m = 0 := by
  apply Nat.eq_of_testBit_eq
  intro i
  have h1 := congrArg (fun z => z.testBit i) hw
  have h2 := congrArg (fun z => z.testBit i) hm
  simp only [Nat.testBit_and, Nat.zero_testBit] at h1 h2
  simp only [Nat.testBit_and, Nat.zero_testBit]
  revert h1 h2
  cases w.testBit i <;> cases t.testBit i <;> cases m.testBit i <;> simp

theorem unot_testBit (x i : Nat) : (unot x).testBit i = (decide (i < 32) != x.testBit i) := by
  unfold unot
  rw [Nat.testBit_xor]
  have : (0xFFFFFFFF : Nat) = 2 ^ 32 - 1 := by norm_num
  rw [this, Nat.testBit_two_pow_sub_one]

theorem and_unot_or (x t l c : Nat) (hc : c &&& t = 0) (hl : l &&& c = 0) (hlt : c < 2 ^ 32) :
    ((x &&& unot t) ||| l) &&& c = x &&& c := by
  apply Nat.eq_of_testBit_eq
  intro i
  have h1 := congrArg (fun z => z.testBit i) hc
  have h2 := congrArg (fun z => z.testBit i) hl
  simp only [Nat.testBit_and, Nat.zero_testBit] at h1 h2
  simp only [Nat.testBit_and, Nat.testBit_or, unot_testBit]
  by_cases hi : i < 32
  · simp only [hi, decide_True]
    revert h1 h2
    cases x.testBit i <;> cases t.testBit i <;> cases l.testBit i <;> cases c.testBit i <;> simp
  · have : c.testBit i = false := by
      apply Nat.testBit_lt_two_pow
      exact lt_of_lt_of_le hlt (Nat.pow_le_pow_right (by norm_num) (by omega))
    simp [this]

theorem and_unot_type (x t l : Nat) (hl : l &&& t = l) (hlt : t < 2 ^ 32) :
    ((x &&& unot t) ||| l) &&& t = l := by
  apply Nat.eq_of_testBit_eq
  intro i
  have h1 := congrArg (fun z => z.testBit i) hl
  simp only [Nat.testBit_and] at h1
  simp only [Nat.testBit_and, Nat.testBit_or, unot_testBit]
  by_cases hi : i < 32
  · simp only [hi, decide_True]
    revert h1
    cases x.testBit i <;> cases t.testBit i <;> cases l.testBit i <;> simp
  · have : t.testBit i = false := by
      apply Nat.testBit_lt_two_pow
      exact lt_of_lt_of_le hlt (Nat.pow_le_pow_right (by norm_num) (by omega))
    rw [this] at h1
    simp only [Bool.and_false] at h1
    simp [this, ← h1]

theorem sampleEnv_wf : sampleEnv.WF where
  type_lt := by decide
  char_ne_int := by decide
  char_ne_long := by decide
  int_ne_long := by decide
  char_sub := by decide
  int_sub := by decide
  long_sub := by decide
  ptr_int := rfl
  unsigned_bit := ⟨4, by decide, by decide⟩
  const_bit := ⟨5, by decide, by decide⟩
  test_bit := ⟨7, by decide, by decide⟩
  fixargc_bit := ⟨8, by decide, by decide⟩
  forcechar_bit := ⟨9, by decide, by decide⟩
  reg_bit := ⟨11, by decide, by decide⟩
  unsigned_type := by decide
  const_type := by decide
  test_type := by decide
  fixargc_type := by decide
  forcechar_type := by decide
  reg_type := by decide
  const_ne_unsigned := by decide
  const_ne_test := by decide
  const_ne_forcechar := by decide
  const_ne_reg := by decide
  unsigned_ne_test := by decide
  unsigned_ne_forcechar := by decide
  unsigned_ne_reg := by decide
  addrmask_lt := by decide
  addr_type := by decide
  addr_unsigned := by decide
  addr_const := by decide
  static_ne_external := by decide
  static_ne_absolute := by decide
  static_ne_regvar := by decide
  external_ne_absolute := by decide
  external_ne_regvar := by decide
  absolute_ne_regvar := by decide


/-! ## sizeofarg, push and pop -/

theorem sizeofarg_apply (E : Env) (flags : Nat) (st : CGState) :
    sizeofarg E flags st =
      if flags &&& E.CF_TYPE = E.CF_CHAR then
        .ok (if flags &&& E.CF_FORCECHAR ≠ 0 then 1 else 2, st)
      else if flags &&& E.CF_TYPE = E.CF_INT then .ok (2, st)
      else if flags &&& E.CF_TYPE = E.CF_LONG then .ok (4, st)
      else .error (.internal ("Invalid type in CF flags: " ++ fmtHex 4 flags ++ ", type = " ++
        fmtDec (flags &&& E.CF_TYPE)), st) := by
  unfold sizeofarg
  split_ifs <;> rfl

theorem sizeofarg_eq_argSize (E : Env) (flags : Nat) (h : ValidWidth E flags) (st : CGState) :
    sizeofarg E flags st = .ok (argSize E flags, st) := by
  unfold argSize
  rw [sizeofarg_apply, sizeofarg_apply]
  unfold ValidWidth at h
  split_ifs <;> first | rfl | (exfalso; tauto)

/-- C1: `sizeofarg` returns 1 for a char with `CF_FORCECHAR`, 2 for a char
without it and for an int, 4 for a long, and raises the fatal internal error
for every other width field; the returned value depends only on the width
field and the `CF_FORCECHAR` bit, and the state (virtual stack offset and
output included) is unchanged. -/
theorem sizeofarg_contract (E : Env) (hE : E.WF) (flags : Nat) (st : CGState) :
    (flags &&& E.CF_TYPE = E.CF_CHAR → flags &&& E.CF_FORCECHAR ≠ 0 →
        sizeofarg E flags st = .ok (1, st)) ∧
    (flags &&& E.CF_TYPE = E.CF_CHAR → flags &&& E.CF_FORCECHAR = 0 →
        sizeofarg E flags st = .ok (2, st)) ∧
    (flags &&& E.CF_TYPE = E.CF_INT → sizeofarg E flags st = .ok (2, st)) ∧
    (flags &&& E.CF_TYPE = E.CF_LONG → sizeofarg E flags st = .ok (4, st)) ∧
    (¬ ValidWidth E flags → ∃ msg, sizeofarg E flags st = .error (.internal msg, st)) ∧
    (∀ n st1, sizeofarg E flags st = .ok (n, st1) →
        st1 = st ∧ st1.oursp = st.oursp ∧ st1.out = st.out) ∧
    (∀ other st2, other &&& E.CF_TYPE = flags &&& E.CF_TYPE →
        other &&& E.CF_FORCECHAR = flags &&& E.CF_FORCECHAR →
        ∀ n, sizeofarg E other st2 = .ok (n, st2) ↔ sizeofarg E flags st = .ok (n, st)) := by
  have hci := hE.char_ne_int
  have hcl := hE.char_ne_long
  have hil := hE.int_ne_long
  refine ⟨?_, ?_, ?_, ?_, ?_, ?_, ?_⟩
  · intro h hf
    rw [sizeofarg_apply, if_pos h, if_pos hf]
  · intro h hf
    rw [sizeofarg_apply, if_pos h, if_neg (by simp [hf])]
  · intro h
    rw [sizeofarg_apply, if_neg (by rw [h]; exact Ne.symm hci), if_pos h]
  · intro h
    rw [sizeofarg_apply, if_neg (by rw [h]; exact Ne.symm hcl),
      if_neg (by rw [h]; exact Ne.symm hil), if_pos h]
  · intro h
    simp only [ValidWidth, not_or] at h
    rw [sizeofarg_apply, if_neg h.1, if_neg h.2.1, if_neg h.2.2]
    exact ⟨_, rfl⟩
  · intro n st1 h
    rw [sizeofarg_apply] at h
    split_ifs at h <;> simp only [Except.ok.injEq, Prod.mk.injEq, reduceCtorEq] at h <;>
      simp [← h.2]
  · intro other st2 ht hf n
    rw [sizeofarg_apply, sizeofarg_apply, ht, hf]
    split_ifs <;> simp

theorem sizeofarg_contract_witness :
    sampleEnv.WF ∧ sizeofarg sampleEnv 0x203 initState = .ok (1, initState) :=
  ⟨sampleEnv_wf, (sizeofarg_contract sampleEnv sampleEnv_wf 0x203 initState).1
    (by decide) (by decide)⟩

theorem push_eq (E : Env) (flags : Nat) (h : ValidWidth E flags) (st : CGState) :
    push E flags st = .ok (st.oursp - argSize E flags,
      { st with oursp := st.oursp - argSize E flags }) := by
  unfold push
  rw [Gen.bind_of_ok (sizeofarg_eq_argSize E flags h st)]
  rfl

theorem pop_eq (E : Env) (flags : Nat) (h : ValidWidth E flags) (st : CGState) :
    pop E flags st = .ok (st.oursp + argSize E flags,
      { st with oursp := st.oursp + argSize E flags }) := by
  unfold pop
  rw [Gen.bind_of_ok (sizeofarg_eq_argSize E flags h st)]
  rfl

theorem runOps_ok (E : Env) (ops : List StackOp) :
    (∀ op ∈ ops, ValidWidth E op.flags) → ∀ st : CGState,
    runOps E ops st = .ok ((), { st with
      oursp := st.oursp + poppedSum E ops - pushedSum E ops }) := by
  induction ops with
  | nil =>
    intro _ st
    simp [runOps, poppedSum, pushedSum, Gen.pure_apply]
  | cons op rest ih =>
    intro hv st
    have hrest : ∀ o ∈ rest, ValidWidth E o.flags := fun o ho => hv o (List.mem_cons_of_mem _ ho)
    have hop : ValidWidth E op.flags := hv op (List.mem_cons_self _ _)
    cases op with
    | push f =>
      simp only [runOps]
      rw [Gen.bind_of_ok (push_eq E f hop st), ih hrest]
      simp only [poppedSum, pushedSum, Nat.cast_add]
      congr 2
      ring_nf
    | pop f =>
      simp only [runOps]
      rw [Gen.bind_of_ok (pop_eq E f hop st), ih hrest]
      simp only [poppedSum, pushedSum, Nat.cast_add]
      congr 2
      ring_nf

theorem emit_apply (e : Emit) (st : CGState) :
    emit e st = .ok ((), { st with out := st.out ++ [e] }) := rfl

theorem AddCodeLine_apply (text : String) (st : CGState) :
    AddCodeLine text st = .ok ((), { st with out := st.out ++ [.codeLine text] }) := rfl

theorem validWidth_int (E : Env) (hE : E.WF) : ValidWidth E E.CF_INT :=
  Or.inr (Or.inl hE.int_sub)

theorem g_reglong_ok (E : Env) (flags : Nat) (h : ValidWidth E flags) (st : CGState) :
    ∃ st1, g_reglong E flags st = .ok ((), st1) := by
  unfold g_reglong ldyconst
  unfold ValidWidth at h
  split_ifs <;> first
    | exact ⟨_, rfl⟩
    | (exfalso; tauto)

theorem g_toslong_ok (E : Env) (hE : E.WF) (flags : Nat) (h : ValidWidth E flags)
    (st : CGState) : ∃ st1, g_toslong E flags st = .ok ((), st1) := by
  unfold g_toslong
  unfold ValidWidth at h
  split_ifs <;> first
    | exact ⟨_, rfl⟩
    | (exfalso; tauto)
    | (rw [Gen.bind_of_ok (AddCodeLine_apply _ _),
         Gen.bind_of_ok (push_eq E _ (validWidth_int E hE) _)]
       exact ⟨_, rfl⟩)

theorem and_and_bit (m x y : Nat) (hm : IsBit m) :
    (x &&& m) &&& (y &&& m) = if x &&& m ≠ 0 ∧ y &&& m ≠ 0 then m else 0 := by
  have hm0 : m ≠ 0 := by
    obtain ⟨k, _, rfl⟩ := hm
    positivity
  rcases isBit_and m x hm with hx | hx <;> rcases isBit_and m y hm with hy | hy <;>
    simp [hx, hy, hm0]

theorem or_and_bit (m x y : Nat) (hm : IsBit m) :
    (x &&& m) ||| (y &&& m) = if x &&& m ≠ 0 ∨ y &&& m ≠ 0 then m else 0 := by
  have hm0 : m ≠ 0 := by
    obtain ⟨k, _, rfl⟩ := hm
    positivity
  rcases isBit_and m x hm with hx | hx <;> rcases isBit_and m y hm with hy | hy <;>
    simp [hx, hy, hm0]

theorem typeadjustResult_eq (E : Env) (hE : E.WF) (lhs rhs ltype rtype : Nat) :
    typeadjustResult E lhs rhs ltype rtype =
      ((if lhs &&& E.CF_CONST ≠ 0 ∧ rhs &&& E.CF_CONST ≠ 0 then E.CF_CONST else 0) |||
        (if lhs &&& E.CF_UNSIGNED ≠ 0 ∨ rhs &&& E.CF_UNSIGNED ≠ 0 then E.CF_UNSIGNED else 0)) |||
        (if rtype = E.CF_LONG ∨ ltype = E.CF_LONG then E.CF_LONG else E.CF_INT) := by
  unfold typeadjustResult
  rw [and_and_bit _ _ _ hE.const_bit, or_and_bit _ _ _ hE.unsigned_bit]

theorem promoted_const (E : Env) (hE : E.WF) (x : Nat) :
    ((x &&& unot E.CF_TYPE) ||| E.CF_LONG) &&& E.CF_CONST = x &&& E.CF_CONST :=
  and_unot_or x _ _ _ hE.const_type (and_of_sub_zero _ _ _ hE.long_sub hE.const_type)
    (isBit_lt _ hE.const_bit)

theorem promoted_unsigned (E : Env) (hE : E.WF) (x : Nat) :
    ((x &&& unot E.CF_TYPE) ||| E.CF_LONG) &&& E.CF_UNSIGNED = x &&& E.CF_UNSIGNED :=
  and_unot_or x _ _ _ hE.unsigned_type (and_of_sub_zero _ _ _ hE.long_sub hE.unsigned_type)
    (isBit_lt _ hE.unsigned_bit)

theorem g_typeadjust_value (E : Env) (hE : E.WF) (lhs rhs : Nat) (hl : ValidWidth E lhs)
    (hr : ValidWidth E rhs) (st : CGState) :
    ∃ st1, g_typeadjust E lhs rhs st = .ok (typeadjustSpec E lhs rhs, st1) := by
  unfold g_typeadjust
  by_cases h1 : lhs &&& E.CF_TYPE = E.CF_LONG ∧ rhs &&& E.CF_TYPE ≠ E.CF_LONG ∧
      rhs &&& E.CF_CONST = 0
  · rw [if_pos h1]
    obtain ⟨st1, hst1⟩ := g_reglong_ok E rhs hr st
    refine ⟨st1, ?_⟩
    rw [Gen.bind_of_ok hst1, Gen.pure_apply, typeadjustResult_eq E hE, promoted_const E hE,
      promoted_unsigned E hE]
    unfold typeadjustSpec
    simp [h1.1]
  · rw [if_neg h1]
    by_cases h2 : lhs &&& E.CF_TYPE ≠ E.CF_LONG ∧ lhs &&& E.CF_CONST = 0 ∧
        rhs &&& E.CF_TYPE = E.CF_LONG
    · rw [if_pos h2]
      have hp : ∃ st1, (if lhs &&& E.CF_REG ≠ 0 then g_reglong E lhs else g_toslong E lhs) st =
          .ok ((), st1) := by
        split_ifs
        · exact g_reglong_ok E lhs hl st
        · exact g_toslong_ok E hE lhs hl st
      obtain ⟨st1, hst1⟩ := hp
      refine ⟨st1, ?_⟩
      rw [Gen.bind_of_ok hst1, Gen.pure_apply, typeadjustResult_eq E hE, promoted_const E hE,
        promoted_unsigned E hE]
      unfold typeadjustSpec
      simp [h2.2.2]
    · rw [if_neg h2]
      refine ⟨st, ?_⟩
      rw [Gen.pure_apply, typeadjustResult_eq E hE]
      unfold typeadjustSpec
      simp only [or_comm]

theorem typeadjustSpec_comm (E : Env) (lhs rhs : Nat) :
    typeadjustSpec E rhs lhs = typeadjustSpec E lhs rhs := by
  unfold typeadjustSpec
  simp only [and_comm, or_comm]

theorem or3_and (c u w m : Nat) :
    ((c ||| u) ||| w) &&& m = ((c &&& m) ||| (u &&& m)) ||| (w &&& m) := by
  apply Nat.eq_of_testBit_eq
  intro i
  simp only [Nat.testBit_and, Nat.testBit_or]
  cases c.testBit i <;> cases u.testBit i <;> cases w.testBit i <;> cases m.testBit i <;> rfl

/-- Masking the result type with a field `m`, given what `m` has in common
with the const bit, the unsigned bit and the two result widths. -/
theorem typeadjustSpec_and (E : Env) (lhs rhs m mc mu ml mi : Nat)
    (hc : E.CF_CONST &&& m = mc) (hu : E.CF_UNSIGNED &&& m = mu)
    (hl : E.CF_LONG &&& m = ml) (hi : E.CF_INT &&& m = mi) :
    typeadjustSpec E lhs rhs &&& m =
      ((if lhs &&& E.CF_CONST ≠ 0 ∧ rhs &&& E.CF_CONST ≠ 0 then mc else 0) |||
        (if lhs &&& E.CF_UNSIGNED ≠ 0 ∨ rhs &&& E.CF_UNSIGNED ≠ 0 then mu else 0)) |||
        (if lhs &&& E.CF_TYPE = E.CF_LONG ∨ rhs &&& E.CF_TYPE = E.CF_LONG then ml else mi) := by
  unfold typeadjustSpec
  rw [or3_and]
  split_ifs <;> simp [hc, hu, hl, hi]

/-- C4: for flag words with valid width fields `g_typeadjust` returns exactly
the const bit iff both operands are const, the unsigned bit iff one of them
is unsigned, the width long iff one of them is long and int otherwise, and no
other bit (no `CF_FORCECHAR`, `CF_TEST`, `CF_REG` or storage class bit); the
returned value is the same for the operands swapped. -/
theorem g_typeadjust_result (E : Env) (hE : E.WF) (lhs rhs : Nat) (hl : ValidWidth E lhs)
    (hr : ValidWidth E rhs) (st : CGState) :
    ∃ r st1 st2, g_typeadjust E lhs rhs st = .ok (r, st1) ∧
      g_typeadjust E rhs lhs st = .ok (r, st2) ∧
      r = ((if lhs &&& E.CF_CONST ≠ 0 ∧ rhs &&& E.CF_CONST ≠ 0 then E.CF_CONST else 0) |||
          (if lhs &&& E.CF_UNSIGNED ≠ 0 ∨ rhs &&& E.CF_UNSIGNED ≠ 0 then E.CF_UNSIGNED else 0)) |||
          (if lhs &&& E.CF_TYPE = E.CF_LONG ∨ rhs &&& E.CF_TYPE = E.CF_LONG then E.CF_LONG
           else E.CF_INT) ∧
      r &&& E.CF_CONST =
        (if lhs &&& E.CF_CONST ≠ 0 ∧ rhs &&& E.CF_CONST ≠ 0 then E.CF_CONST else 0) ∧
      r &&& E.CF_UNSIGNED =
        (if lhs &&& E.CF_UNSIGNED ≠ 0 ∨ rhs &&& E.CF_UNSIGNED ≠ 0 then E.CF_UNSIGNED else 0) ∧
      r &&& E.CF_TYPE =
        (if lhs &&& E.CF_TYPE = E.CF_LONG ∨ rhs &&& E.CF_TYPE = E.CF_LONG then E.CF_LONG
         else E.CF_INT) ∧
      r &&& E.CF_FORCECHAR = 0 ∧ r &&& E.CF_TEST = 0 ∧ r &&& E.CF_REG = 0 ∧
      r &&& E.CF_ADDRMASK = 0 := by
  obtain ⟨st1, h1⟩ := g_typeadjust_value E hE lhs rhs hl hr st
  obtain ⟨st2, h2⟩ := g_typeadjust_value E hE rhs lhs hr hl st
  rw [typeadjustSpec_comm] at h2
  have hcu : E.CF_CONST &&& E.CF_UNSIGNED = 0 :=
    isBit_disjoint _ _ hE.const_bit hE.unsigned_bit hE.const_ne_unsigned
  have huc : E.CF_UNSIGNED &&& E.CF_CONST = 0 := by rw [Nat.and_comm]; exact hcu
  have hcomm : ∀ a b : Nat, a &&& b = 0 → b &&& a = 0 := fun a b h => by
    rw [Nat.and_comm]; exact h
  refine ⟨typeadjustSpec E lhs rhs, st1, st2, h1, h2, rfl, ?_, ?_, ?_, ?_, ?_, ?_, ?_⟩
  · rw [typeadjustSpec_and E lhs rhs _ _ _ _ _ (Nat.and_self _) huc
      (and_of_sub_zero _ _ _ hE.long_sub hE.const_type)
      (and_of_sub_zero _ _ _ hE.int_sub hE.const_type)]
    simp
  · rw [typeadjustSpec_and E lhs rhs _ _ _ _ _ hcu (Nat.and_self _)
      (and_of_sub_zero _ _ _ hE.long_sub hE.unsigned_type)
      (and_of_sub_zero _ _ _ hE.int_sub hE.unsigned_type)]
    simp
  · rw [typeadjustSpec_and E lhs rhs _ _ _ _ _ hE.const_type hE.unsigned_type
      hE.long_sub hE.int_sub]
    simp
  · rw [typeadjustSpec_and E lhs rhs _ _ _ _ _
      (isBit_disjoint _ _ hE.const_bit hE.forcechar_bit hE.const_ne_forcechar)
      (isBit_disjoint _ _ hE.unsigned_bit hE.forcechar_bit hE.unsigned_ne_forcechar)
      (and_of_sub_zero _ _ _ hE.long_sub hE.forcechar_type)
      (and_of_sub_zero _ _ _ hE.int_sub hE.forcechar_type)]
    simp
  · rw [typeadjustSpec_and E lhs rhs _ _ _ _ _
      (isBit_disjoint _ _ hE.const_bit hE.test_bit hE.const_ne_test)
      (isBit_disjoint _ _ hE.unsigned_bit hE.test_bit hE.unsigned_ne_test)
      (and_of_sub_zero _ _ _ hE.long_sub hE.test_type)
      (and_of_sub_zero _ _ _ hE.int_sub hE.test_type)]
    simp
  · rw [typeadjustSpec_and E lhs rhs _ _ _ _ _
      (isBit_disjoint _ _ hE.const_bit hE.reg_bit hE.const_ne_reg)
      (isBit_disjoint _ _ hE.unsigned_bit hE.reg_bit hE.unsigned_ne_reg)
      (and_of_sub_zero _ _ _ hE.long_sub hE.reg_type)
      (and_of_sub_zero _ _ _ hE.int_sub hE.reg_type)]
    simp
  · rw [typeadjustSpec_and E lhs rhs _ _ _ _ _
      (hcomm _ _ hE.addr_const) (hcomm _ _ hE.addr_unsigned)
      (and_of_sub_zero _ _ _ hE.long_sub hE.addr_type)
      (and_of_sub_zero _ _ _ hE.int_sub hE.addr_type)]
    simp

theorem g_typeadjust_result_witness :
    sampleEnv.WF ∧ ValidWidth sampleEnv 0x213 ∧ ValidWidth sampleEnv 0x020 ∧
    ∃ r st1 st2, g_typeadjust sampleEnv 0x213 0x020 initState = .ok (r, st1) ∧
      g_typeadjust sampleEnv 0x020 0x213 initState = .ok (r, st2) ∧ r = 0x010 := by
  obtain ⟨r, st1, st2, h1, h2, h3, _⟩ :=
    g_typeadjust_result sampleEnv sampleEnv_wf 0x213 0x020 (by decide) (by decide) initState
  exact ⟨sampleEnv_wf, by decide, by decide, r, st1, st2, h1, h2, by rw [h3]; decide⟩

/-- C5 (as stated, refuted): `g_typeadjust (x, x)` for a char `x` does not keep
the width class: the result has int width, for a plain char (`0x003`) and for
a forced 8 bit char (`0x203`, argument size 1 against 2). -/
theorem g_typeadjust_char_not_idempotent :
    ValidWidth sampleEnv 0x003 ∧
    g_typeadjust sampleEnv 0x003 0x003 initState = .ok (0x001, initState) ∧
    0x003 &&& sampleEnv.CF_TYPE = sampleEnv.CF_CHAR ∧
    0x001 &&& sampleEnv.CF_TYPE = sampleEnv.CF_INT ∧
    0x001 &&& sampleEnv.CF_TYPE ≠ 0x003 &&& sampleEnv.CF_TYPE ∧
    g_typeadjust sampleEnv 0x203 0x203 initState = .ok (0x001, initState) ∧
    argSize sampleEnv 0x203 = 1 ∧ argSize sampleEnv 0x001 = 2 := by
  refine ⟨by decide, rfl, by decide, by decide, by decide, rfl, rfl, rfl⟩

/-- C5 (amended): for a flag word `x` with a valid width field the result of
`g_typeadjust (x, x)` has the signedness of `x`; it has the width of `x` when
`x` is an int or a long, and int width when `x` is a char. -/
theorem g_typeadjust_self (E : Env) (hE : E.WF) (x : Nat) (hx : ValidWidth E x)
    (st : CGState) :
    ∃ r st1, g_typeadjust E x x st = .ok (r, st1) ∧
      r &&& E.CF_UNSIGNED = x &&& E.CF_UNSIGNED ∧
      (x &&& E.CF_TYPE = E.CF_INT ∨ x &&& E.CF_TYPE = E.CF_LONG →
        r &&& E.CF_TYPE = x &&& E.CF_TYPE) ∧
      (x &&& E.CF_TYPE = E.CF_CHAR → r &&& E.CF_TYPE = E.CF_INT) := by
  obtain ⟨st1, h1⟩ := g_typeadjust_value E hE x x hx hx st
  have hcu : E.CF_CONST &&& E.CF_UNSIGNED = 0 :=
    isBit_disjoint _ _ hE.const_bit hE.unsigned_bit hE.const_ne_unsigned
  refine ⟨typeadjustSpec E x x, st1, h1, ?_, ?_, ?_⟩
  · rw [typeadjustSpec_and E x x _ _ _ _ _ hcu (Nat.and_self _)
      (and_of_sub_zero _ _ _ hE.long_sub hE.unsigned_type)
      (and_of_sub_zero _ _ _ hE.int_sub hE.unsigned_type)]
    rcases isBit_and _ x hE.unsigned_bit with h | h
    · simp [h]
    · have hne : E.CF_UNSIGNED ≠ 0 := by
        obtain ⟨k, _, hk⟩ := hE.unsigned_bit
        rw [hk]
        positivity
      simp [h, hne]
  · intro hw
    rw [typeadjustSpec_and E x x _ _ _ _ _ hE.const_type hE.unsigned_type
      hE.long_sub hE.int_sub]
    rcases hw with hw | hw
    · simp [hw, hE.int_ne_long]
    · simp [hw]
  · intro hw
    rw [typeadjustSpec_and E x x _ _ _ _ _ hE.const_type hE.unsigned_type
      hE.long_sub hE.int_sub]
    simp [hw, hE.char_ne_long]

theorem g_typeadjust_self_witness :
    sampleEnv.WF ∧ ValidWidth sampleEnv 0x011 ∧
    ∃ r st1, g_typeadjust sampleEnv 0x011 0x011 initState = .ok (r, st1) ∧
      r &&& sampleEnv.CF_UNSIGNED = 0x011 &&& sampleEnv.CF_UNSIGNED := by
  obtain ⟨r, st1, h1, h2, _⟩ :=
    g_typeadjust_self sampleEnv sampleEnv_wf 0x011 (by decide) initState
  exact ⟨sampleEnv_wf, by decide, r, st1, h1, h2⟩

/-! ## Literals -/

theorem hexVal_hexDigit (d : Nat) (hd : d < 16) : hexVal (hexDigit d) = some d := by
  interval_cases d <;> rfl

theorem isUpperHexDigit_hexDigit (d : Nat) (hd : d < 16) : IsUpperHexDigit (hexDigit d) := by
  interval_cases d <;> decide

theorem parseHex_snoc (cs : List Char) (c : Char) :
    parseHex (cs ++ [c]) = (parseHex cs).bind (fun a => (hexVal c).map (fun d => a * 16 + d)) := by
  simp [parseHex, List.foldl_append]

theorem hexDigits_props (fuel : Nat) : ∀ k v, v < 16 ^ (k + 1) → k + 1 ≤ fuel →
    (hexDigits fuel v).length ≤ k + 1 ∧ (∀ c ∈ hexDigits fuel v, IsUpperHexDigit c) ∧
      parseHex (hexDigits fuel v) = some v := by
  induction fuel with
  | zero => intro k v _ h; omega
  | succ f ih =>
    intro k v hv hk
    unfold hexDigits
    by_cases h16 : v < 16
    · rw [if_pos h16]
      refine ⟨by simp, ?_, ?_⟩
      · intro c hc
        rw [List.mem_singleton] at hc
        rw [hc]
        exact isUpperHexDigit_hexDigit v h16
      · have := parseHex_snoc [] (hexDigit v)
        simp only [List.nil_append] at this
        rw [this, hexVal_hexDigit v h16]
        simp [parseHex]
    · rw [if_neg h16]
      cases k with
      | zero => simp at hv; omega
      | succ j =>
        have hv2 : v / 16 < 16 ^ (j + 1) := by
          rw [Nat.div_lt_iff_lt_mul (by norm_num)]
          calc v < 16 ^ (j + 1 + 1) := hv
            _ = 16 ^ (j + 1) * 16 := by ring
        obtain ⟨h1, h2, h3⟩ := ih j (v / 16) hv2 (by omega)
        refine ⟨by rw [List.length_append, List.length_singleton]; omega, ?_, ?_⟩
        · intro c hc
          rw [List.mem_append, List.mem_singleton] at hc
          rcases hc with hc | hc
          · exact h2 c hc
          · rw [hc]; exact isUpperHexDigit_hexDigit _ (Nat.mod_lt _ (by norm_num))
        · rw [parseHex_snoc, h3, hexVal_hexDigit _ (Nat.mod_lt _ (by norm_num))]
          show some (v / 16 * 16 + v % 16) = some v
          rw [Nat.div_add_mod']

theorem parseHex_zeros (n : Nat) (cs : List Char) :
    parseHex (List.replicate n '0' ++ cs) = parseHex cs := by
  induction n with
  | zero => simp
  | succ m ih =>
    have h0 : hexVal '0' = some 0 := rfl
    rw [List.replicate_succ, List.cons_append]
    unfold parseHex at ih ⊢
    rw [List.foldl_cons, h0]
    exact ih

/-- The conversion `%0kX` of a value below `16 ^ k` is exactly `k` upper case
hexadecimal digits that read back as the value. -/
theorem fmtHex_props (k v : Nat) (hk : 0 < k) (hv : v < 16 ^ k) :
    (fmtHex k v).data.length = k ∧ (∀ c ∈ (fmtHex k v).data, IsUpperHexDigit c) ∧
      parseHex (fmtHex k v).data = some v := by
  obtain ⟨j, rfl⟩ : ∃ j, k = j + 1 := ⟨k - 1, by omega⟩
  have hself : v < 16 ^ (v + 1) :=
    lt_trans (Nat.lt_pow_self (by norm_num : 1 < 16) v)
      (Nat.pow_lt_pow_right (by norm_num) (by omega))
  have hex : ∃ i, i ≤ j ∧ i + 1 ≤ v + 1 ∧ v < 16 ^ (i + 1) := by
    by_cases hjv : j ≤ v
    · exact ⟨j, le_refl _, by omega, hv⟩
    · exact ⟨v, by omega, le_refl _, hself⟩
  obtain ⟨i, hij, hiv, hvi⟩ := hex
  obtain ⟨h1, h2, h3⟩ := hexDigits_props (v + 1) i v hvi hiv
  unfold fmtHex
  simp only []
  refine ⟨?_, ?_, ?_⟩
  · rw [List.length_append, List.length_replicate]
    omega
  · intro c hc
    rw [List.mem_append] at hc
    rcases hc with hc | hc
    · rw [List.eq_of_mem_replicate hc]
      decide
    · exact h2 c hc
  · rw [parseHex_zeros]
    exact h3

theorem mk_data (s : String) : String.mk s.data = s := rfl

theorem and_ff (v : Nat) : v &&& 0xFF = v % 256 := Nat.and_pow_two_sub_one_eq_mod v 8

theorem and_ffff (v : Nat) : v &&& 0xFFFF = v % 65536 := Nat.and_pow_two_sub_one_eq_mod v 16

theorem and_ffffffff (v : Nat) : v &&& 0xFFFFFFFF = v % 4294967296 :=
  Nat.and_pow_two_sub_one_eq_mod v 32

/-- C6: `GetLabelName` renders a static label as its local label name, `+`
and the offset in decimal, an external label as `_`, the symbol name, `+` and
the offset, an absolute address as `$` and exactly four upper case
hexadecimal digits of `(base + offs) mod 65536`, a register bank variable as
`regbank+` and `(base + offs) mod 65536` in decimal; every other storage
class raises the fatal internal error and yields no text. -/
theorem GetLabelName_contract (E : Env) (hE : E.WF) (flags base offs : Nat) (st : CGState) :
    (flags &&& E.CF_ADDRMASK = E.CF_STATIC → base < 4294967296 →
      GetLabelName E flags base offs st =
        .ok (E.LocalLabelName base ++ "+" ++ fmtDec offs, st)) ∧
    (flags &&& E.CF_ADDRMASK = E.CF_EXTERNAL →
      GetLabelName E flags base offs st = .ok ("_" ++ E.strAt base ++ "+" ++ fmtDec offs, st)) ∧
    (flags &&& E.CF_ADDRMASK = E.CF_ABSOLUTE →
      ∃ ds, GetLabelName E flags base offs st = .ok ("$" ++ String.mk ds, st) ∧
        ds.length = 4 ∧ (∀ c ∈ ds, IsUpperHexDigit c) ∧
        parseHex ds = some ((base + offs) % 65536)) ∧
    (flags &&& E.CF_ADDRMASK = E.CF_REGVAR →
      GetLabelName E flags base offs st =
        .ok ("regbank+" ++ fmtDec ((base + offs) % 65536), st)) ∧
    (flags &&& E.CF_ADDRMASK ≠ E.CF_STATIC → flags &&& E.CF_ADDRMASK ≠ E.CF_EXTERNAL →
      flags &&& E.CF_ADDRMASK ≠ E.CF_ABSOLUTE → flags &&& E.CF_ADDRMASK ≠ E.CF_REGVAR →
      GetLabelName E flags base offs st = .error (.internal "Invalid address flags", st)) := by
  refine ⟨?_, ?_, ?_, ?_, ?_⟩
  · intro h hb
    unfold GetLabelName
    rw [if_pos h, Nat.mod_eq_of_lt hb]
    rfl
  · intro h
    unfold GetLabelName
    rw [if_neg (by rw [h]; exact Ne.symm hE.static_ne_external), if_pos h]
    rfl
  · intro h
    have hlt : (base + offs) % 65536 < 16 ^ 4 := Nat.mod_lt _ (by norm_num)
    obtain ⟨h1, h2, h3⟩ := fmtHex_props 4 ((base + offs) % 65536) (by norm_num) hlt
    refine ⟨(fmtHex 4 ((base + offs) % 65536)).data, ?_, h1, h2, h3⟩
    unfold GetLabelName
    rw [if_neg (by rw [h]; exact Ne.symm hE.static_ne_absolute),
      if_neg (by rw [h]; exact Ne.symm hE.external_ne_absolute), if_pos h, and_ffff]
    rfl
  · intro h
    unfold GetLabelName
    rw [if_neg (by rw [h]; exact Ne.symm hE.static_ne_regvar),
      if_neg (by rw [h]; exact Ne.symm hE.external_ne_regvar),
      if_neg (by rw [h]; exact Ne.symm hE.absolute_ne_regvar), if_pos h, and_ffff]
    rfl
  · intro h1 h2 h3 h4
    unfold GetLabelName
    rw [if_neg h1, if_neg h2, if_neg h3, if_neg h4]
    rfl

theorem GetLabelName_contract_witness :
    sampleEnv.WF ∧ 0x2000 &&& sampleEnv.CF_ADDRMASK = sampleEnv.CF_ABSOLUTE ∧
    ∃ ds, GetLabelName sampleEnv 0x2000 0xFFF0 0x20 initState =
        .ok ("$" ++ String.mk ds, initState) ∧
      ds.length = 4 ∧ (∀ c ∈ ds, IsUpperHexDigit c) ∧ parseHex ds = some 0x10 :=
  ⟨sampleEnv_wf, by decide,
    (GetLabelName_contract sampleEnv sampleEnv_wf 0x2000 0xFFF0 0x20 initState).2.2.1
      (by decide)⟩

/-- C7: `ByteToStr`, `WordToStr` and `DWordToStr` return `$` followed by
exactly 2, 4 and 8 upper case hexadecimal digits that read back as the value
modulo `256`, `65536` and `4294967296`; `NumToStr` on a signed value (negative
ones included) is the four digit form of the value modulo `65536`. -/
theorem literal_roundtrip (v : Nat) (n : Int) :
    (∃ ds, ByteToStr v = "$" ++ String.mk ds ∧ ds.length = 2 ∧
      (∀ c ∈ ds, IsUpperHexDigit c) ∧ parseHex ds = some (v % 256)) ∧
    (∃ ds, WordToStr v = "$" ++ String.mk ds ∧ ds.length = 4 ∧
      (∀ c ∈ ds, IsUpperHexDigit c) ∧ parseHex ds = some (v % 65536)) ∧
    (∃ ds, DWordToStr v = "$" ++ String.mk ds ∧ ds.length = 8 ∧
      (∀ c ∈ ds, IsUpperHexDigit c) ∧ parseHex ds = some (v % 4294967296)) ∧
    (∃ ds, NumToStr n = "$" ++ String.mk ds ∧ ds.length = 4 ∧
      (∀ c ∈ ds, IsUpperHexDigit c) ∧ parseHex ds = some (n % 65536).toNat ∧
      NumToStr n = WordToStr (n % 65536).toNat) := by
  refine ⟨?_, ?_, ?_, ?_⟩
  · obtain ⟨h1, h2, h3⟩ := fmtHex_props 2 (v % 256) (by norm_num)
      (lt_of_lt_of_le (Nat.mod_lt _ (by norm_num)) (by norm_num))
    exact ⟨(fmtHex 2 (v % 256)).data, by unfold ByteToStr; rw [and_ff, mk_data], h1, h2, h3⟩
  · obtain ⟨h1, h2, h3⟩ := fmtHex_props 4 (v % 65536) (by norm_num)
      (lt_of_lt_of_le (Nat.mod_lt _ (by norm_num)) (by norm_num))
    exact ⟨(fmtHex 4 (v % 65536)).data, by unfold WordToStr; rw [and_ffff, mk_data], h1, h2, h3⟩
  · obtain ⟨h1, h2, h3⟩ := fmtHex_props 8 (v % 4294967296) (by norm_num)
      (lt_of_lt_of_le (Nat.mod_lt _ (by norm_num)) (by norm_num))
    exact ⟨(fmtHex 8 (v % 4294967296)).data, by unfold DWordToStr; rw [and_ffffffff, mk_data], h1, h2, h3⟩
  · have hmod : toULong n % 65536 = (n % 65536).toNat := by
      unfold toULong
      omega
    have hlt : (n % 65536).toNat < 16 ^ 4 := by omega
    have hidem : (n % 65536).toNat % 65536 = (n % 65536).toNat := by omega
    obtain ⟨h1, h2, h3⟩ := fmtHex_props 4 (n % 65536).toNat (by norm_num) hlt
    refine ⟨(fmtHex 4 (n % 65536).toNat).data, ?_, h1, h2, h3, ?_⟩
    · unfold NumToStr
      rw [and_ffff, hmod, mk_data]
    · unfold NumToStr WordToStr
      rw [and_ffff, and_ffff, hmod, hidem]

/-! ## Local accesses -/

theorem AddCode_apply (opc : Opc) (am : AM) (arg : Option String) (st : CGState) :
    AddCode opc am arg st = .ok ((), { st with out := st.out ++ [.code opc am arg] }) := rfl

theorem Error_apply (msg : String) (st : CGState) :
    Error msg st = .ok ((), { st with diags := st.diags ++ [.error msg] }) := rfl

theorem getOursp_apply (st : CGState) : getOursp st = .ok (st.oursp, st) := rfl

theorem GetLocalLabel_apply (st : CGState) :
    GetLocalLabel st = .ok (st.nextLabel, { st with nextLabel := st.nextLabel + 1 }) := rfl

theorem ldyconst_apply (v : Nat) (st : CGState) :
    ldyconst v st = .ok ((), { st with
      out := st.out ++ [.codeLine ("ldy #$" ++ fmtHex 2 (v &&& 0xFF))] }) := rfl

theorem g_defcodelabel_apply (E : Env) (l : Nat) (st : CGState) :
    g_defcodelabel E l st = .ok ((), { st with
      out := st.out ++ [.codeLabel (E.LocalLabelName l)] }) := rfl

theorem toUnsigned_ge (x : Int) (h1 : -2147483648 ≤ x) (h2 : x ≤ 2147483647) :
    toUnsigned x ≥ 256 ↔ (x < 0 ∨ 255 < x) := by
  unfold toUnsigned
  omega

theorem g_getlocal_error (E : Env) (flags : Nat) (offs : Int) (st : CGState)
    (h : ValidWidth E flags)
    (hge : toUnsigned (offs - st.oursp) ≥ 256) :
    CompletesWithLocalsError (g_getlocal E flags offs) st := by
  unfold CompletesWithLocalsError g_getlocal CheckLocalOffs signExtend emitted reported
  unfold ValidWidth at h
  simp only [Gen.bind_apply, getOursp_apply, if_pos hge, Error_apply]
  split_ifs <;> first
   | (exfalso; tauto)
   | simp [Gen.bind_apply, Gen.pure_apply, AddCodeLine_apply, ldyconst_apply, Error_apply,
       GetLocalLabel_apply, g_defcodelabel_apply, tooManyLocals]

theorem g_putlocal_error (E : Env) (flags : Nat) (offs val : Int) (st : CGState)
    (h : ValidWidth E flags)
    (hge : toUnsigned (offs - st.oursp) ≥ 256) :
    CompletesWithLocalsError (g_putlocal E flags offs val) st := by
  unfold CompletesWithLocalsError g_putlocal CheckLocalOffs g_getimmed emitted reported
  unfold ValidWidth at h
  simp only [Gen.bind_apply, getOursp_apply, if_pos hge, Error_apply]
  split_ifs <;> first
   | (exfalso; tauto)
   | simp [Gen.bind_apply, Gen.pure_apply, AddCodeLine_apply, AddCode_apply, tooManyLocals]

theorem g_addeqlocal_error (E : Env) (flags : Nat) (offs : Int) (val : Nat) (st : CGState)
    (h : ValidWidth E flags)
    (hge : toUnsigned (offs - st.oursp) ≥ 256) :
    CompletesWithLocalsError (g_addeqlocal E flags offs val) st := by
  unfold CompletesWithLocalsError g_addeqlocal CheckLocalOffs g_getimmed signExtend emitted
    reported
  unfold ValidWidth at h
  simp only [Gen.bind_apply, getOursp_apply, if_pos hge, Error_apply]
  split_ifs <;> first
   | (exfalso; tauto)
   | simp [Gen.bind_apply, Gen.pure_apply, AddCodeLine_apply, AddCode_apply, ldyconst_apply,
       GetLocalLabel_apply, g_defcodelabel_apply, tooManyLocals]

theorem g_subeqlocal_error (E : Env) (flags : Nat) (offs : Int) (val : Nat) (st : CGState)
    (h : ValidWidth E flags)
    (hge : toUnsigned (offs - st.oursp) ≥ 256) :
    CompletesWithLocalsError (g_subeqlocal E flags offs val) st := by
  unfold CompletesWithLocalsError g_subeqlocal CheckLocalOffs g_getimmed signExtend emitted
    reported
  unfold ValidWidth at h
  simp only [Gen.bind_apply, getOursp_apply, if_pos hge, Error_apply]
  split_ifs <;> first
   | (exfalso; tauto)
   | simp [Gen.bind_apply, Gen.pure_apply, AddCodeLine_apply, AddCode_apply, ldyconst_apply,
       GetLocalLabel_apply, g_defcodelabel_apply, tooManyLocals]

theorem g_getlocal_silent (E : Env) (flags : Nat) (offs : Int) (st : CGState)
    (hc : flags &&& E.CF_TYPE = E.CF_CHAR) (hf : flags &&& E.CF_FORCECHAR ≠ 0)
    (hlt : ¬ toUnsigned (offs - st.oursp) ≥ 256) :
    CompletesSilently (g_getlocal E flags offs) st := by
  unfold CompletesSilently g_getlocal CheckLocalOffs
  simp only [Gen.bind_apply, getOursp_apply, if_neg hlt, Gen.pure_apply, if_pos hc,
    if_pos (Or.inl hf : flags &&& E.CF_FORCECHAR ≠ 0 ∨ flags &&& E.CF_TEST ≠ 0)]
  split_ifs <;>
    simp [Gen.bind_apply, AddCodeLine_apply, ldyconst_apply]

theorem g_putlocal_silent (E : Env) (flags : Nat) (offs val : Int) (st : CGState)
    (hc : flags &&& E.CF_TYPE = E.CF_CHAR) (hf : flags &&& E.CF_FORCECHAR ≠ 0)
    (hlt : ¬ toUnsigned (offs - st.oursp) ≥ 256) :
    CompletesSilently (g_putlocal E flags offs val) st := by
  unfold CompletesSilently g_putlocal CheckLocalOffs g_getimmed
  simp only [Gen.bind_apply, getOursp_apply, if_neg hlt, Gen.pure_apply, if_pos hc, if_pos hf]
  split_ifs <;>
    simp [Gen.bind_apply, Gen.pure_apply, AddCode_apply]

theorem g_addeqlocal_silent (E : Env) (flags : Nat) (offs : Int) (val : Nat) (st : CGState)
    (hc : flags &&& E.CF_TYPE = E.CF_CHAR) (hf : flags &&& E.CF_FORCECHAR ≠ 0)
    (hlt : ¬ toUnsigned (offs - st.oursp) ≥ 256) :
    CompletesSilently (g_addeqlocal E flags offs val) st := by
  unfold CompletesSilently g_addeqlocal CheckLocalOffs signExtend
  simp only [Gen.bind_apply, getOursp_apply, if_neg hlt, Gen.pure_apply,
    if_pos (⟨hc, hf⟩ : flags &&& E.CF_TYPE = E.CF_CHAR ∧ flags &&& E.CF_FORCECHAR ≠ 0)]
  split_ifs <;>
    simp [Gen.bind_apply, Gen.pure_apply, AddCodeLine_apply, ldyconst_apply,
      GetLocalLabel_apply, g_defcodelabel_apply]

theorem g_subeqlocal_silent (E : Env) (flags : Nat) (offs : Int) (val : Nat) (st : CGState)
    (hc : flags &&& E.CF_TYPE = E.CF_CHAR) (hf : flags &&& E.CF_FORCECHAR ≠ 0)
    (hlt : ¬ toUnsigned (offs - st.oursp) ≥ 256) :
    CompletesSilently (g_subeqlocal E flags offs val) st := by
  unfold CompletesSilently g_subeqlocal CheckLocalOffs signExtend
  simp only [Gen.bind_apply, getOursp_apply, if_neg hlt, Gen.pure_apply,
    if_pos (⟨hc, hf⟩ : flags &&& E.CF_TYPE = E.CF_CHAR ∧ flags &&& E.CF_FORCECHAR ≠ 0)]
  split_ifs <;>
    simp [Gen.bind_apply, Gen.pure_apply, AddCodeLine_apply, ldyconst_apply,
      GetLocalLabel_apply, g_defcodelabel_apply]

/-- C8: for `g_getlocal`, `g_putlocal`, `g_addeqlocal` and `g_subeqlocal`, a
flag word with a valid width field and an adjusted offset `offs - oursp` (an
`int`) outside `[0, 255]`, negative values included, the call reports the
error "Too many local variables", still emits code and returns normally; for
a forced 8 bit char with the adjusted offset inside `[0, 255]` no diagnostic
is reported. -/
theorem local_offset_range_check (E : Env) (flags : Nat) (offs val : Int) (uval : Nat)
    (st : CGState) (h : ValidWidth E flags)
    (h1 : -2147483648 ≤ offs - st.oursp) (h2 : offs - st.oursp ≤ 2147483647) :
    ((offs - st.oursp < 0 ∨ 255 < offs - st.oursp) →
      CompletesWithLocalsError (g_getlocal E flags offs) st ∧
      CompletesWithLocalsError (g_putlocal E flags offs val) st ∧
      CompletesWithLocalsError (g_addeqlocal E flags offs uval) st ∧
      CompletesWithLocalsError (g_subeqlocal E flags offs uval) st) ∧
    ((0 ≤ offs - st.oursp ∧ offs - st.oursp ≤ 255) →
      flags &&& E.CF_TYPE = E.CF_CHAR → flags &&& E.CF_FORCECHAR ≠ 0 →
      CompletesSilently (g_getlocal E flags offs) st ∧
      CompletesSilently (g_putlocal E flags offs val) st ∧
      CompletesSilently (g_addeqlocal E flags offs uval) st ∧
      CompletesSilently (g_subeqlocal E flags offs uval) st) := by
  have hiff := toUnsigned_ge _ h1 h2
  constructor
  · intro hout
    have hge := hiff.2 hout
    exact ⟨g_getlocal_error E flags offs st h hge, g_putlocal_error E flags offs val st h hge,
      g_addeqlocal_error E flags offs uval st h hge,
      g_subeqlocal_error E flags offs uval st h hge⟩
  · intro hin hc hf
    have hlt : ¬ toUnsigned (offs - st.oursp) ≥ 256 := by
      rw [hiff]
      omega
    exact ⟨g_getlocal_silent E flags offs st hc hf hlt,
      g_putlocal_silent E flags offs val st hc hf hlt,
      g_addeqlocal_silent E flags offs uval st hc hf hlt,
      g_subeqlocal_silent E flags offs uval st hc hf hlt⟩

theorem local_offset_range_check_witness :
    ValidWidth sampleEnv 0x001 ∧ (-2147483648 : Int) ≤ 300 - initState.oursp ∧
    (300 : Int) - initState.oursp ≤ 2147483647 ∧
    ((300 : Int) - initState.oursp < 0 ∨ 255 < (300 : Int) - initState.oursp) ∧
    CompletesWithLocalsError (g_getlocal sampleEnv 0x001 300) initState ∧
    CompletesWithLocalsError (g_putlocal sampleEnv 0x001 300 7) initState ∧
    CompletesWithLocalsError (g_addeqlocal sampleEnv 0x001 300 7) initState ∧
    CompletesWithLocalsError (g_subeqlocal sampleEnv 0x001 300 7) initState :=
  ⟨by decide, by decide, by decide, by decide,
    (local_offset_range_check sampleEnv 0x001 300 7 7 initState (by decide) (by decide)
      (by decide)).1 (by decide)⟩

/-! ## Offset folding -/

theorem or_and_unot_self (a c : Nat) (hac : a &&& c = 0) (ha : a < 2 ^ 32) (hc : c < 2 ^ 32) :
    (a ||| c) &&& unot c = a := by
  apply Nat.eq_of_testBit_eq
  intro i
  have h1 := congrArg (fun z => z.testBit i) hac
  simp only [Nat.testBit_and, Nat.zero_testBit] at h1
  simp only [Nat.testBit_and, Nat.testBit_or, unot_testBit]
  by_cases hi : i < 32
  · simp only [hi, decide_True]
    revert h1
    cases a.testBit i <;> cases c.testBit i <;> simp
  · have : a.testBit i = false := by
      apply Nat.testBit_lt_two_pow
      exact lt_of_lt_of_le ha (Nat.pow_le_pow_right (by norm_num) (by omega))
    have hci : c.testBit i = false := by
      apply Nat.testBit_lt_two_pow
      exact lt_of_lt_of_le hc (Nat.pow_le_pow_right (by norm_num) (by omega))
    simp [this, hi, hci]

theorem and_unot_disj (a c : Nat) (hac : a &&& c = 0) (ha : a < 2 ^ 32) :
    a &&& unot c = a := by
  apply Nat.eq_of_testBit_eq
  intro i
  have h1 := congrArg (fun z => z.testBit i) hac
  simp only [Nat.testBit_and, Nat.zero_testBit] at h1
  simp only [Nat.testBit_and, unot_testBit]
  by_cases hi : i < 32
  · simp only [hi, decide_True]
    revert h1
    cases a.testBit i <;> cases c.testBit i <;> simp
  · have : a.testBit i = false := by
      apply Nat.testBit_lt_two_pow
      exact lt_of_lt_of_le ha (Nat.pow_le_pow_right (by norm_num) (by omega))
    simp [this]

theorem or_and_disj (a c t : Nat) (hct : c &&& t = 0) : (a ||| c) &&& t = a &&& t := by
  apply Nat.eq_of_testBit_eq
  intro i
  have h1 := congrArg (fun z => z.testBit i) hct
  simp only [Nat.testBit_and, Nat.zero_testBit] at h1
  simp only [Nat.testBit_and, Nat.testBit_or]
  revert h1
  cases a.testBit i <;> cases c.testBit i <;> cases t.testBit i <;> simp

theorem or_and_self (a c : Nat) : (a ||| c) &&& c = c := by
  apply Nat.eq_of_testBit_eq
  intro i
  simp only [Nat.testBit_and, Nat.testBit_or]
  cases a.testBit i <;> cases c.testBit i <;> rfl

theorem isBit_ne_zero (m : Nat) (hm : IsBit m) : m ≠ 0 := by
  obtain ⟨k, _, rfl⟩ := hm
  positivity

theorem int_lt (E : Env) (hE : E.WF) : E.CF_INT < 2 ^ 32 := by
  rw [← hE.int_sub]
  exact lt_of_le_of_lt Nat.and_le_right hE.type_lt

/-- Facts on the flag word `CF_INT | CF_CONST`. -/
theorem intConst_facts (E : Env) (hE : E.WF) :
    (E.CF_INT ||| E.CF_CONST) &&& unot E.CF_CONST = E.CF_INT ∧
    (E.CF_INT ||| E.CF_CONST) &&& unot E.CF_FORCECHAR = E.CF_INT ||| E.CF_CONST ∧
    (E.CF_INT ||| E.CF_CONST) &&& E.CF_TYPE = E.CF_INT ∧
    (E.CF_INT ||| E.CF_CONST) &&& E.CF_CONST = E.CF_CONST ∧
    (E.CF_INT ||| E.CF_CONST) &&& E.CF_UNSIGNED = 0 ∧
    E.CF_INT &&& E.CF_CONST = 0 := by
  have hic : E.CF_INT &&& E.CF_CONST = 0 := and_of_sub_zero _ _ _ hE.int_sub hE.const_type
  have hif : E.CF_INT &&& E.CF_FORCECHAR = 0 :=
    and_of_sub_zero _ _ _ hE.int_sub hE.forcechar_type
  have hiu : E.CF_INT &&& E.CF_UNSIGNED = 0 :=
    and_of_sub_zero _ _ _ hE.int_sub hE.unsigned_type
  have hcf : E.CF_CONST &&& E.CF_FORCECHAR = 0 :=
    isBit_disjoint _ _ hE.const_bit hE.forcechar_bit hE.const_ne_forcechar
  have hcu : E.CF_CONST &&& E.CF_UNSIGNED = 0 :=
    isBit_disjoint _ _ hE.const_bit hE.unsigned_bit hE.const_ne_unsigned
  have hlt : E.CF_INT ||| E.CF_CONST < 2 ^ 32 :=
    Nat.or_lt_two_pow (int_lt E hE) (isBit_lt _ hE.const_bit)
  refine ⟨or_and_unot_self _ _ hic (int_lt E hE) (isBit_lt _ hE.const_bit), ?_, ?_, or_and_self _ _, ?_, hic⟩
  · exact and_unot_disj _ _ (and_or_zero _ _ _ hif hcf) hlt
  · rw [or_and_disj _ _ _ hE.const_type, hE.int_sub]
  · rw [or_and_disj _ _ _ hcu, hiu]

theorem ldaconst_apply (v : Nat) (st : CGState) :
    ldaconst v st = .ok ((), { st with
      out := st.out ++ [.codeLine ("lda #$" ++ fmtHex 2 (v &&& 0xFF))] }) := rfl

theorem argSize_int (E : Env) (hE : E.WF) : argSize E E.CF_INT = 2 := by
  unfold argSize
  rw [sizeofarg_apply, hE.int_sub, if_neg (Ne.symm hE.char_ne_int), if_pos rfl]

theorem argSize_intConst (E : Env) (hE : E.WF) : argSize E (E.CF_INT ||| E.CF_CONST) = 2 := by
  unfold argSize
  rw [sizeofarg_apply, (intConst_facts E hE).2.2.1, if_neg (Ne.symm hE.char_ne_int), if_pos rfl]

/-- The addition of a constant above 255 to an int in the primary register:
push the primary, load the constant, call `tosaddax`. -/
theorem g_add_intConst (E : Env) (hE : E.WF) (val : Nat) (hval : ¬ val ≤ 255) (st : CGState) :
    g_add E (E.CF_INT ||| E.CF_CONST) val st = .ok ((), { st with
      out := st.out ++ [.codeLine "jsr pushax",
        .code .OPC_LDAX .AM_IMM (some (WordToStr val)), .codeLine "jsr tosaddax"] }) := by
  obtain ⟨f1, f2, f3, f4, f5, f6⟩ := intConst_facts E hE
  have hc0 := isBit_ne_zero _ hE.const_bit
  have hvi := validWidth_int E hE
  have hvic : ValidWidth E (E.CF_INT ||| E.CF_CONST) := Or.inr (Or.inl f3)
  have hci := hE.char_ne_int
  have hv0 : val ≠ 0 := by omega
  have hv1 : ¬ val < 256 := by omega
  unfold g_add g_push oper g_getimmed
  simp [f1, f2, f3, f4, f5, f6, hc0, hE.int_sub, Ne.symm hci, Gen.bind_apply, Gen.pure_apply,
    AddCodeLine_apply, AddCode_apply, push_eq E _ hvi, pop_eq E _ hvic, argSize_int E hE,
    argSize_intConst E hE, hv0, hv1, g_add_ops, fmtStr]

/-- The increment that `MakeByteOffs` emits runs without a fatal error and
reports no diagnostic. -/
theorem g_inc_intConst_ok (E : Env) (hE : E.WF) (val : Nat) (st : CGState) :
    ∃ st1, g_inc E (E.CF_INT ||| E.CF_CONST) val st = .ok ((), st1) ∧
      st1.diags = st.diags := by
  obtain ⟨f1, f2, f3, f4, f5, f6⟩ := intConst_facts E hE
  have hc0 := isBit_ne_zero _ hE.const_bit
  have hvi := validWidth_int E hE
  have hvic : ValidWidth E (E.CF_INT ||| E.CF_CONST) := Or.inr (Or.inl f3)
  unfold g_inc
  by_cases h0 : val = 0
  · rw [if_pos h0]
    exact ⟨st, rfl, rfl⟩
  · rw [if_neg h0]
    simp only [f1, hE.int_sub, if_neg (Ne.symm hE.char_ne_int), if_true]
    unfold g_inc_int
    split_ifs
    · simp [Gen.bind_apply, AddCodeLine_apply, GetLocalLabel_apply, g_defcodelabel_apply]
    · simp [AddCodeLine_apply]
    · simp [Gen.bind_apply, AddCodeLine_apply, ldyconst_apply]
    · rw [g_add_intConst E hE val (by assumption)]
      exact ⟨_, rfl, rfl⟩
    all_goals simp [Gen.bind_apply, Gen.pure_apply, AddCodeLine_apply, GetLocalLabel_apply,
      g_defcodelabel_apply]

theorem and_unot_ff (x : Nat) (hx : x < 2 ^ 32) : x &&& unot 0xFF = x - x % 256 := by
  have h : x &&& unot 0xFF = (x >>> 8) <<< 8 := by
    apply Nat.eq_of_testBit_eq
    intro i
    have hff : (0xFF : Nat) = 2 ^ 8 - 1 := by norm_num
    simp only [Nat.testBit_and, unot_testBit, Nat.testBit_shiftLeft, Nat.testBit_shiftRight]
    rw [hff, Nat.testBit_two_pow_sub_one]
    by_cases h8 : i < 8
    · have h32 : i < 32 := by omega
      have h8b : ¬ i ≥ 8 := by omega
      simp [h8, h32, h8b]
    · have h8b : i ≥ 8 := by omega
      have hadd : 8 + (i - 8) = i := by omega
      by_cases h32 : i < 32
      · simp [h8, h32, h8b, hadd]
      · have hxi : x.testBit i = false := by
          apply Nat.testBit_lt_two_pow
          exact lt_of_lt_of_le hx (Nat.pow_le_pow_right (by norm_num) (by omega))
        simp [h8, h32, hadd, hxi]
  rw [h, Nat.shiftRight_eq_div_pow, Nat.shiftLeft_eq]
  norm_num
  omega

theorem argSize_mem (E : Env) (flags : Nat) (h : ValidWidth E flags) :
    argSize E flags = 1 ∨ argSize E flags = 2 ∨ argSize E flags = 4 := by
  unfold argSize
  rw [sizeofarg_apply]
  unfold ValidWidth at h
  split_ifs <;> first | (exfalso; tauto) | simp

theorem MakeByteOffs_apply (E : Env) (flags offs : Nat) (hv : ValidWidth E flags)
    (ho : offs < 2 ^ 32) (st : CGState) :
    MakeByteOffs E flags offs st =
      if offs - residual E flags offs = 0 then .ok (offs, st)
      else match g_inc E (E.CF_INT ||| E.CF_CONST) (offs - residual E flags offs) st with
        | .ok (_, st1) => .ok (residual E flags offs, st1)
        | .error e => .error e := by
  have hlo : offs % 256 ≤ offs := Nat.mod_le _ _
  unfold MakeByteOffs
  rw [Gen.bind_of_ok (sizeofarg_eq_argSize E flags hv st)]
  simp only [and_ff, and_unot_ff offs ho]
  unfold residual
  by_cases hgt : offs % 256 > 256 - argSize E flags
  · simp only [if_pos hgt]
    have h1 : offs - offs % 256 + offs % 256 = offs := by omega
    rw [h1]
    by_cases h0 : offs = 0
    · subst h0
      simp [Gen.pure_apply]
    · simp only [Nat.sub_zero, ne_eq, h0, not_false_eq_true, if_true, if_false,
        Nat.sub_self, Gen.bind_apply, Gen.pure_apply]
      cases g_inc E (E.CF_INT ||| E.CF_CONST) offs st <;> rfl
  · simp only [if_neg hgt]
    have h2 : offs - (offs - offs % 256) = offs % 256 := by omega
    by_cases h0 : offs - offs % 256 = 0
    · have h3 : offs % 256 = offs := by omega
      simp [h0, Gen.pure_apply]
    · simp only [ne_eq, h0, not_false_eq_true, if_true, if_false, h2, Gen.bind_apply,
        Gen.pure_apply]
      cases g_inc E (E.CF_INT ||| E.CF_CONST) (offs - offs % 256) st <;> rfl

theorem residual_facts (E : Env) (flags offs : Nat) (hv : ValidWidth E flags) :
    offs - residual E flags offs + residual E flags offs = offs ∧
    residual E flags offs + argSize E flags ≤ 256 ∧
    (offs - residual E flags offs = 0 ↔ offs ≤ 256 - argSize E flags) ∧
    (offs ≤ 256 - argSize E flags → residual E flags offs = offs) := by
  have hw := argSize_mem E flags hv
  have hlo : offs % 256 ≤ offs := Nat.mod_le _ _
  have hlt : offs % 256 < 256 := Nat.mod_lt _ (by norm_num)
  unfold residual
  split_ifs with hgt
  · refine ⟨by omega, by omega, by omega, by omega⟩
  · refine ⟨by omega, by omega, by omega, by omega⟩

/-- C9 (as stated, refuted): for a forced 8 bit char (width 1) and offset 255
`MakeByteOffs` returns the residual 255, above `255 - width = 254`, and
raises no fatal error and no diagnostic; likewise 254 for an int. -/
theorem MakeByteOffs_residual_above_bound :
    ValidWidth sampleEnv 0x203 ∧ argSize sampleEnv 0x203 = 1 ∧
    MakeByteOffs sampleEnv 0x203 255 initState = .ok (255, initState) ∧
    ¬ (255 ≤ 255 - argSize sampleEnv 0x203) ∧ initState.diags = [] ∧
    ValidWidth sampleEnv 0x001 ∧ argSize sampleEnv 0x001 = 2 ∧
    MakeByteOffs sampleEnv 0x001 254 initState = .ok (254, initState) ∧
    ¬ (254 ≤ 255 - argSize sampleEnv 0x001) := by
  refine ⟨by decide, rfl, rfl, by decide, rfl, by decide, rfl, rfl, by decide⟩

/-- C9 (amended): for an offset (an `unsigned`) and a flag word with a valid
width field, `MakeByteOffs` returns a residual offset in `[0, 256 - width]`
(the last byte accessed has an index of at most 255); it raises no fatal
error and reports no diagnostic. -/
theorem MakeByteOffs_bounded (E : Env) (hE : E.WF) (flags offs : Nat)
    (hv : ValidWidth E flags) (ho : offs < 2 ^ 32) (st : CGState) :
    ∃ r st1, MakeByteOffs E flags offs st = .ok (r, st1) ∧
      r ≤ 256 - argSize E flags ∧ r + argSize E flags ≤ 256 ∧ st1.diags = st.diags := by
  obtain ⟨_, h2, _, h4⟩ := residual_facts E flags offs hv
  rw [MakeByteOffs_apply E flags offs hv ho st]
  split_ifs with h0
  · have hle : offs ≤ 256 - argSize E flags := (residual_facts E flags offs hv).2.2.1.1 h0
    rw [h4 hle] at h2
    exact ⟨offs, st, rfl, hle, h2, rfl⟩
  · obtain ⟨st1, hg, hd⟩ := g_inc_intConst_ok E hE (offs - residual E flags offs) st
    rw [hg]
    exact ⟨_, st1, rfl, by omega, h2, hd⟩

theorem MakeByteOffs_bounded_witness :
    sampleEnv.WF ∧ ValidWidth sampleEnv 0x001 ∧ 0x12FF < 2 ^ 32 ∧
    ∃ r st1, MakeByteOffs sampleEnv 0x001 0x12FF initState = .ok (r, st1) ∧
      r ≤ 256 - argSize sampleEnv 0x001 ∧ r + argSize sampleEnv 0x001 ≤ 256 ∧
      st1.diags = initState.diags :=
  ⟨sampleEnv_wf, by decide, by decide,
    MakeByteOffs_bounded sampleEnv sampleEnv_wf 0x001 0x12FF (by decide) (by decide) initState⟩

/-- C10: with `width = sizeofarg (flags)`, `MakeByteOffs (flags, offs)` emits
nothing and returns `offs` when `offs <= 256 - width`; otherwise it emits
exactly the code of `g_inc (CF_INT | CF_CONST, O)` and returns `r`, where `r`
is 0 if `offs mod 256 > 256 - width` and `offs mod 256` otherwise, and
`O = offs - r`. In every case `O + r = offs` and `r + width <= 256`. -/
theorem MakeByteOffs_contract (E : Env) (hE : E.WF) (flags offs : Nat)
    (hv : ValidWidth E flags) (ho : offs < 2 ^ 32) (st : CGState) :
    (offs ≤ 256 - argSize E flags → MakeByteOffs E flags offs st = .ok (offs, st)) ∧
    (¬ offs ≤ 256 - argSize E flags →
      ∃ st1, g_inc E (E.CF_INT ||| E.CF_CONST) (offs - residual E flags offs) st = .ok ((), st1) ∧
        MakeByteOffs E flags offs st = .ok (residual E flags offs, st1)) ∧
    residual E flags offs = (if offs % 256 > 256 - argSize E flags then 0 else offs % 256) ∧
    (offs - residual E flags offs) + residual E flags offs = offs ∧
    residual E flags offs + argSize E flags ≤ 256 := by
  obtain ⟨h1, h2, h3, _⟩ := residual_facts E flags offs hv
  refine ⟨?_, ?_, rfl, h1, h2⟩
  · intro hle
    rw [MakeByteOffs_apply E flags offs hv ho st, if_pos (h3.2 hle)]
  · intro hgt
    obtain ⟨st1, hg, _⟩ := g_inc_intConst_ok E hE (offs - residual E flags offs) st
    refine ⟨st1, hg, ?_⟩
    rw [MakeByteOffs_apply E flags offs hv ho st, if_neg (fun h => hgt (h3.1 h)), hg]

theorem MakeByteOffs_contract_witness :
    sampleEnv.WF ∧ ValidWidth sampleEnv 0x001 ∧ 0x12FF < 2 ^ 32 ∧
    ¬ (0x12FF ≤ 256 - argSize sampleEnv 0x001) ∧
    ∃ st1, g_inc sampleEnv (sampleEnv.CF_INT ||| sampleEnv.CF_CONST)
        (0x12FF - residual sampleEnv 0x001 0x12FF) initState = .ok ((), st1) ∧
      MakeByteOffs sampleEnv 0x001 0x12FF initState =
        .ok (residual sampleEnv 0x001 0x12FF, st1) :=
  ⟨sampleEnv_wf, by decide, by decide, by decide,
    (MakeByteOffs_contract sampleEnv sampleEnv_wf 0x001 0x12FF (by decide) (by decide)
      initState).2.1 (by decide)⟩

/-! ## Scaling by one, frame and calls -/

theorem setOursp_apply (v : Int) (st : CGState) :
    setOursp v st = .ok ((), { st with oursp := v }) := rfl

theorem getFuncargs_apply (st : CGState) : getFuncargs st = .ok (st.funcargs, st) := rfl

theorem setFuncargs_apply (v : Int) (st : CGState) :
    setFuncargs v st = .ok ((), { st with funcargs := v }) := rfl

theorem powerof2_one : powerof2 1 = 0 := by decide

/-- C11: `g_scale (flags, 1)` and `g_scale (flags, -1)` return with the state
unchanged, whatever the width field: no code line, no diagnostic, no label,
the same virtual stack offset. -/
theorem g_scale_one_noop (E : Env) (flags : Nat) (st : CGState) :
    g_scale E flags 1 st = .ok ((), st) ∧ g_scale E flags (-1) st = .ok ((), st) := by
  have h1 : toULong 1 = 1 := by decide
  constructor
  · unfold g_scale
    simp [h1, powerof2_one, Gen.pure_apply]
  · unfold g_scale
    simp [h1, powerof2_one, Gen.pure_apply]

theorem toInt_of_lt (n : Nat) (h : n < 2147483648) : toInt n = n := by
  unfold toInt
  split_ifs <;> omega

/-- Within the range of `int` the compound assignment `x += u` adds. -/
theorem intAddUnsigned_eq (x : Int) (u : Nat) (h1 : -2147483648 ≤ x)
    (h2 : x + u ≤ 2147483647) : intAddUnsigned x u = x + u := by
  unfold intAddUnsigned toInt toUnsigned
  split_ifs <;> omega

/-- Within the range of `int` the compound assignment `x -= u` subtracts. -/
theorem intSubUnsigned_eq (x : Int) (u : Nat) (h1 : x ≤ 2147483647)
    (h2 : -2147483648 ≤ x - u) : intSubUnsigned x u = x - u := by
  unfold intSubUnsigned toInt toUnsigned
  split_ifs <;> omega

theorem g_enter_apply (E : Env) (flags argsize : Nat) (st : CGState) :
    g_enter E flags argsize st =
      if flags &&& E.CF_FIXARGC ≠ 0 then .ok ((), { st with funcargs := toInt argsize })
      else .ok ((), { st with funcargs := -1,
                              out := st.out ++ [.code .OPC_ENTER .AM_IMP none] }) := by
  unfold g_enter
  split_ifs <;> rfl

theorem g_leave_oursp (st : CGState) :
    ∃ st1, g_leave st = .ok ((), st1) ∧ st1.oursp = st.oursp := by
  unfold g_leave CheckLocalOffs
  simp only [Gen.bind_apply, getOursp_apply, getFuncargs_apply]
  split_ifs <;>
    simp [Gen.bind_apply, Gen.pure_apply, AddCode_apply, Error_apply]

/-- C12: `g_enter` records the argument size, converted to `int`, when
`CF_FIXARGC` is set (the size itself when it is at most `INT_MAX`) and -1
otherwise. `g_leave`, with `k0 = -oursp`: for `funcargs >= 0` it emits the
frame shrink `OPC_SPACE` with immediate `NumToStr (-k)`, `k = k0 + funcargs`,
iff `k > 0`, and no `OPC_LEAVE`; for `funcargs < 0` it emits the frame shrink
with `k = k0` iff `k0 > 0` and then `OPC_LEAVE`; the last operation is
`OPC_RET`, emitted once. -/
theorem g_leave_contract (E : Env) (flags argsize : Nat) (st : CGState) :
    (flags &&& E.CF_FIXARGC ≠ 0 →
      g_enter E flags argsize st = .ok ((), { st with funcargs := toInt argsize }) ∧
      (argsize ≤ 2147483647 →
        g_enter E flags argsize st = .ok ((), { st with funcargs := argsize }))) ∧
    (flags &&& E.CF_FIXARGC = 0 →
      g_enter E flags argsize st =
        .ok ((), { st with funcargs := -1, out := st.out ++ [.code .OPC_ENTER .AM_IMP none] })) ∧
    (0 ≤ st.funcargs → 0 < -st.oursp + st.funcargs →
      ∃ st1, g_leave st = .ok ((), st1) ∧ st1.out = st.out ++
        [.code .OPC_SPACE .AM_IMM (some (NumToStr (-(-st.oursp + st.funcargs)))),
         .code .OPC_RET .AM_IMP none]) ∧
    (0 ≤ st.funcargs → ¬ 0 < -st.oursp + st.funcargs →
      ∃ st1, g_leave st = .ok ((), st1) ∧ st1.out = st.out ++ [.code .OPC_RET .AM_IMP none]) ∧
    (st.funcargs < 0 → 0 < -st.oursp →
      ∃ st1, g_leave st = .ok ((), st1) ∧ st1.out = st.out ++
        [.code .OPC_SPACE .AM_IMM (some (NumToStr (-(-st.oursp)))),
         .code .OPC_LEAVE .AM_IMP none, .code .OPC_RET .AM_IMP none]) ∧
    (st.funcargs < 0 → ¬ 0 < -st.oursp →
      ∃ st1, g_leave st = .ok ((), st1) ∧ st1.out = st.out ++
        [.code .OPC_LEAVE .AM_IMP none, .code .OPC_RET .AM_IMP none]) := by
  refine ⟨?_, ?_, ?_, ?_, ?_, ?_⟩
  · intro h
    refine ⟨by rw [g_enter_apply, if_pos h], ?_⟩
    intro hle
    rw [g_enter_apply, if_pos h, toInt_of_lt argsize (by omega)]
  · intro h
    rw [g_enter_apply, if_neg (by simp [h])]
  · intro h1 h2
    unfold g_leave CheckLocalOffs
    simp only [Gen.bind_apply, getOursp_apply, getFuncargs_apply]
    split_ifs <;>
      simp [Gen.bind_apply, Gen.pure_apply, AddCode_apply, Error_apply]
  · intro h1 h2
    unfold g_leave CheckLocalOffs
    simp only [Gen.bind_apply, getOursp_apply, getFuncargs_apply]
    split_ifs <;>
      simp [Gen.bind_apply, Gen.pure_apply, AddCode_apply, Error_apply]
  · intro h1 h2
    have h3 : ¬ st.funcargs ≥ 0 := by omega
    unfold g_leave CheckLocalOffs
    simp only [Gen.bind_apply, getOursp_apply, getFuncargs_apply]
    split_ifs
    all_goals simp [Gen.bind_apply, Gen.pure_apply, AddCode_apply, Error_apply]
  · intro h1 h2
    have h3 : ¬ st.funcargs ≥ 0 := by omega
    unfold g_leave CheckLocalOffs
    simp only [Gen.bind_apply, getOursp_apply, getFuncargs_apply]
    split_ifs
    all_goals simp [Gen.bind_apply, Gen.pure_apply, AddCode_apply, Error_apply]

theorem g_leave_contract_witness :
    (0 : Int) ≤ ({ initState with oursp := -4, funcargs := 2 } : CGState).funcargs ∧
    ∃ st1, g_leave { initState with oursp := -4, funcargs := 2 } = .ok ((), st1) ∧
      st1.out = [.code .OPC_SPACE .AM_IMM (some (NumToStr (-6))),
        .code .OPC_RET .AM_IMP none] :=
  ⟨by decide, (g_leave_contract sampleEnv 0 0
    { initState with oursp := -4, funcargs := 2 }).2.2.1 (by decide) (by decide)⟩

/-- C14 (as stated, refuted): with the offset 0 and `ArgSize = 0xFFFFFFFF`,
`g_call` and `g_callind` leave the virtual stack offset at -1, not at
`0 + 4294967295`: the offset is an `int`. -/
theorem g_call_offset_wraps :
    g_call sampleEnv 0x100 "f" 0xFFFFFFFF initState = .ok ((), { initState with
      oursp := -1,
      out := [.codeLine "jsr _f"] }) ∧
    g_callind sampleEnv 0x100 0xFFFFFFFF initState = .ok ((), { initState with
      oursp := -1,
      out := [.codeLine "jsr callax"] }) ∧
    (-1 : Int) ≠ initState.oursp + ((0xFFFFFFFF : Nat) : Int) :=
  ⟨by decide, by decide, by decide⟩

/-- C14 (amended): `g_call` emits `jsr _<label>` as its last line, preceded
by the load `ldy #$XX` of the argument size (two hexadecimal digits, the size
modulo 256) iff `CF_FIXARGC` is clear, and sets the virtual stack offset to
its previous value plus `ArgSize`, added in `unsigned` and converted back to
`int`: to the previous value plus `ArgSize` itself whenever that sum is at
most `INT_MAX`; `g_callind` does the same with `jsr callax`. -/
theorem g_call_contract (E : Env) (Flags : Nat) (Label : String) (ArgSize : Nat)
    (st : CGState) :
    g_call E Flags Label ArgSize st = .ok ((), { st with
      out := st.out ++ (if Flags &&& E.CF_FIXARGC = 0 then
          [.codeLine ("ldy #$" ++ fmtHex 2 (ArgSize &&& 0xFF))] else []) ++
        [.codeLine ("jsr _" ++ Label)],
      oursp := intAddUnsigned st.oursp ArgSize }) ∧
    g_callind E Flags ArgSize st = .ok ((), { st with
      out := st.out ++ (if Flags &&& E.CF_FIXARGC = 0 then
          [.codeLine ("ldy #$" ++ fmtHex 2 (ArgSize &&& 0xFF))] else []) ++
        [.codeLine "jsr callax"],
      oursp := intAddUnsigned st.oursp ArgSize }) ∧
    (-2147483648 ≤ st.oursp → st.oursp + ArgSize ≤ 2147483647 →
      intAddUnsigned st.oursp ArgSize = st.oursp + ArgSize) ∧
    (fmtHex 2 (ArgSize &&& 0xFF)).data.length = 2 ∧
    parseHex (fmtHex 2 (ArgSize &&& 0xFF)).data = some (ArgSize % 256) ∧
    (ArgSize < 256 → fmtHex 2 (ArgSize &&& 0xFF) = fmtHex 2 ArgSize) := by
  have hlt : ArgSize % 256 < 16 ^ 2 := Nat.mod_lt _ (by norm_num)
  obtain ⟨h1, _, h3⟩ := fmtHex_props 2 (ArgSize % 256) (by norm_num) hlt
  refine ⟨?_, ?_, ?_, ?_, ?_, ?_⟩
  · unfold g_call
    split_ifs <;>
      simp [Gen.bind_apply, Gen.pure_apply, AddCodeLine_apply, ldyconst_apply, getOursp_apply,
        setOursp_apply]
  · unfold g_callind
    split_ifs <;>
      simp [Gen.bind_apply, Gen.pure_apply, AddCodeLine_apply, ldyconst_apply, getOursp_apply,
        setOursp_apply]
  · exact intAddUnsigned_eq st.oursp ArgSize
  · rw [and_ff]; exact h1
  · rw [and_ff]; exact h3
  · intro h
    rw [and_ff, Nat.mod_eq_of_lt h]

theorem g_call_contract_witness :
    (-2147483648 : Int) ≤ ({ initState with oursp := -4 } : CGState).oursp ∧
    ({ initState with oursp := -4 } : CGState).oursp + ((4 : Nat) : Int) ≤ 2147483647 ∧
    g_call sampleEnv 0 "f" 4 { initState with oursp := -4 } = .ok ((), { initState with
      oursp := 0,
      out := [.codeLine "ldy #$04", .codeLine "jsr _f"] }) ∧
    intAddUnsigned ({ initState with oursp := -4 } : CGState).oursp 4 =
      ({ initState with oursp := -4 } : CGState).oursp + ((4 : Nat) : Int) :=
  ⟨by decide, by decide,
    (g_call_contract sampleEnv 0 "f" 4 { initState with oursp := -4 }).1.trans (by decide),
    (g_call_contract sampleEnv 0 "f" 4 { initState with oursp := -4 }).2.2.1
      (by decide) (by decide)⟩

theorem powerof2_three : powerof2 3 = -1 := by decide

theorem powerof2_five : powerof2 5 = -1 := by decide

theorem powerof2_ten : powerof2 10 = -1 := by decide

/-- C16: for a constant forced 8 bit char operand and `val` 3, 5 or 10,
`g_mul` emits only the inline shift and add lines (no `jsr` line) and leaves
the rest of the state, the virtual stack offset included, unchanged; for 10
the lines are `sta tmp1`, `asl a`, `asl a`, `clc`, `adc tmp1`, `asl a`. -/
theorem g_mul_small_constants (E : Env) (flags : Nat) (st : CGState)
    (hc : flags &&& E.CF_CONST ≠ 0) (ht : flags &&& E.CF_TYPE = E.CF_CHAR)
    (hf : flags &&& E.CF_FORCECHAR ≠ 0) :
    g_mul E flags 3 st = .ok ((), { st with out := st.out ++
      [.codeLine "sta tmp1", .codeLine "asl a", .codeLine "clc", .codeLine "adc tmp1"] }) ∧
    g_mul E flags 5 st = .ok ((), { st with out := st.out ++
      [.codeLine "sta tmp1", .codeLine "asl a", .codeLine "asl a", .codeLine "clc",
       .codeLine "adc tmp1"] }) ∧
    g_mul E flags 10 st = .ok ((), { st with out := st.out ++
      [.codeLine "sta tmp1", .codeLine "asl a", .codeLine "asl a", .codeLine "clc",
       .codeLine "adc tmp1", .codeLine "asl a"] }) := by
  refine ⟨?_, ?_, ?_⟩
  · unfold g_mul
    simp [hc, ht, hf, powerof2_three, Gen.bind_apply, AddCodeLine_apply]
  · unfold g_mul
    simp [hc, ht, hf, powerof2_five, Gen.bind_apply, AddCodeLine_apply]
  · unfold g_mul
    simp [hc, ht, hf, powerof2_ten, Gen.bind_apply, AddCodeLine_apply]

theorem g_mul_small_constants_witness :
    0x223 &&& sampleEnv.CF_CONST ≠ 0 ∧ 0x223 &&& sampleEnv.CF_TYPE = sampleEnv.CF_CHAR ∧
    0x223 &&& sampleEnv.CF_FORCECHAR ≠ 0 ∧
    g_mul sampleEnv 0x223 10 initState = .ok ((), { initState with out := initState.out ++
      [.codeLine "sta tmp1", .codeLine "asl a", .codeLine "asl a", .codeLine "clc",
       .codeLine "adc tmp1", .codeLine "asl a"] }) :=
  ⟨by decide, by decide, by decide,
    (g_mul_small_constants sampleEnv 0x223 initState (by decide) (by decide) (by decide)).2.2⟩

/-! ## Char fetches and the equality test -/

theorem lineMnemonic_lda (rest : String) :
    lineMnemonic (.codeLine ("lda " ++ rest)) = ['l', 'd', 'a'] := by
  unfold lineMnemonic
  simp only [String.data_append]
  rfl

/-- The lines a char fetch with `CF_FORCECHAR` or `CF_TEST` may consist of:
loads of A and of the index register Y, no `ldx`, `bpl` or `dex`. -/
theorem g_getlocal_char_plain (E : Env) (flags : Nat) (offs : Int) (st : CGState)
    (ht : flags &&& E.CF_TYPE = E.CF_CHAR)
    (hf : flags &&& E.CF_FORCECHAR ≠ 0 ∨ flags &&& E.CF_TEST ≠ 0) :
    ∃ st1, g_getlocal E flags offs st = .ok ((), st1) ∧ st1.nextLabel = st.nextLabel ∧
      (st1.out = st.out ++ [.codeLine "lda (sp)"] ∨
       st1.out = st.out ++ [.codeLine ("ldy #$" ++ fmtHex 2 (toUnsigned (offs - st.oursp) &&& 0xFF)),
         .codeLine "lda (sp),y"]) := by
  unfold g_getlocal CheckLocalOffs
  simp only [Gen.bind_apply, getOursp_apply, if_pos ht, if_pos hf]
  split_ifs <;>
    simp [Gen.bind_apply, Gen.pure_apply, AddCodeLine_apply, ldyconst_apply, Error_apply]

/-- C17: fetching a forced 8 bit char local at frame offset 3 with the
virtual stack offset 0 emits exactly `ldy #$03` and `lda (sp),y`. For every
char fetch through `g_getlocal` or `g_getstatic` with `CF_FORCECHAR` or
`CF_TEST` set, signed or unsigned, the code is a single load of A (after the
load of the index Y for a local): no `ldx`, `bpl` or `dex` line, and no local
label is allocated. -/
theorem char_fetch_no_extension (E : Env) (flags : Nat) (offs : Int) (label uoffs : Nat)
    (st : CGState) (ht : flags &&& E.CF_TYPE = E.CF_CHAR)
    (hf : flags &&& E.CF_FORCECHAR ≠ 0 ∨ flags &&& E.CF_TEST ≠ 0) :
    (flags &&& E.CF_FORCECHAR ≠ 0 → st.oursp = 0 →
      g_getlocal E flags 3 st = .ok ((), { st with out := st.out ++
        [.codeLine "ldy #$03", .codeLine "lda (sp),y"] })) ∧
    (∃ st1, g_getlocal E flags offs st = .ok ((), st1) ∧ st1.nextLabel = st.nextLabel ∧
      (st1.out = st.out ++ [.codeLine "lda (sp)"] ∨
       st1.out = st.out ++
        [.codeLine ("ldy #$" ++ fmtHex 2 (toUnsigned (offs - st.oursp) &&& 0xFF)),
         .codeLine "lda (sp),y"])) ∧
    (∀ name, GetLabelName E flags label uoffs st = .ok (name, st) →
      g_getstatic E flags label uoffs st =
        .ok ((), { st with out := st.out ++ [.codeLine ("lda " ++ name)] }) ∧
      lineMnemonic (.codeLine ("lda " ++ name)) = ['l', 'd', 'a']) ∧
    (∀ e, GetLabelName E flags label uoffs st = .error e →
      g_getstatic E flags label uoffs st = .error e) := by
  refine ⟨?_, g_getlocal_char_plain E flags offs st ht hf, ?_, ?_⟩
  · intro hfc hsp
    have h3 : ¬ toUnsigned (3 - st.oursp) ≥ 256 := by rw [hsp]; decide
    have h4 : toUnsigned (3 - st.oursp) = 3 := by rw [hsp]; decide
    have h5 : ¬ ((3 : Int) - st.oursp = 0) := by rw [hsp]; decide
    have h6 : fmtHex 2 (3 &&& 0xFF) = "03" := by decide
    unfold g_getlocal CheckLocalOffs
    simp [Gen.bind_apply, Gen.pure_apply, getOursp_apply, ht, hfc, h3, h4, h5, h6,
      AddCodeLine_apply, ldyconst_apply]
  · intro name hname
    refine ⟨?_, lineMnemonic_lda name⟩
    unfold g_getstatic
    rw [Gen.bind_of_ok hname, if_pos ht, if_pos hf]
    rfl
  · intro e he
    unfold g_getstatic
    rw [Gen.bind_of_error he]

theorem char_fetch_no_extension_witness :
    0x203 &&& sampleEnv.CF_TYPE = sampleEnv.CF_CHAR ∧
    (0x203 &&& sampleEnv.CF_FORCECHAR ≠ 0 ∨ 0x203 &&& sampleEnv.CF_TEST ≠ 0) ∧
    g_getlocal sampleEnv 0x203 3 initState = .ok ((), { initState with out := initState.out ++
      [.codeLine "ldy #$03", .codeLine "lda (sp),y"] }) :=
  ⟨by decide, by decide,
    (char_fetch_no_extension sampleEnv 0x203 3 0 0 initState (by decide) (by decide)).1
      (by decide) rfl⟩

theorem cmpWord_apply (E : Env) (val : Nat) (routine : String) (st : CGState) :
    cmpWord E val routine st = .ok ((), { st with
      nextLabel := st.nextLabel + 1,
      out := st.out ++ [.codeLine ("cpx #$" ++ fmtHex 2 ((val >>> 8) % 256)),
        .codeLine ("bne " ++ E.LocalLabelName st.nextLabel),
        .codeLine ("cmp #$" ++ fmtHex 2 (val % 256)),
        .codeLabel (E.LocalLabelName st.nextLabel),
        .codeLine ("jsr " ++ routine)] }) := by
  unfold cmpWord
  simp [Gen.bind_apply, GetLocalLabel_apply, AddCodeLine_apply, g_defcodelabel_apply]

/-- C18 (as stated, refuted): `g_eq` with int width, `CF_CONST` and `CF_TEST`
set and `val = 0` emits the two-step compare `cpx #$00`, `bne L`, `cmp #$00`
and no OR of the two halves. -/
theorem g_eq_test_uses_general_compare :
    0xA1 &&& sampleEnv.CF_TYPE = sampleEnv.CF_INT ∧ 0xA1 &&& sampleEnv.CF_CONST ≠ 0 ∧
    0xA1 &&& sampleEnv.CF_TEST ≠ 0 ∧
    g_eq sampleEnv 0xA1 0 initState = .ok ((), { initState with
      nextLabel := 2,
      out := [.codeLine "cpx #$00", .codeLine "bne L0001", .codeLine "cmp #$00",
        .codeLabel "L0001", .codeLine "jsr booleq"] }) :=
  ⟨by decide, by decide, by decide, rfl⟩

/-- C18 (amended): `g_eq` with int width and `CF_CONST` set emits the general
two-step compare for every `val`, for `val = 0` that is `cpx #$00`, `bne L`,
`cmp #$00`, the label `L` and `jsr booleq`; `CF_TEST` does not change the
code: the flag word with `CF_TEST` added gives the same result. -/
theorem g_eq_int_const (E : Env) (hE : E.WF) (flags val : Nat) (st : CGState)
    (hc : flags &&& E.CF_CONST ≠ 0) (ht : flags &&& E.CF_TYPE = E.CF_INT) :
    g_eq E flags val st = .ok ((), { st with
      nextLabel := st.nextLabel + 1,
      out := st.out ++ [.codeLine ("cpx #$" ++ fmtHex 2 ((val >>> 8) % 256)),
        .codeLine ("bne " ++ E.LocalLabelName st.nextLabel),
        .codeLine ("cmp #$" ++ fmtHex 2 (val % 256)),
        .codeLabel (E.LocalLabelName st.nextLabel),
        .codeLine "jsr booleq"] }) ∧
    g_eq E (flags ||| E.CF_TEST) val st = g_eq E flags val st ∧
    (val = 0 → g_eq E flags val st = .ok ((), { st with
      nextLabel := st.nextLabel + 1,
      out := st.out ++ [.codeLine "cpx #$00",
        .codeLine ("bne " ++ E.LocalLabelName st.nextLabel), .codeLine "cmp #$00",
        .codeLabel (E.LocalLabelName st.nextLabel), .codeLine "jsr booleq"] })) := by
  have hci : ¬ (E.CF_INT = E.CF_CHAR) := Ne.symm hE.char_ne_int
  have hmain : ∀ f, f &&& E.CF_CONST ≠ 0 → f &&& E.CF_TYPE = E.CF_INT →
      g_eq E f val st = cmpWord E val "booleq" st := by
    intro f hfc hft
    unfold g_eq
    simp [hfc, hft, hci]
  have htc : E.CF_TEST &&& E.CF_CONST = 0 := by
    rw [Nat.and_comm]
    exact isBit_disjoint _ _ hE.const_bit hE.test_bit hE.const_ne_test
  have h1 : (flags ||| E.CF_TEST) &&& E.CF_CONST ≠ 0 := by
    rw [or_and_disj _ _ _ htc]; exact hc
  have h2 : (flags ||| E.CF_TEST) &&& E.CF_TYPE = E.CF_INT := by
    rw [or_and_disj _ _ _ hE.test_type]; exact ht
  refine ⟨?_, ?_, ?_⟩
  · rw [hmain flags hc ht, cmpWord_apply]
    rfl
  · rw [hmain flags hc ht, hmain _ h1 h2]
  · intro hv
    subst hv
    rw [hmain flags hc ht, cmpWord_apply]
    rfl

theorem g_eq_int_const_witness :
    sampleEnv.WF ∧ 0xA1 &&& sampleEnv.CF_CONST ≠ 0 ∧ 0xA1 &&& sampleEnv.CF_TYPE = sampleEnv.CF_INT ∧
    g_eq sampleEnv (0xA1 ||| sampleEnv.CF_TEST) 0 initState = g_eq sampleEnv 0xA1 0 initState :=
  ⟨sampleEnv_wf, by decide, by decide,
    (g_eq_int_const sampleEnv sampleEnv_wf 0xA1 0 initState (by decide) (by decide)).2.1⟩

/-! ## The generic path of the binary operators -/

theorem and_unot_and (x c t : Nat) (hct : c &&& t = 0) (ht : t < 2 ^ 32) :
    (x &&& unot c) &&& t = x &&& t := by
  apply Nat.eq_of_testBit_eq
  intro i
  have h1 := congrArg (fun z => z.testBit i) hct
  simp only [Nat.testBit_and, Nat.zero_testBit] at h1
  simp only [Nat.testBit_and, unot_testBit]
  by_cases hi : i < 32
  · simp only [hi, decide_True]
    revert h1
    cases x.testBit i <;> cases c.testBit i <;> cases t.testBit i <;> simp
  · have : t.testBit i = false := by
      apply Nat.testBit_lt_two_pow
      exact lt_of_lt_of_le ht (Nat.pow_le_pow_right (by norm_num) (by omega))
    simp [this]

theorem and_unot_self (x c : Nat) (hc : c < 2 ^ 32) : (x &&& unot c) &&& c = 0 := by
  apply Nat.eq_of_testBit_eq
  intro i
  simp only [Nat.testBit_and, unot_testBit, Nat.zero_testBit]
  by_cases hi : i < 32
  · simp only [hi, decide_True]
    cases x.testBit i <;> cases c.testBit i <;> simp
  · have : c.testBit i = false := by
      apply Nat.testBit_lt_two_pow
      exact lt_of_lt_of_le hc (Nat.pow_le_pow_right (by norm_num) (by omega))
    simp [this]

theorem argSize_congr (E : Env) (f g : Nat) (ht : f &&& E.CF_TYPE = g &&& E.CF_TYPE)
    (hf : f &&& E.CF_FORCECHAR = g &&& E.CF_FORCECHAR) : argSize E f = argSize E g := by
  unfold argSize
  rw [sizeofarg_apply, sizeofarg_apply, ht, hf]
  split_ifs <;> rfl

theorem clearConst_type (E : Env) (hE : E.WF) (flags : Nat) :
    (flags &&& unot E.CF_CONST) &&& E.CF_TYPE = flags &&& E.CF_TYPE :=
  and_unot_and _ _ _ hE.const_type hE.type_lt

theorem clearConst_forcechar (E : Env) (hE : E.WF) (flags : Nat) :
    (flags &&& unot E.CF_CONST) &&& E.CF_FORCECHAR = flags &&& E.CF_FORCECHAR :=
  and_unot_and _ _ _ (isBit_disjoint _ _ hE.const_bit hE.forcechar_bit hE.const_ne_forcechar)
    (isBit_lt _ hE.forcechar_bit)

theorem clearConst_const (E : Env) (hE : E.WF) (flags : Nat) :
    (flags &&& unot E.CF_CONST) &&& E.CF_CONST = 0 :=
  and_unot_self _ _ (isBit_lt _ hE.const_bit)

theorem clearConst_valid (E : Env) (hE : E.WF) (flags : Nat) (hv : ValidWidth E flags) :
    ValidWidth E (flags &&& unot E.CF_CONST) := by
  unfold ValidWidth at hv ⊢
  rw [clearConst_type E hE]
  exact hv

theorem clearConst_argSize (E : Env) (hE : E.WF) (flags : Nat) :
    argSize E (flags &&& unot E.CF_CONST) = argSize E flags :=
  argSize_congr E _ _ (clearConst_type E hE flags) (clearConst_forcechar E hE flags)

/-- Pushing the primary register (no constant): one line, and the virtual
stack offset decreases by the size of the operand. -/
theorem g_push_nonconst (E : Env) (flags val : Nat) (hv : ValidWidth E flags)
    (hc : flags &&& E.CF_CONST = 0) (st : CGState) :
    EmitsOnly (g_push E flags val) st (-(argSize E flags : Int)) := by
  unfold EmitsOnly g_push emitted
  unfold ValidWidth at hv
  simp only [hc, ne_eq, not_true_eq_false, false_and, if_false, Gen.bind_apply, Gen.pure_apply]
  split_ifs <;> first
    | (exfalso; tauto)
    | simp [Gen.bind_apply, Gen.pure_apply, AddCodeLine_apply, push_eq E flags hv,
        Int.sub_eq_add_neg]

/-- The number of the general-case slot is 2, 5, 8 or 11. -/
theorem generalSlot_mem (E : Env) (flags : Nat) :
    generalSlot E flags = 2 ∨ generalSlot E flags = 5 ∨ generalSlot E flags = 8 ∨
      generalSlot E flags = 11 := by
  unfold generalSlot
  split_ifs <;> simp

/-- The long way over the stack for an operand that is not constant: the
call of the routine in the general-case slot, and the pop of the operand. -/
theorem oper_nonconst (E : Env) (hE : E.WF) (flags val : Nat) (subs : List (Option String))
    (hv : ValidWidth E flags) (hc : flags &&& E.CF_CONST = 0) (st : CGState) :
    oper E flags val subs st = .ok ((), { st with
      out := st.out ++ [.codeLine ("jsr " ++ fmtStr (subs.getD (generalSlot E flags) none))],
      oursp := st.oursp + argSize E flags }) := by
  have hcl := hE.char_ne_long
  have hil := hE.int_ne_long
  unfold oper generalSlot
  unfold ValidWidth at hv
  simp only [hc, ne_eq, not_true_eq_false, if_false]
  rcases hv with h | h | h
  · simp [h, hcl, Gen.bind_apply, Gen.pure_apply, AddCodeLine_apply,
      pop_eq E flags (Or.inl h)]
  · simp [h, hil, Gen.bind_apply, Gen.pure_apply, AddCodeLine_apply,
      pop_eq E flags (Or.inr (Or.inl h))]
  · simp [h, Ne.symm hcl, Ne.symm hil, Gen.bind_apply, Gen.pure_apply, AddCodeLine_apply,
      pop_eq E flags (Or.inr (Or.inr h)), Nat.add_assoc]

/-- The long way over the stack for a constant operand: code is emitted and
the operand is popped. -/
theorem oper_const (E : Env) (flags val : Nat) (subs : List (Option String))
    (hv : ValidWidth E flags) (hc : flags &&& E.CF_CONST ≠ 0) (st : CGState) :
    EmitsOnly (oper E flags val subs) st (argSize E flags) := by
  unfold EmitsOnly oper g_getimmed emitted
  have hv2 := hv
  unfold ValidWidth at hv2
  simp only [hc, ne_eq, not_false_eq_true, if_true]
  split_ifs <;> first
    | (exfalso; tauto)
    | (simp only [Gen.bind_apply, Gen.pure_apply]
       split_ifs <;>
         simp [Gen.bind_apply, Gen.pure_apply, AddCodeLine_apply, AddCode_apply,
           ldaconst_apply, pop_eq E flags hv])

theorem emitted_append (st : CGState) (sp : Int) (fa : Int) (nl : Nat) (ds : List Diag)
    (es : List Emit) :
    emitted st { oursp := sp, funcargs := fa, nextLabel := nl, out := st.out ++ es,
                 diags := ds } = es := by
  simp [emitted]

theorem emitsOnly_iff (g : Gen Unit) (st : CGState) (delta : Int) :
    EmitsOnly g st delta ↔ ∃ es, es ≠ [] ∧
      g st = .ok ((), { st with out := st.out ++ es, oursp := st.oursp + delta }) := by
  constructor
  · rintro ⟨st1, h1, h2, h3⟩
    refine ⟨emitted st st1, h3, ?_⟩
    rw [h1, ← h2]
  · rintro ⟨es, hes, h⟩
    refine ⟨_, h, ?_, ?_⟩
    · rw [emitted_append]
    · rw [emitted_append]
      exact hes

theorem EmitsOnly.seq {g h : Gen Unit} {st : CGState} {d1 d2 : Int} (hg : EmitsOnly g st d1)
    (hh : ∀ st1, EmitsOnly h st1 d2) : EmitsOnly (do g; h) st (d1 + d2) := by
  obtain ⟨es1, hes1, e1⟩ := (emitsOnly_iff _ _ _).1 hg
  obtain ⟨es2, _, e2⟩ := (emitsOnly_iff _ _ _).1
    (hh { st with out := st.out ++ es1, oursp := st.oursp + d1 })
  refine (emitsOnly_iff _ _ _).2 ⟨es1 ++ es2, by simp [hes1], ?_⟩
  rw [Gen.bind_of_ok e1, e2]
  simp [List.append_assoc, Int.add_assoc]

theorem EmitsOnly.runsWith {g : Gen Unit} {st : CGState} {d : Int} (hg : EmitsOnly g st d) :
    RunsWith g st [] := by
  obtain ⟨es, hes, e⟩ := (emitsOnly_iff _ _ _).1 hg
  refine ⟨_, e, by simp, ?_, ?_⟩
  · rw [emitted_append]
  · rw [emitted_append]
    exact hes

/-- The end of the constant branch of a binary operator: the push of the lhs
and the long way over the stack emit code and are stack neutral. -/
theorem pushOper_emitsOnly (E : Env) (hE : E.WF) (flags val : Nat)
    (ops : List (Option String)) (hv : ValidWidth E flags) (hc : flags &&& E.CF_CONST ≠ 0)
    (st : CGState) : EmitsOnly (pushOper E flags val ops) st 0 := by
  have h1 := g_push_nonconst E (flags &&& unot E.CF_CONST) 0 (clearConst_valid E hE flags hv)
    (clearConst_const E hE flags) st
  rw [clearConst_argSize E hE] at h1
  have h2 := EmitsOnly.seq h1 (fun st1 => oper_const E flags val ops hv hc st1)
  rw [Int.add_left_neg] at h2
  exact h2

theorem Warning_apply (msg : String) (st : CGState) :
    Warning msg st = .ok ((), { st with diags := st.diags ++ [.warning msg] }) := rfl

theorem RunsWith.after_warning {g : Gen Unit} {st : CGState} (msg : String)
    (hg : ∀ st1, RunsWith g st1 []) :
    RunsWith (do Warning msg; g) st [.warning msg] := by
  obtain ⟨st1, h1, h2, h3, h4⟩ := hg { st with diags := st.diags ++ [.warning msg] }
  refine ⟨st1, ?_, ?_, h3, h4⟩
  · rw [Gen.bind_of_ok (Warning_apply msg st)]
    exact h1
  · rw [h2]
    simp

theorem RunsWith.after_pure {g : Gen Unit} {st : CGState} (hg : RunsWith g st []) :
    RunsWith (do (pure () : Gen Unit); g) st [] := hg

theorem cmpWord_runsWith (E : Env) (val : Nat) (routine : String) (st : CGState) :
    RunsWith (cmpWord E val routine) st [] := by
  refine ⟨_, cmpWord_apply E val routine st, by simp, ?_, ?_⟩
  · rw [emitted_append]
  · rw [emitted_append]
    simp

theorem g_lt_const_runsWith (E : Env) (hE : E.WF) (flags val : Nat) (hv : ValidWidth E flags)
    (hc : flags &&& E.CF_CONST ≠ 0) (st : CGState) :
    RunsWith (g_lt_const E flags val) st [] := by
  have hv2 := hv
  unfold ValidWidth at hv2
  unfold g_lt_const
  split_ifs <;> first
    | (exfalso; tauto)
    | exact (pushOper_emitsOnly E hE flags val _ hv hc st).runsWith
    | exact cmpWord_runsWith E val _ st
    | (unfold RunsWith emitted
       simp [Gen.bind_apply, Gen.pure_apply, AddCodeLine_apply])

theorem g_ge_const_runsWith (E : Env) (hE : E.WF) (flags val : Nat) (hv : ValidWidth E flags)
    (hc : flags &&& E.CF_CONST ≠ 0) (st : CGState) :
    RunsWith (g_ge_const E flags val) st [] := by
  have hv2 := hv
  unfold ValidWidth at hv2
  unfold g_ge_const
  split_ifs <;> first
    | (exfalso; tauto)
    | exact (pushOper_emitsOnly E hE flags val _ hv hc st).runsWith
    | exact cmpWord_runsWith E val _ st
    | (unfold RunsWith emitted
       simp [Gen.bind_apply, Gen.pure_apply, AddCodeLine_apply])

theorem oper_nonconst_runsWith (E : Env) (hE : E.WF) (flags val : Nat)
    (subs : List (Option String)) (hv : ValidWidth E flags) (hc : flags &&& E.CF_CONST = 0)
    (st : CGState) : RunsWith (oper E flags val subs) st [] := by
  refine ⟨_, oper_nonconst E hE flags val subs hv hc st, by simp, ?_, ?_⟩
  · rw [emitted_append]
  · rw [emitted_append]
    simp

theorem g_lt_runsWith (E : Env) (hE : E.WF) (flags val : Nat) (hv : ValidWidth E flags)
    (st : CGState) :
    RunsWith (g_lt E flags val) st
      (if flags &&& E.CF_CONST ≠ 0 ∧ flags &&& E.CF_UNSIGNED ≠ 0 ∧ val = 0 then
        [.warning "Condition is never true"] else []) := by
  unfold g_lt
  by_cases hc : flags &&& E.CF_CONST ≠ 0
  · rw [if_pos hc]
    by_cases hw : flags &&& E.CF_UNSIGNED ≠ 0 ∧ val = 0
    · rw [if_pos hw, if_pos ⟨hc, hw⟩]
      exact RunsWith.after_warning _ (fun st1 => g_lt_const_runsWith E hE flags val hv hc st1)
    · rw [if_neg hw, if_neg (fun h => hw h.2)]
      exact RunsWith.after_pure (g_lt_const_runsWith E hE flags val hv hc st)
  · rw [if_neg hc, if_neg (fun h => hc h.1)]
    exact oper_nonconst_runsWith E hE flags val _ hv (by simpa using hc) st

theorem g_ge_runsWith (E : Env) (hE : E.WF) (flags val : Nat) (hv : ValidWidth E flags)
    (st : CGState) :
    RunsWith (g_ge E flags val) st
      (if flags &&& E.CF_CONST ≠ 0 ∧ flags &&& E.CF_UNSIGNED ≠ 0 ∧ val = 0 then
        [.warning "Condition is always true"] else []) := by
  unfold g_ge
  by_cases hc : flags &&& E.CF_CONST ≠ 0
  · rw [if_pos hc]
    by_cases hw : flags &&& E.CF_UNSIGNED ≠ 0 ∧ val = 0
    · rw [if_pos hw, if_pos ⟨hc, hw⟩]
      exact RunsWith.after_warning _ (fun st1 => g_ge_const_runsWith E hE flags val hv hc st1)
    · rw [if_neg hw, if_neg (fun h => hw h.2)]
      exact RunsWith.after_pure (g_ge_const_runsWith E hE flags val hv hc st)
  · rw [if_neg hc, if_neg (fun h => hc h.1)]
    exact oper_nonconst_runsWith E hE flags val _ hv (by simpa using hc) st

theorem reported_of_append (st st1 : CGState) (ds : List Diag)
    (h : st1.diags = st.diags ++ ds) : reported st st1 = ds := by
  simp [reported, h]

theorem RunsWith.warning_iff {g : Gen Unit} {st : CGState} {c : Prop} [Decidable c]
    {w : Diag} (hg : RunsWith g st (if c then [w] else [])) :
    ∃ st1, g st = .ok ((), st1) ∧ st1.diags = st.diags ++ reported st st1 ∧
      (w ∈ reported st st1 ↔ c) ∧
      st1.out = st.out ++ emitted st st1 ∧ emitted st st1 ≠ [] := by
  obtain ⟨st1, h1, h2, h3, h4⟩ := hg
  have hr := reported_of_append st st1 _ h2
  refine ⟨st1, h1, by rw [hr]; exact h2, ?_, h3, h4⟩
  rw [hr]
  split_ifs with hc <;> simp [hc]

/-- C15: for a flag word with a valid width field, `g_lt` reports the warning
"Condition is never true" iff the flag word has `CF_CONST` and `CF_UNSIGNED`
and `val = 0`, and `g_ge` reports "Condition is always true" under the same
condition; both calls return normally and emit code, with or without the
warning. -/
theorem relational_warnings (E : Env) (hE : E.WF) (flags val : Nat) (hv : ValidWidth E flags)
    (st : CGState) :
    (∃ st1, g_lt E flags val st = .ok ((), st1) ∧ st1.diags = st.diags ++ reported st st1 ∧
      (Diag.warning "Condition is never true" ∈ reported st st1 ↔
        (flags &&& E.CF_CONST ≠ 0 ∧ flags &&& E.CF_UNSIGNED ≠ 0 ∧ val = 0)) ∧
      st1.out = st.out ++ emitted st st1 ∧ emitted st st1 ≠ []) ∧
    (∃ st1, g_ge E flags val st = .ok ((), st1) ∧ st1.diags = st.diags ++ reported st st1 ∧
      (Diag.warning "Condition is always true" ∈ reported st st1 ↔
        (flags &&& E.CF_CONST ≠ 0 ∧ flags &&& E.CF_UNSIGNED ≠ 0 ∧ val = 0)) ∧
      st1.out = st.out ++ emitted st st1 ∧ emitted st st1 ≠ []) :=
  ⟨(g_lt_runsWith E hE flags val hv st).warning_iff,
   (g_ge_runsWith E hE flags val hv st).warning_iff⟩

theorem relational_warnings_witness :
    sampleEnv.WF ∧ ValidWidth sampleEnv 0x31 ∧
    ∃ st1, g_lt sampleEnv 0x31 0 initState = .ok ((), st1) ∧
      st1.diags = initState.diags ++ reported initState st1 ∧
      (Diag.warning "Condition is never true" ∈ reported initState st1 ↔
        (0x31 &&& sampleEnv.CF_CONST ≠ 0 ∧ 0x31 &&& sampleEnv.CF_UNSIGNED ≠ 0 ∧ 0 = 0)) ∧
      st1.out = initState.out ++ emitted initState st1 ∧ emitted initState st1 ≠ [] :=
  ⟨sampleEnv_wf, by decide,
    (relational_warnings sampleEnv sampleEnv_wf 0x31 0 (by decide) initState).1⟩

/-! ## The general-case slot of the seventeen operators -/

theorem binaryOperators_nonconst (E : Env) (flags val : Nat)
    (hc : flags &&& E.CF_CONST = 0) :
    ∀ op ∈ binaryOperators, op.1 E flags val = oper E flags val op.2 := by
  intro op hop
  simp only [binaryOperators, List.mem_cons, List.mem_singleton, List.mem_nil_iff,
    or_false] at hop
  rcases hop with h | h | h | h | h | h | h | h | h | h | h | h | h | h | h | h | h <;>
    subst h <;>
    simp [g_add, g_sub, g_rsub, g_mul, g_div, g_mod, g_or, g_xor, g_and, g_asr, g_asl,
      g_eq, g_ne, g_lt, g_le, g_gt, g_ge, hc]

theorem binaryOperators_slots :
    binaryOperators.length = 17 ∧
    ∀ op ∈ binaryOperators, op.2.length = 12 ∧
      ∀ i ∈ [2, 5, 8, 11], (op.2.getD i none).isSome = true := by
  refine ⟨rfl, ?_⟩
  intro op hop
  simp only [binaryOperators, List.mem_cons, List.mem_singleton, List.mem_nil_iff,
    or_false] at hop
  rcases hop with h | h | h | h | h | h | h | h | h | h | h | h | h | h | h | h | h <;>
    subst h <;> decide

theorem sizeofarg_invalid (E : Env) (flags : Nat) (hv : ¬ ValidWidth E flags) (st : CGState) :
    ∃ msg, sizeofarg E flags st = .error (.internal msg, st) := by
  simp only [ValidWidth, not_or] at hv
  rw [sizeofarg_apply, if_neg hv.1, if_neg hv.2.1, if_neg hv.2.2]
  exact ⟨_, rfl⟩

theorem GetLabelName_cases (E : Env) (flags label offs : Nat) (st : CGState) :
    (∃ name, GetLabelName E flags label offs st = .ok (name, st)) ∨
      GetLabelName E flags label offs st = .error (.internal "Invalid address flags", st) := by
  unfold GetLabelName
  split_ifs
  · exact Or.inl ⟨_, rfl⟩
  · exact Or.inl ⟨_, rfl⟩
  · exact Or.inl ⟨_, rfl⟩
  · exact Or.inl ⟨_, rfl⟩
  · exact Or.inr rfl

/-- For a flag word whose width field is none of char, int, long, the
generators below raise the fatal internal error before any output is
emitted (`g_push` for a flag word without `CF_CONST`). -/
theorem invalid_width_immediate (E : Env) (hE : E.WF) (flags label uoffs val : Nat)
    (offs lval : Int) (st : CGState) (hv : ¬ ValidWidth E flags) :
    (∃ msg st1, g_getstatic E flags label uoffs st = .error (.internal msg, st1) ∧
      st1.out = st.out) ∧
    (∃ msg st1, g_putstatic E flags label uoffs st = .error (.internal msg, st1) ∧
      st1.out = st.out) ∧
    (∃ msg st1, g_getlocal E flags offs st = .error (.internal msg, st1) ∧
      st1.out = st.out) ∧
    (∃ msg st1, g_putlocal E flags offs lval st = .error (.internal msg, st1) ∧
      st1.out = st.out) ∧
    (∃ msg st1, g_getind E flags uoffs st = .error (.internal msg, st1) ∧
      st1.out = st.out) ∧
    (∃ msg st1, g_putind E flags uoffs st = .error (.internal msg, st1) ∧
      st1.out = st.out) ∧
    (∃ msg st1, g_test E flags st = .error (.internal msg, st1) ∧ st1.out = st.out) ∧
    (flags &&& E.CF_CONST = 0 →
      ∃ msg st1, g_push E flags val st = .error (.internal msg, st1) ∧ st1.out = st.out) := by
  have hv2 := hv
  simp only [ValidWidth, not_or] at hv2
  obtain ⟨h1, h2, h3⟩ := hv2
  refine ⟨?_, ?_, ?_, ?_, ?_, ?_, ?_, ?_⟩
  · unfold g_getstatic
    rcases GetLabelName_cases E flags label uoffs st with ⟨name, hn⟩ | he
    · rw [Gen.bind_of_ok hn, if_neg h1, if_neg h2, if_neg h3]
      exact ⟨_, st, rfl, rfl⟩
    · rw [Gen.bind_of_error he]
      exact ⟨_, st, rfl, rfl⟩
  · unfold g_putstatic
    rcases GetLabelName_cases E flags label uoffs st with ⟨name, hn⟩ | he
    · rw [Gen.bind_of_ok hn, if_neg h1, if_neg h2, if_neg h3]
      exact ⟨_, st, rfl, rfl⟩
    · rw [Gen.bind_of_error he]
      exact ⟨_, st, rfl, rfl⟩
  · unfold g_getlocal CheckLocalOffs
    simp only [Gen.bind_apply, getOursp_apply, if_neg h1, if_neg h2, if_neg h3]
    split_ifs <;> exact ⟨_, _, rfl, rfl⟩
  · unfold g_putlocal CheckLocalOffs g_getimmed
    simp only [Gen.bind_apply, getOursp_apply, if_neg h1, if_neg h2, if_neg h3]
    split_ifs <;> exact ⟨_, _, rfl, rfl⟩
  · unfold g_getind MakeByteOffs
    obtain ⟨msg, hm⟩ := sizeofarg_invalid E flags hv st
    rw [Gen.bind_of_error (Gen.bind_of_error hm)]
    exact ⟨_, st, rfl, rfl⟩
  · have hor : ¬ ValidWidth E (flags ||| E.CF_FORCECHAR) := by
      unfold ValidWidth
      rw [or_and_disj _ _ _ hE.forcechar_type]
      exact hv
    obtain ⟨msg, hm⟩ := sizeofarg_invalid E _ hor st
    unfold g_putind
    rw [Gen.bind_of_error hm]
    exact ⟨_, st, rfl, rfl⟩
  · unfold g_test
    rw [if_neg h1, if_neg h2, if_neg h3]
    exact ⟨_, st, rfl, rfl⟩
  · intro hc
    unfold g_push
    simp only [hc, ne_eq, not_true_eq_false, false_and, if_false, Gen.bind_apply,
      Gen.pure_apply, if_neg h1, if_neg h2, if_neg h3]
    exact ⟨_, st, rfl, rfl⟩

/-- C20 (failing input): `g_push` on a constant operand whose width field is
invalid (`0x22`: `CF_CONST` with width field 2) and `val = 0` emits the line
`jsr push0` before the final `push` raises the fatal internal error. -/
theorem g_push_const_emits_before_error :
    ¬ ValidWidth sampleEnv 0x22 ∧ 0x22 &&& sampleEnv.CF_CONST ≠ 0 ∧
    g_push sampleEnv 0x22 0 initState =
      .error (.internal "Invalid type in CF flags: 0022, type = 2",
        { initState with out := [.codeLine "jsr push0"] }) :=
  ⟨by decide, by decide, rfl⟩

/-! ## Scaling by a constant -/

theorem powerof2_two : powerof2 2 = 1 := by decide

theorem powerof2_four : powerof2 4 = 2 := by decide

theorem powerof2_eight : powerof2 8 = 3 := by decide

theorem repeatGen_one (g : Gen Unit) : repeatGen 1 g = (do g; pure ()) := rfl

theorem repeatGen_two (g : Gen Unit) : repeatGen 2 g = (do g; g; pure ()) := rfl

theorem repeatGen_three (g : Gen Unit) : repeatGen 3 g = (do g; g; g; pure ()) := rfl

theorem g_scale_shift_up2 (E : Env) (flags : Nat) (st : CGState) (hv : ValidWidth E flags) :
    EmitsShiftCode (g_scale E flags 2) st := by
  have t : toULong 2 = 2 := by decide
  have f1 : fmtInt 1 = "1" := by decide
  have f2 : fmtInt 2 = "2" := by decide
  have f3 : fmtInt 3 = "3" := by decide
  unfold ValidWidth at hv
  unfold EmitsShiftCode g_scale
  norm_num
  simp only [t, powerof2_two, powerof2_four, powerof2_eight, f1, f2, f3]
  norm_num
  split_ifs <;> first
    | (simp [Gen.bind_apply, Gen.pure_apply, AddCodeLine_apply, repeatGen_one, repeatGen_two,
         repeatGen_three, emitted]
       try decide
       done)
    | (exfalso; tauto)

theorem g_scale_shift_up4 (E : Env) (flags : Nat) (st : CGState) (hv : ValidWidth E flags) :
    EmitsShiftCode (g_scale E flags 4) st := by
  have t : toULong 4 = 4 := by decide
  have f1 : fmtInt 1 = "1" := by decide
  have f2 : fmtInt 2 = "2" := by decide
  have f3 : fmtInt 3 = "3" := by decide
  unfold ValidWidth at hv
  unfold EmitsShiftCode g_scale
  norm_num
  simp only [t, powerof2_two, powerof2_four, powerof2_eight, f1, f2, f3]
  norm_num
  split_ifs <;> first
    | (simp [Gen.bind_apply, Gen.pure_apply, AddCodeLine_apply, repeatGen_one, repeatGen_two,
         repeatGen_three, emitted]
       try decide
       done)
    | (exfalso; tauto)

theorem g_scale_shift_up8 (E : Env) (flags : Nat) (st : CGState) (hv : ValidWidth E flags) :
    EmitsShiftCode (g_scale E flags 8) st := by
  have t : toULong 8 = 8 := by decide
  have f1 : fmtInt 1 = "1" := by decide
  have f2 : fmtInt 2 = "2" := by decide
  have f3 : fmtInt 3 = "3" := by decide
  unfold ValidWidth at hv
  unfold EmitsShiftCode g_scale
  norm_num
  simp only [t, powerof2_two, powerof2_four, powerof2_eight, f1, f2, f3]
  norm_num
  split_ifs <;> first
    | (simp [Gen.bind_apply, Gen.pure_apply, AddCodeLine_apply, repeatGen_one, repeatGen_two,
         repeatGen_three, emitted]
       try decide
       done)
    | (exfalso; tauto)

theorem g_scale_shift_down2 (E : Env) (flags : Nat) (st : CGState) (hv : ValidWidth E flags) :
    EmitsShiftCode (g_scale E flags (-2)) st := by
  have t : toULong 2 = 2 := by decide
  have f1 : fmtInt 1 = "1" := by decide
  have f2 : fmtInt 2 = "2" := by decide
  have f3 : fmtInt 3 = "3" := by decide
  unfold ValidWidth at hv
  unfold EmitsShiftCode g_scale
  norm_num
  simp only [t, powerof2_two, powerof2_four, powerof2_eight, f1, f2, f3]
  norm_num
  split_ifs <;> first
    | (simp [Gen.bind_apply, Gen.pure_apply, AddCodeLine_apply, repeatGen_one, repeatGen_two,
         repeatGen_three, emitted]
       try decide
       done)
    | (exfalso; tauto)

theorem g_scale_shift_down4 (E : Env) (flags : Nat) (st : CGState) (hv : ValidWidth E flags) :
    EmitsShiftCode (g_scale E flags (-4)) st := by
  have t : toULong 4 = 4 := by decide
  have f1 : fmtInt 1 = "1" := by decide
  have f2 : fmtInt 2 = "2" := by decide
  have f3 : fmtInt 3 = "3" := by decide
  unfold ValidWidth at hv
  unfold EmitsShiftCode g_scale
  norm_num
  simp only [t, powerof2_two, powerof2_four, powerof2_eight, f1, f2, f3]
  norm_num
  split_ifs <;> first
    | (simp [Gen.bind_apply, Gen.pure_apply, AddCodeLine_apply, repeatGen_one, repeatGen_two,
         repeatGen_three, emitted]
       try decide
       done)
    | (exfalso; tauto)

theorem g_scale_shift_down8 (E : Env) (flags : Nat) (st : CGState) (hv : ValidWidth E flags) :
    EmitsShiftCode (g_scale E flags (-8)) st := by
  have t : toULong 8 = 8 := by decide
  have f1 : fmtInt 1 = "1" := by decide
  have f2 : fmtInt 2 = "2" := by decide
  have f3 : fmtInt 3 = "3" := by decide
  unfold ValidWidth at hv
  unfold EmitsShiftCode g_scale
  norm_num
  simp only [t, powerof2_two, powerof2_four, powerof2_eight, f1, f2, f3]
  norm_num
  split_ifs <;> first
    | (simp [Gen.bind_apply, Gen.pure_apply, AddCodeLine_apply, repeatGen_one, repeatGen_two,
         repeatGen_three, emitted]
       try decide
       done)
    | (exfalso; tauto)

theorem powerof2From_sound (fuel i val : Nat) :
    powerof2From fuel i val = -1 ∨
      ∃ k : Nat, powerof2From fuel i val = (k : Int) ∧ val = 2 ^ k := by
  induction fuel generalizing i with
  | zero => exact Or.inl rfl
  | succ f ih =>
    unfold powerof2From
    split_ifs with h1 h2
    · exact Or.inr ⟨i, rfl, h1⟩
    · exact Or.inl rfl
    · exact ih (i + 1)

theorem powerof2_small (val : Nat) (h : 0 < powerof2 val ∧ powerof2 val ≤ 3) :
    val = 2 ∨ val = 4 ∨ val = 8 := by
  unfold powerof2 at h
  rcases powerof2From_sound (val + 1) 0 val with h1 | ⟨k, hk, hval⟩
  · rw [h1] at h
    omega
  · rw [hk] at h
    have hk1 : k = 1 ∨ k = 2 ∨ k = 3 := by omega
    rcases hk1 with rfl | rfl | rfl <;> simp [hval]

theorem g_scale_up_general (E : Env) (flags : Nat) (val : Int) (h1 : 1 < val)
    (hhi : val ≤ 9223372036854775807) (h2 : val ≠ 2) (h4 : val ≠ 4) (h8 : val ≠ 8) :
    g_scale E flags val = g_mul E (flags ||| E.CF_CONST) val.toNat := by
  have ht : toULong val = val.toNat := by
    unfold toULong
    omega
  have hp : ¬ (powerof2 val.toNat > 0 ∧ powerof2 val.toNat ≤ 3) := by
    intro h
    have := powerof2_small val.toNat h
    omega
  unfold g_scale
  rw [if_neg (by omega), if_pos (by omega)]
  simp only [ht]
  rw [if_neg hp, if_pos (by omega)]

theorem g_scale_down_general (E : Env) (flags : Nat) (val : Int) (h1 : val < -1)
    (hlo : -9223372036854775808 < val) (h2 : val ≠ -2) (h4 : val ≠ -4) (h8 : val ≠ -8) :
    g_scale E flags val = g_div E (flags ||| E.CF_CONST) (-val).toNat := by
  have ht : toULong (-val) = (-val).toNat := by
    unfold toULong
    omega
  have hp : ¬ (powerof2 (-val).toNat > 0 ∧ powerof2 (-val).toNat ≤ 3) := by
    intro h
    have := powerof2_small (-val).toNat h
    omega
  unfold g_scale
  rw [if_neg (by omega), if_neg (by omega)]
  simp only [ht]
  rw [if_neg hp, if_pos (by omega)]

/-- C21: for a flag word with a valid width field, `g_scale` by 2, 4, 8, -2,
-4 or -8 returns with only shift code appended to the output (inline shifts
or one call of a shift routine with a fixed count, none of them a call of a
push routine or of a `tos` routine) and the rest of the state, the virtual
stack offset included, unchanged; for every other `val > 1` the call is the
call `g_mul (flags | CF_CONST, val)` and for every other `val < -1` it is the
call `g_div (flags | CF_CONST, -val)`: same output, same final state. -/
theorem g_scale_contract (E : Env) (flags : Nat) (val : Int) (st : CGState)
    (hv : ValidWidth E flags) (hlo : -9223372036854775808 < val)
    (hhi : val ≤ 9223372036854775807) :
    ((val = 2 ∨ val = 4 ∨ val = 8 ∨ val = -2 ∨ val = -4 ∨ val = -8) →
      EmitsShiftCode (g_scale E flags val) st) ∧
    (∀ l ∈ shiftCode, isPushOrTosCall l = false) ∧
    (1 < val → val ≠ 2 → val ≠ 4 → val ≠ 8 →
      g_scale E flags val st = g_mul E (flags ||| E.CF_CONST) val.toNat st) ∧
    (val < -1 → val ≠ -2 → val ≠ -4 → val ≠ -8 →
      g_scale E flags val st = g_div E (flags ||| E.CF_CONST) (-val).toNat st) := by
  refine ⟨?_, by decide, ?_, ?_⟩
  · rintro (h | h | h | h | h | h) <;> subst h
    · exact g_scale_shift_up2 E flags st hv
    · exact g_scale_shift_up4 E flags st hv
    · exact g_scale_shift_up8 E flags st hv
    · exact g_scale_shift_down2 E flags st hv
    · exact g_scale_shift_down4 E flags st hv
    · exact g_scale_shift_down8 E flags st hv
  · intro h1 h2 h4 h8
    rw [g_scale_up_general E flags val h1 hhi h2 h4 h8]
  · intro h1 h2 h4 h8
    rw [g_scale_down_general E flags val h1 hlo h2 h4 h8]

theorem g_scale_contract_witness :
    ValidWidth sampleEnv 0x11 ∧ (-9223372036854775808 : Int) < -4 ∧
    (-4 : Int) ≤ 9223372036854775807 ∧ EmitsShiftCode (g_scale sampleEnv 0x11 (-4)) initState :=
  ⟨by decide, by decide, by decide,
    (g_scale_contract sampleEnv 0x11 (-4) initState (by decide) (by decide) (by decide)).1
      (by decide)⟩

/-- Scaling a forced 8 bit char: up by `2 ^ k` emits `k` lines `asl a`; down
by `2 ^ k` emits `k` lines `lsr a` when unsigned; down by 2 and down by 4 of
a signed char both emit the pair `cmp #$80`, `ror a` once. -/
theorem g_scale_forced_char (E : Env) (flags : Nat) (st : CGState)
    (ht : flags &&& E.CF_TYPE = E.CF_CHAR) (hf : flags &&& E.CF_FORCECHAR ≠ 0) :
    g_scale E flags 2 st = .ok ((), { st with out := st.out ++ [.codeLine "asl a"] }) ∧
    g_scale E flags 4 st = .ok ((), { st with out := st.out ++
      [.codeLine "asl a", .codeLine "asl a"] }) ∧
    g_scale E flags 8 st = .ok ((), { st with out := st.out ++
      [.codeLine "asl a", .codeLine "asl a", .codeLine "asl a"] }) ∧
    (flags &&& E.CF_UNSIGNED ≠ 0 →
      g_scale E flags (-2) st = .ok ((), { st with out := st.out ++ [.codeLine "lsr a"] }) ∧
      g_scale E flags (-4) st = .ok ((), { st with out := st.out ++
        [.codeLine "lsr a", .codeLine "lsr a"] }) ∧
      g_scale E flags (-8) st = .ok ((), { st with out := st.out ++
        [.codeLine "lsr a", .codeLine "lsr a", .codeLine "lsr a"] })) ∧
    (flags &&& E.CF_UNSIGNED = 0 →
      g_scale E flags (-2) st = .ok ((), { st with out := st.out ++
        [.codeLine "cmp #$80", .codeLine "ror a"] }) ∧
      g_scale E flags (-4) st = .ok ((), { st with out := st.out ++
        [.codeLine "cmp #$80", .codeLine "ror a"] })) := by
  have t2 : toULong 2 = 2 := by decide
  have t4 : toULong 4 = 4 := by decide
  have t8 : toULong 8 = 8 := by decide
  refine ⟨?_, ?_, ?_, ?_, ?_⟩
  · unfold g_scale
    norm_num
    simp [t2, powerof2_two, ht, hf, repeatGen_one, Gen.bind_apply, Gen.pure_apply,
      AddCodeLine_apply]
  · unfold g_scale
    norm_num
    simp [t4, powerof2_four, ht, hf, repeatGen_two, Gen.bind_apply, Gen.pure_apply,
      AddCodeLine_apply]
  · unfold g_scale
    norm_num
    simp [t8, powerof2_eight, ht, hf, repeatGen_three, Gen.bind_apply, Gen.pure_apply,
      AddCodeLine_apply]
  · intro hu
    refine ⟨?_, ?_, ?_⟩
    · unfold g_scale
      norm_num
      simp [t2, powerof2_two, ht, hf, hu, repeatGen_one, Gen.bind_apply, Gen.pure_apply,
        AddCodeLine_apply]
    · unfold g_scale
      norm_num
      simp [t4, powerof2_four, ht, hf, hu, repeatGen_two, Gen.bind_apply, Gen.pure_apply,
        AddCodeLine_apply]
    · unfold g_scale
      norm_num
      simp [t8, powerof2_eight, ht, hf, hu, repeatGen_three, Gen.bind_apply, Gen.pure_apply,
        AddCodeLine_apply]
  · intro hu
    refine ⟨?_, ?_⟩
    · unfold g_scale
      norm_num
      simp [t2, powerof2_two, ht, hf, hu, Gen.bind_apply, AddCodeLine_apply]
    · unfold g_scale
      norm_num
      simp [t4, powerof2_four, ht, hf, hu, Gen.bind_apply, AddCodeLine_apply]

/-- C22 (failing input): scaling a signed forced 8 bit char (flag word
`0x203`) down by 4 emits the one-bit arithmetic right shift pair `cmp #$80`,
`ror a` once, the code of a scaling down by 2, and not twice. -/
theorem g_scale_signed_char_down4 :
    0x203 &&& sampleEnv.CF_TYPE = sampleEnv.CF_CHAR ∧ 0x203 &&& sampleEnv.CF_FORCECHAR ≠ 0 ∧
    0x203 &&& sampleEnv.CF_UNSIGNED = 0 ∧
    g_scale sampleEnv 0x203 (-4) initState =
      .ok ((), { initState with out := [.codeLine "cmp #$80", .codeLine "ror a"] }) ∧
    g_scale sampleEnv 0x203 (-4) initState = g_scale sampleEnv 0x203 (-2) initState :=
  ⟨by decide, by decide, by decide, by decide, by decide⟩

/-! ## Frame effect of g_typeadjust -/

theorem g_reglong_widen (E : Env) (flags : Nat) (st : CGState)
    (h : flags &&& E.CF_TYPE = E.CF_CHAR ∨ flags &&& E.CF_TYPE = E.CF_INT) :
    ∃ ls, ls ≠ [] ∧ (∀ l ∈ ls, l ∈ wideningCode) ∧
      g_reglong E flags st = .ok ((), { st with out := st.out ++ ls }) := by
  have h0 : "ldy #$" ++ fmtHex 2 0 = "ldy #$00" := by decide
  unfold g_reglong
  rw [if_pos h]
  split_ifs
  · refine ⟨[.codeLine "ldy #$00", .codeLine "sty sreg", .codeLine "sty sreg+1"], by simp,
      by decide, ?_⟩
    simp [Gen.bind_apply, AddCodeLine_apply, ldyconst_apply, h0]
  · exact ⟨[.codeLine "jsr axulong"], by simp, by decide, rfl⟩
  · exact ⟨[.codeLine "jsr axlong"], by simp, by decide, rfl⟩

theorem g_toslong_widen (E : Env) (hE : E.WF) (flags : Nat) (st : CGState)
    (h : flags &&& E.CF_TYPE = E.CF_CHAR ∨ flags &&& E.CF_TYPE = E.CF_INT) :
    ∃ ls, ls ≠ [] ∧ (∀ l ∈ ls, l ∈ wideningCode) ∧
      g_toslong E flags st =
        .ok ((), { st with out := st.out ++ ls, oursp := st.oursp - 2 }) := by
  unfold g_toslong
  rw [if_pos h]
  split_ifs
  · refine ⟨[.codeLine "jsr tosulong"], by simp, by decide, ?_⟩
    simp [Gen.bind_apply, Gen.pure_apply, AddCodeLine_apply,
      push_eq E _ (validWidth_int E hE), argSize_int E hE]
  · refine ⟨[.codeLine "jsr toslong"], by simp, by decide, ?_⟩
    simp [Gen.bind_apply, Gen.pure_apply, AddCodeLine_apply,
      push_eq E _ (validWidth_int E hE), argSize_int E hE]

theorem emitted_self (st : CGState) : emitted st st = [] := by
  simp [emitted]

theorem argSize_long (E : Env) (hE : E.WF) (flags : Nat) (ht : flags &&& E.CF_TYPE = E.CF_LONG) :
    argSize E flags = 4 := by
  unfold argSize
  rw [sizeofarg_apply, ht, if_neg (Ne.symm hE.char_ne_long), if_neg (Ne.symm hE.int_ne_long),
    if_pos rfl]

/-- The push of the primary register as a long: `jsr pusheax`, four bytes. -/
theorem g_push_long (E : Env) (hE : E.WF) (flags val : Nat)
    (hc : flags &&& E.CF_CONST = 0) (ht : flags &&& E.CF_TYPE = E.CF_LONG) (st : CGState) :
    g_push E flags val st = .ok ((), { st with
      out := st.out ++ [.codeLine "jsr pusheax"], oursp := st.oursp - 4 }) := by
  have hcl : ¬ (E.CF_LONG = E.CF_CHAR) := Ne.symm hE.char_ne_long
  have hil : ¬ (E.CF_LONG = E.CF_INT) := Ne.symm hE.int_ne_long
  unfold g_push
  simp [hc, ht, hcl, hil, Gen.bind_apply, Gen.pure_apply, AddCodeLine_apply,
    push_eq E flags (Or.inr (Or.inr ht)), argSize_long E hE flags ht]

/-- The generic path of an operator on a constant long operand: push the
primary register, load the constant, call the routine of the general slot. -/
theorem pushOper_long (E : Env) (hE : E.WF) (flags val : Nat) (ops : List (Option String))
    (hc : flags &&& E.CF_CONST ≠ 0) (ht : flags &&& E.CF_TYPE = E.CF_LONG)
    (h6 : ops.getD 6 none = none) (h7 : ops.getD 7 none = none)
    (h9 : ops.getD 9 none = none) (h10 : ops.getD 10 none = none) (st : CGState) :
    pushOper E flags val ops st = .ok ((), { st with out := st.out ++
      [.codeLine "jsr pusheax", .code .OPC_LDEAX .AM_IMM (some (DWordToStr val)),
       .codeLine ("jsr " ++ fmtStr (ops.getD (generalSlot E flags) none))] }) := by
  have hcl : ¬ (E.CF_LONG = E.CF_CHAR) := Ne.symm hE.char_ne_long
  have hil : ¬ (E.CF_LONG = E.CF_INT) := Ne.symm hE.int_ne_long
  have hp := g_push_long E hE (flags &&& unot E.CF_CONST) 0 (clearConst_const E hE flags)
    (by rw [clearConst_type E hE, ht]) st
  unfold pushOper
  rw [Gen.bind_of_ok hp]
  unfold oper g_getimmed generalSlot
  simp only [List.getD_eq_getElem?_getD] at h6 h7 h9 h10
  by_cases hu : flags &&& E.CF_UNSIGNED ≠ 0
  · simp [hc, ht, hu, hcl, hil, h9, h10, Gen.bind_apply, Gen.pure_apply, AddCodeLine_apply,
      AddCode_apply, pop_eq E flags (Or.inr (Or.inr ht)), argSize_long E hE flags ht]
  · simp [hc, ht, hu, hcl, hil, h6, h7, Gen.bind_apply, Gen.pure_apply, AddCodeLine_apply,
      AddCode_apply, pop_eq E flags (Or.inr (Or.inr ht)), argSize_long E hE flags ht]

/-- C24: a signed comparison with the constant zero tests the high byte only:
for a flag word with `CF_CONST` set and `CF_UNSIGNED` clear and `val = 0`,
`g_lt` emits exactly `txa`, `jsr boollt` for an int or a char without
`CF_FORCECHAR`, and exactly `lda sreg+1`, `jsr boollt` for a long; `g_ge`
emits the same with `boolge`. Nothing else of the state changes: nothing is
pushed and the virtual stack offset is the same. -/
theorem signed_zero_compare (E : Env) (hE : E.WF) (flags : Nat) (st : CGState)
    (hc : flags &&& E.CF_CONST ≠ 0) (hu : flags &&& E.CF_UNSIGNED = 0) :
    ((flags &&& E.CF_TYPE = E.CF_INT ∨
        (flags &&& E.CF_TYPE = E.CF_CHAR ∧ flags &&& E.CF_FORCECHAR = 0)) →
      g_lt E flags 0 st = .ok ((), { st with out := st.out ++
        [.codeLine "txa", .codeLine "jsr boollt"] }) ∧
      g_ge E flags 0 st = .ok ((), { st with out := st.out ++
        [.codeLine "txa", .codeLine "jsr boolge"] })) ∧
    (flags &&& E.CF_TYPE = E.CF_LONG →
      g_lt E flags 0 st = .ok ((), { st with out := st.out ++
        [.codeLine "lda sreg+1", .codeLine "jsr boollt"] }) ∧
      g_ge E flags 0 st = .ok ((), { st with out := st.out ++
        [.codeLine "lda sreg+1", .codeLine "jsr boolge"] })) := by
  have hic : ¬ (E.CF_INT = E.CF_CHAR) := Ne.symm hE.char_ne_int
  have hcl : ¬ (E.CF_LONG = E.CF_CHAR) := Ne.symm hE.char_ne_long
  have hil : ¬ (E.CF_LONG = E.CF_INT) := Ne.symm hE.int_ne_long
  refine ⟨?_, ?_⟩
  · rintro (ht | ⟨ht, hf⟩)
    · unfold g_lt g_lt_const g_ge g_ge_const
      simp [hc, hu, ht, hic, Gen.bind_apply, Gen.pure_apply, AddCodeLine_apply]
    · unfold g_lt g_lt_const g_ge g_ge_const
      simp [hc, hu, ht, hf, Gen.bind_apply, Gen.pure_apply, AddCodeLine_apply]
  · intro ht
    unfold g_lt g_lt_const g_ge g_ge_const
    simp [hc, hu, ht, hcl, hil, Gen.bind_apply, Gen.pure_apply, AddCodeLine_apply]

theorem signed_zero_compare_witness :
    sampleEnv.WF ∧ 0x21 &&& sampleEnv.CF_CONST ≠ 0 ∧ 0x21 &&& sampleEnv.CF_UNSIGNED = 0 ∧
    (0x21 &&& sampleEnv.CF_TYPE = sampleEnv.CF_INT ∨
      (0x21 &&& sampleEnv.CF_TYPE = sampleEnv.CF_CHAR ∧ 0x21 &&& sampleEnv.CF_FORCECHAR = 0)) ∧
    g_lt sampleEnv 0x21 0 initState = .ok ((), { initState with out := initState.out ++
      [.codeLine "txa", .codeLine "jsr boollt"] }) ∧
    g_ge sampleEnv 0x21 0 initState = .ok ((), { initState with out := initState.out ++
      [.codeLine "txa", .codeLine "jsr boolge"] }) :=
  ⟨sampleEnv_wf, by decide, by decide, by decide,
    (signed_zero_compare sampleEnv sampleEnv_wf 0x21 initState (by decide) (by decide)).1
      (by decide)⟩

/-- C25 (as stated, refuted): `g_lt` on a signed long (flag word `0x20`:
long width with `CF_CONST`) and `val = 0` takes the constant fast path
`lda sreg+1`, `jsr boollt`; nothing is pushed. -/
theorem g_lt_long_zero_fast_path :
    0x20 &&& sampleEnv.CF_TYPE = sampleEnv.CF_LONG ∧ 0x20 &&& sampleEnv.CF_CONST ≠ 0 ∧
    g_lt sampleEnv 0x20 0 initState = .ok ((), { initState with
      out := [.codeLine "lda sreg+1", .codeLine "jsr boollt"] }) ∧
    g_ge sampleEnv 0x20 0 initState = .ok ((), { initState with
      out := [.codeLine "lda sreg+1", .codeLine "jsr boolge"] }) :=
  ⟨by decide, by decide, by decide, by decide⟩

/-- C25 (amended): for a flag word with long width and `CF_CONST` set, `g_eq`,
`g_ne`, `g_le` and `g_gt` for every `val`, and `g_lt` and `g_ge` unless the
operand is signed and `val = 0`, take the generic path over the stack:
`jsr pusheax`, the load of the constant into the primary register, the call
of the operator's routine for longs; the virtual stack offset is the same
afterwards. `g_lt` and `g_ge` report their warning first when the operand is
unsigned and `val = 0`. -/
theorem long_const_compare (E : Env) (hE : E.WF) (flags val : Nat) (st : CGState)
    (hc : flags &&& E.CF_CONST ≠ 0) (ht : flags &&& E.CF_TYPE = E.CF_LONG) :
    g_eq E flags val st = .ok ((), { st with out := st.out ++
      [.codeLine "jsr pusheax", .code .OPC_LDEAX .AM_IMM (some (DWordToStr val)),
       .codeLine "jsr toseqeax"] }) ∧
    g_ne E flags val st = .ok ((), { st with out := st.out ++
      [.codeLine "jsr pusheax", .code .OPC_LDEAX .AM_IMM (some (DWordToStr val)),
       .codeLine "jsr tosneeax"] }) ∧
    g_le E flags val st = .ok ((), { st with out := st.out ++
      [.codeLine "jsr pusheax", .code .OPC_LDEAX .AM_IMM (some (DWordToStr val)),
       .codeLine (if flags &&& E.CF_UNSIGNED ≠ 0 then "jsr tosuleeax" else "jsr tosleeax")] }) ∧
    g_gt E flags val st = .ok ((), { st with out := st.out ++
      [.codeLine "jsr pusheax", .code .OPC_LDEAX .AM_IMM (some (DWordToStr val)),
       .codeLine (if flags &&& E.CF_UNSIGNED ≠ 0 then "jsr tosugteax" else "jsr tosgteax")] }) ∧
    (¬ (flags &&& E.CF_UNSIGNED = 0 ∧ val = 0) →
      g_lt E flags val st = .ok ((), { st with
        out := st.out ++
          [.codeLine "jsr pusheax", .code .OPC_LDEAX .AM_IMM (some (DWordToStr val)),
           .codeLine (if flags &&& E.CF_UNSIGNED ≠ 0 then "jsr tosulteax" else "jsr toslteax")],
        diags := st.diags ++ (if flags &&& E.CF_UNSIGNED ≠ 0 ∧ val = 0 then
          [.warning "Condition is never true"] else []) }) ∧
      g_ge E flags val st = .ok ((), { st with
        out := st.out ++
          [.codeLine "jsr pusheax", .code .OPC_LDEAX .AM_IMM (some (DWordToStr val)),
           .codeLine (if flags &&& E.CF_UNSIGNED ≠ 0 then "jsr tosugeeax" else "jsr tosgeeax")],
        diags := st.diags ++ (if flags &&& E.CF_UNSIGNED ≠ 0 ∧ val = 0 then
          [.warning "Condition is always true"] else []) })) := by
  have hcl : ¬ (E.CF_LONG = E.CF_CHAR) := Ne.symm hE.char_ne_long
  have hil : ¬ (E.CF_LONG = E.CF_INT) := Ne.symm hE.int_ne_long
  have hpo : ∀ ops : List (Option String), ops.getD 6 none = none → ops.getD 7 none = none →
      ops.getD 9 none = none → ops.getD 10 none = none → ∀ st0 : CGState,
      pushOper E flags val ops st0 = .ok ((), { st0 with out := st0.out ++
        [.codeLine "jsr pusheax", .code .OPC_LDEAX .AM_IMM (some (DWordToStr val)),
         .codeLine ("jsr " ++ fmtStr (ops.getD (generalSlot E flags) none))] }) :=
    fun ops h6 h7 h9 h10 st0 => pushOper_long E hE flags val ops hc ht h6 h7 h9 h10 st0
  refine ⟨?_, ?_, ?_, ?_, ?_⟩
  · unfold g_eq
    simp only [hc, ht, hcl, hil, ne_eq, not_false_eq_true, if_true, false_and, false_or,
      or_self, if_false]
    rw [hpo g_eq_ops rfl rfl rfl rfl]
    unfold generalSlot
    split_ifs <;> rfl
  · unfold g_ne
    simp only [hc, ht, hcl, hil, ne_eq, not_false_eq_true, if_true, false_and, false_or,
      or_self, if_false]
    rw [hpo g_ne_ops rfl rfl rfl rfl]
    unfold generalSlot
    split_ifs <;> rfl
  · unfold g_le
    simp only [hc, ht, hcl, hil, ne_eq, not_false_eq_true, if_true, false_and, false_or,
      or_self, if_false]
    rw [hpo g_le_ops rfl rfl rfl rfl]
    unfold generalSlot
    split_ifs <;> rfl
  · unfold g_gt
    simp only [hc, ht, hcl, hil, ne_eq, not_false_eq_true, if_true, false_and, false_or,
      or_self, if_false]
    rw [hpo g_gt_ops rfl rfl rfl rfl]
    unfold generalSlot
    split_ifs <;> rfl
  · intro hz
    constructor
    · unfold g_lt g_lt_const
      simp only [hc, ht, hcl, hil, hz, ne_eq, not_false_eq_true, if_true, false_and, false_or,
        or_self, if_false]
      by_cases hw : ¬ (flags &&& E.CF_UNSIGNED = 0) ∧ val = 0
      · rw [if_pos hw, Gen.bind_of_ok (Warning_apply _ st), hpo g_lt_ops rfl rfl rfl rfl]
        unfold generalSlot
        simp only [ne_eq, hw.1, hw.2, ht, not_false_eq_true, if_true, and_self]
        rfl
      · rw [if_neg hw, Gen.bind_of_ok (Gen.pure_apply _ st), hpo g_lt_ops rfl rfl rfl rfl]
        unfold generalSlot
        by_cases hu : flags &&& E.CF_UNSIGNED = 0
        · simp only [ne_eq, hu, ht, not_true_eq_false, if_false, if_true, false_and,
            List.append_nil]
          rfl
        · have hv0 : ¬ val = 0 := fun h => hw ⟨hu, h⟩
          simp only [ne_eq, hu, hv0, ht, not_false_eq_true, if_true, and_false, if_false,
            List.append_nil]
          rfl
    · unfold g_ge g_ge_const
      simp only [hc, ht, hcl, hil, hz, ne_eq, not_false_eq_true, if_true, false_and, false_or,
        or_self, if_false]
      by_cases hw : ¬ (flags &&& E.CF_UNSIGNED = 0) ∧ val = 0
      · rw [if_pos hw, Gen.bind_of_ok (Warning_apply _ st), hpo g_ge_ops rfl rfl rfl rfl]
        unfold generalSlot
        simp only [ne_eq, hw.1, hw.2, ht, not_false_eq_true, if_true, and_self]
        rfl
      · rw [if_neg hw, Gen.bind_of_ok (Gen.pure_apply _ st), hpo g_ge_ops rfl rfl rfl rfl]
        unfold generalSlot
        by_cases hu : flags &&& E.CF_UNSIGNED = 0
        · simp only [ne_eq, hu, ht, not_true_eq_false, if_false, if_true, false_and,
            List.append_nil]
          rfl
        · have hv0 : ¬ val = 0 := fun h => hw ⟨hu, h⟩
          simp only [ne_eq, hu, hv0, ht, not_false_eq_true, if_true, and_false, if_false,
            List.append_nil]
          rfl

theorem long_const_compare_witness :
    sampleEnv.WF ∧ 0x30 &&& sampleEnv.CF_CONST ≠ 0 ∧ 0x30 &&& sampleEnv.CF_TYPE = sampleEnv.CF_LONG ∧
    g_le sampleEnv 0x30 0 initState = .ok ((), { initState with out := initState.out ++
      [.codeLine "jsr pusheax", .code .OPC_LDEAX .AM_IMM (some (DWordToStr 0)),
       .codeLine (if 0x30 &&& sampleEnv.CF_UNSIGNED ≠ 0 then "jsr tosuleeax"
         else "jsr tosleeax")] }) :=
  ⟨sampleEnv_wf, by decide, by decide,
    (long_const_compare sampleEnv sampleEnv_wf 0x30 0 initState (by decide)
      (by decide)).2.2.1⟩

/-- C26: for a flag word with `CF_CONST` and int width, or char width without
`CF_FORCECHAR`, `g_eq` allocates one local label `L` and emits exactly
`cpx #$HH`, `bne L`, `cmp #$LL`, the definition of `L` and `jsr booleq`,
with `HH = (val >> 8) mod 256` and `LL = val mod 256`; `g_ne` does the same
with `boolne`. Nothing else of the state changes: nothing is pushed and the
virtual stack offset is the same. -/
theorem word_equality_compare (E : Env) (hE : E.WF) (flags val : Nat) (st : CGState)
    (hc : flags &&& E.CF_CONST ≠ 0)
    (ht : flags &&& E.CF_TYPE = E.CF_INT ∨
      (flags &&& E.CF_TYPE = E.CF_CHAR ∧ flags &&& E.CF_FORCECHAR = 0)) :
    g_eq E flags val st = .ok ((), { st with
      nextLabel := st.nextLabel + 1,
      out := st.out ++ [.codeLine ("cpx #$" ++ fmtHex 2 ((val >>> 8) % 256)),
        .codeLine ("bne " ++ E.LocalLabelName st.nextLabel),
        .codeLine ("cmp #$" ++ fmtHex 2 (val % 256)),
        .codeLabel (E.LocalLabelName st.nextLabel),
        .codeLine "jsr booleq"] }) ∧
    g_ne E flags val st = .ok ((), { st with
      nextLabel := st.nextLabel + 1,
      out := st.out ++ [.codeLine ("cpx #$" ++ fmtHex 2 ((val >>> 8) % 256)),
        .codeLine ("bne " ++ E.LocalLabelName st.nextLabel),
        .codeLine ("cmp #$" ++ fmtHex 2 (val % 256)),
        .codeLabel (E.LocalLabelName st.nextLabel),
        .codeLine "jsr boolne"] }) ∧
    (fmtHex 2 ((val >>> 8) % 256)).data.length = 2 ∧ (fmtHex 2 (val % 256)).data.length = 2 := by
  have hic : ¬ (E.CF_INT = E.CF_CHAR) := Ne.symm hE.char_ne_int
  have heq : g_eq E flags val st = cmpWord E val "booleq" st := by
    unfold g_eq
    rcases ht with ht | ⟨ht, hf⟩
    · simp [hc, ht, hic]
    · simp [hc, ht, hf]
  have hne : g_ne E flags val st = cmpWord E val "boolne" st := by
    unfold g_ne
    rcases ht with ht | ⟨ht, hf⟩
    · simp [hc, ht, hic]
    · simp [hc, ht, hf]
  refine ⟨?_, ?_, ?_, ?_⟩
  · rw [heq, cmpWord_apply]
    rfl
  · rw [hne, cmpWord_apply]
    rfl
  · exact (fmtHex_props 2 _ (by norm_num) (Nat.mod_lt _ (by norm_num))).1
  · exact (fmtHex_props 2 _ (by norm_num) (Nat.mod_lt _ (by norm_num))).1

theorem word_equality_compare_witness :
    sampleEnv.WF ∧ 0x21 &&& sampleEnv.CF_CONST ≠ 0 ∧
    (0x21 &&& sampleEnv.CF_TYPE = sampleEnv.CF_INT ∨
      (0x21 &&& sampleEnv.CF_TYPE = sampleEnv.CF_CHAR ∧ 0x21 &&& sampleEnv.CF_FORCECHAR = 0)) ∧
    g_eq sampleEnv 0x21 0x1234 initState = .ok ((), { initState with
      nextLabel := initState.nextLabel + 1,
      out := initState.out ++ [.codeLine ("cpx #$" ++ fmtHex 2 ((0x1234 >>> 8) % 256)),
        .codeLine ("bne " ++ sampleEnv.LocalLabelName initState.nextLabel),
        .codeLine ("cmp #$" ++ fmtHex 2 (0x1234 % 256)),
        .codeLabel (sampleEnv.LocalLabelName initState.nextLabel),
        .codeLine "jsr booleq"] }) :=
  ⟨sampleEnv_wf, by decide, by decide,
    (word_equality_compare sampleEnv sampleEnv_wf 0x21 0x1234 initState (by decide)
      (by decide)).1⟩

/-! ## Fetches: general char, long in test context, index range -/

theorem ldxconst_apply (v : Nat) (st : CGState) :
    ldxconst v st = .ok ((), { st with
      out := st.out ++ [.codeLine ("ldx #$" ++ fmtHex 2 (v &&& 0xFF))] }) := rfl

theorem signExtend_apply (E : Env) (st : CGState) :
    signExtend E st = .ok ((), { st with
      nextLabel := st.nextLabel + 1,
      out := st.out ++ [.codeLine ("bpl " ++ E.LocalLabelName st.nextLabel), .codeLine "dex",
        .codeLabel (E.LocalLabelName st.nextLabel)] }) := by
  unfold signExtend
  simp [Gen.bind_apply, GetLocalLabel_apply, AddCodeLine_apply, g_defcodelabel_apply]

/-- C27: a general char fetch (char width, neither `CF_FORCECHAR` nor
`CF_TEST`) loads the byte into A and zeroes X (`ldx #$00`); the sign
extension `bpl L`, `dex`, definition of `L`, with a newly allocated label
`L`, follows iff `CF_UNSIGNED` is clear; with `CF_UNSIGNED` set no label is
allocated and no branch is emitted. This holds for `g_getstatic` (when the
label name exists) and for `g_getlocal`. -/
theorem general_char_fetch (E : Env) (flags : Nat) (offs : Int) (label uoffs : Nat)
    (st : CGState) (ht : flags &&& E.CF_TYPE = E.CF_CHAR)
    (hf : flags &&& E.CF_FORCECHAR = 0) (htest : flags &&& E.CF_TEST = 0) :
    (∀ name, GetLabelName E flags label uoffs st = .ok (name, st) →
      g_getstatic E flags label uoffs st = .ok ((), { st with
        nextLabel := if flags &&& E.CF_UNSIGNED = 0 then st.nextLabel + 1 else st.nextLabel,
        out := st.out ++ [.codeLine "ldx #$00", .codeLine ("lda " ++ name)] ++
          (if flags &&& E.CF_UNSIGNED = 0 then
            [.codeLine ("bpl " ++ E.LocalLabelName st.nextLabel), .codeLine "dex",
             .codeLabel (E.LocalLabelName st.nextLabel)]
           else []) })) ∧
    (∀ e, GetLabelName E flags label uoffs st = .error e →
      g_getstatic E flags label uoffs st = .error e) ∧
    (∃ st1, g_getlocal E flags offs st = .ok ((), st1) ∧
      st1.nextLabel = (if flags &&& E.CF_UNSIGNED = 0 then st.nextLabel + 1
        else st.nextLabel) ∧
      st1.out = st.out ++
        [.codeLine ("ldy #$" ++ fmtHex 2 (toUnsigned (offs - st.oursp) &&& 0xFF)),
         .codeLine "ldx #$00", .codeLine "lda (sp),y"] ++
        (if flags &&& E.CF_UNSIGNED = 0 then
          [.codeLine ("bpl " ++ E.LocalLabelName st.nextLabel), .codeLine "dex",
           .codeLabel (E.LocalLabelName st.nextLabel)]
         else [])) := by
  have hx : "ldx #$" ++ fmtHex 2 (0 &&& 0xFF) = "ldx #$00" := by decide
  have hft : ¬ (flags &&& E.CF_FORCECHAR ≠ 0 ∨ flags &&& E.CF_TEST ≠ 0) := by
    simp [hf, htest]
  refine ⟨?_, ?_, ?_⟩
  · intro name hname
    unfold g_getstatic
    rw [Gen.bind_of_ok hname, if_pos ht, if_neg hft]
    by_cases hu : flags &&& E.CF_UNSIGNED = 0
    · simp only [Gen.bind_apply, ldxconst_apply, AddCodeLine_apply, if_pos hu,
        signExtend_apply, hx, List.append_assoc, List.singleton_append, List.cons_append,
        List.nil_append]
    · simp only [Gen.bind_apply, ldxconst_apply, AddCodeLine_apply, if_neg hu,
        Gen.pure_apply, hx, List.append_assoc, List.singleton_append, List.cons_append,
        List.nil_append, List.append_nil]
  · intro e he
    unfold g_getstatic
    rw [Gen.bind_of_error he]
  · unfold g_getlocal CheckLocalOffs
    simp only [Gen.bind_apply, getOursp_apply, if_pos ht, if_neg hft]
    by_cases hu : flags &&& E.CF_UNSIGNED = 0
    · split_ifs <;>
        simp [Gen.bind_apply, Gen.pure_apply, AddCodeLine_apply, ldyconst_apply, Error_apply,
          signExtend_apply, hu]
    · split_ifs <;>
        simp [Gen.bind_apply, Gen.pure_apply, AddCodeLine_apply, ldyconst_apply, Error_apply,
          hu]

theorem general_char_fetch_witness :
    0x03 &&& sampleEnv.CF_TYPE = sampleEnv.CF_CHAR ∧ 0x03 &&& sampleEnv.CF_FORCECHAR = 0 ∧
    0x03 &&& sampleEnv.CF_TEST = 0 ∧
    ∃ st1, g_getlocal sampleEnv 0x03 5 initState = .ok ((), st1) ∧
      st1.nextLabel = (if 0x03 &&& sampleEnv.CF_UNSIGNED = 0 then initState.nextLabel + 1
        else initState.nextLabel) ∧
      st1.out = initState.out ++
        [.codeLine ("ldy #$" ++ fmtHex 2 (toUnsigned (5 - initState.oursp) &&& 0xFF)),
         .codeLine "ldx #$00", .codeLine "lda (sp),y"] ++
        (if 0x03 &&& sampleEnv.CF_UNSIGNED = 0 then
          [.codeLine ("bpl " ++ sampleEnv.LocalLabelName initState.nextLabel), .codeLine "dex",
           .codeLabel (sampleEnv.LocalLabelName initState.nextLabel)]
         else []) :=
  ⟨by decide, by decide, by decide,
    (general_char_fetch sampleEnv 0x03 5 0 0 initState (by decide) (by decide)
      (by decide)).2.2⟩

/-- A long fetched from a static cell in test context: the OR of the four
bytes, no store into `sreg`, no call. -/
theorem g_getstatic_long_test (E : Env) (hE : E.WF) (flags label uoffs : Nat) (st : CGState)
    (ht : flags &&& E.CF_TYPE = E.CF_LONG) (htest : flags &&& E.CF_TEST ≠ 0) (name : String)
    (hname : GetLabelName E flags label uoffs st = .ok (name, st)) :
    g_getstatic E flags label uoffs st = .ok ((), { st with out := st.out ++
      [.codeLine ("lda " ++ name ++ "+3"), .codeLine ("ora " ++ name ++ "+2"),
       .codeLine ("ora " ++ name ++ "+1"), .codeLine ("ora " ++ name ++ "+0")] }) := by
  have hcl : ¬ (E.CF_LONG = E.CF_CHAR) := Ne.symm hE.char_ne_long
  have hil : ¬ (E.CF_LONG = E.CF_INT) := Ne.symm hE.int_ne_long
  unfold g_getstatic
  rw [Gen.bind_of_ok hname]
  simp [ht, htest, hcl, hil, Gen.bind_apply, AddCodeLine_apply]

/-- C28 (failing input): `g_getlocal` on a long in test context (flag word
`0x80`: long width with `CF_TEST`) emits the call of the routine that loads
the 32 bit value, `jsr ldeax0sp` at offset 0 and `ldy #$07`, `jsr ldeaxysp`
at offset 4, the code of the fetch without `CF_TEST`; no OR of the four bytes
is emitted. -/
theorem g_getlocal_long_test_loads :
    0x80 &&& sampleEnv.CF_TYPE = sampleEnv.CF_LONG ∧ 0x80 &&& sampleEnv.CF_TEST ≠ 0 ∧
    g_getlocal sampleEnv 0x80 0 initState =
      .ok ((), { initState with out := [.codeLine "jsr ldeax0sp"] }) ∧
    g_getlocal sampleEnv 0x80 4 initState =
      .ok ((), { initState with out := [.codeLine "ldy #$07", .codeLine "jsr ldeaxysp"] }) ∧
    g_getlocal sampleEnv 0x80 4 initState = g_getlocal sampleEnv 0x00 4 initState :=
  ⟨by decide, by decide, by decide, by decide, by decide⟩

/-- C29 (as stated, refuted): `g_getlocal` on an int at the adjusted offset
300 reports the too-many-locals error twice. -/
theorem g_getlocal_int_reports_twice :
    ValidWidth sampleEnv 0x01 ∧ (255 : Int) < 300 - initState.oursp ∧
    ∃ st1, g_getlocal sampleEnv 0x01 300 initState = .ok ((), st1) ∧
      st1.diags = [tooManyLocals, tooManyLocals] :=
  ⟨by decide, by decide, _, rfl, rfl⟩

/-- C29 (amended): for a flag word with a valid width field and an adjusted
offset `offs - oursp` outside `[0, 255]`, `g_putlocal` reports the
too-many-locals error exactly once, and so does `g_getlocal` for a char and
for a long; for an int `g_getlocal` checks the offset and the offset plus one
and reports the error twice, unless the adjusted offset is -1, where it
reports it once. -/
theorem locals_error_count (E : Env) (hE : E.WF) (flags : Nat) (offs val : Int)
    (st : CGState) (hv : ValidWidth E flags)
    (h1 : -2147483648 ≤ offs - st.oursp) (h2 : offs - st.oursp ≤ 2147483647)
    (hout : offs - st.oursp < 0 ∨ 255 < offs - st.oursp) :
    (∃ st1, g_putlocal E flags offs val st = .ok ((), st1) ∧
      st1.diags = st.diags ++ [tooManyLocals]) ∧
    (∃ st1, g_getlocal E flags offs st = .ok ((), st1) ∧
      st1.diags = st.diags ++
        (if flags &&& E.CF_TYPE = E.CF_INT ∧ offs - st.oursp ≠ -1 then
          [tooManyLocals, tooManyLocals] else [tooManyLocals])) := by
  have hic : ¬ (E.CF_INT = E.CF_CHAR) := Ne.symm hE.char_ne_int
  have hcl : ¬ (E.CF_LONG = E.CF_CHAR) := Ne.symm hE.char_ne_long
  have hil : ¬ (E.CF_LONG = E.CF_INT) := Ne.symm hE.int_ne_long
  have hge : toUnsigned (offs - st.oursp) ≥ 256 := (toUnsigned_ge _ h1 h2).2 hout
  have hge1 : toUnsigned (offs - st.oursp + 1) ≥ 256 ↔ offs - st.oursp ≠ -1 := by
    unfold toUnsigned
    omega
  unfold ValidWidth at hv
  constructor
  · unfold g_putlocal CheckLocalOffs g_getimmed
    simp only [Gen.bind_apply, getOursp_apply, if_pos hge, Error_apply]
    split_ifs <;> first
      | (simp [Gen.bind_apply, Gen.pure_apply, AddCodeLine_apply, AddCode_apply, tooManyLocals]
         done)
      | (exfalso; tauto)
  · unfold g_getlocal CheckLocalOffs
    simp only [Gen.bind_apply, getOursp_apply, if_pos hge, Error_apply]
    rcases hv with ht | ht | ht
    · simp only [ht, if_true, Ne.symm hic, false_and, if_false]
      split_ifs <;>
        simp [Gen.bind_apply, Gen.pure_apply, AddCodeLine_apply, ldyconst_apply,
          signExtend_apply, tooManyLocals]
    · simp only [ht, hic, if_false, if_true, true_and]
      by_cases hm : offs - st.oursp = -1
      · have hlt : ¬ toUnsigned (offs - st.oursp + 1) ≥ 256 := by
          rw [hge1]
          simpa using hm
        have hcond : ¬ (offs - st.oursp ≠ -1) := fun h => h hm
        simp only [if_neg hlt, if_neg hcond]
        split_ifs <;>
          simp [Gen.bind_apply, Gen.pure_apply, AddCodeLine_apply, ldyconst_apply,
            tooManyLocals]
      · have hge2 : toUnsigned (offs - st.oursp + 1) ≥ 256 := hge1.2 hm
        have hcond : offs - st.oursp ≠ -1 := hm
        simp only [if_pos hge2, if_pos hcond]
        split_ifs <;>
          simp [Gen.bind_apply, Gen.pure_apply, AddCodeLine_apply, ldyconst_apply,
            Error_apply, tooManyLocals]
    · simp only [ht, hcl, hil, if_false, if_true, false_and]
      split_ifs <;>
        simp [Gen.bind_apply, Gen.pure_apply, AddCodeLine_apply, ldyconst_apply,
          tooManyLocals]

theorem locals_error_count_witness :
    sampleEnv.WF ∧ ValidWidth sampleEnv 0x03 ∧ (-2147483648 : Int) ≤ 300 - initState.oursp ∧
    (300 : Int) - initState.oursp ≤ 2147483647 ∧
    ((300 : Int) - initState.oursp < 0 ∨ 255 < (300 : Int) - initState.oursp) ∧
    ∃ st1, g_putlocal sampleEnv 0x03 300 7 initState = .ok ((), st1) ∧
      st1.diags = initState.diags ++ [tooManyLocals] :=
  ⟨sampleEnv_wf, by decide, by decide, by decide, by decide,
    (locals_error_count sampleEnv sampleEnv_wf 0x03 300 7 initState (by decide) (by decide)
      (by decide) (by decide)).1⟩

/-- The index loaded by `g_getlocal` for an int, the adjusted offset plus
one, is checked: outside `[0, 255]` the error is reported. -/
theorem g_getlocal_int_index_checked (E : Env) (hE : E.WF) (flags : Nat) (offs : Int)
    (st : CGState) (ht : flags &&& E.CF_TYPE = E.CF_INT)
    (hge : toUnsigned (offs - st.oursp + 1) ≥ 256) :
    CompletesWithLocalsError (g_getlocal E flags offs) st := by
  have hic : ¬ (E.CF_INT = E.CF_CHAR) := Ne.symm hE.char_ne_int
  unfold CompletesWithLocalsError g_getlocal CheckLocalOffs emitted reported
  simp only [Gen.bind_apply, getOursp_apply, ht, hic, if_false, if_true, if_pos hge]
  split_ifs <;>
    simp [Gen.bind_apply, Gen.pure_apply, AddCodeLine_apply, ldyconst_apply, Error_apply,
      tooManyLocals]

/-- C30 (failing input): `g_getlocal` on a long at the adjusted offset 253
loads the index 256 into Y truncated to its low byte, `ldy #$00`, and reports
no diagnostic. -/
theorem g_getlocal_long_index_truncated :
    ValidWidth sampleEnv 0x00 ∧ 0x00 &&& sampleEnv.CF_TYPE = sampleEnv.CF_LONG ∧
    toUnsigned (253 - initState.oursp + 3) = 256 ∧
    g_getlocal sampleEnv 0x00 253 initState =
      .ok ((), { initState with out := [.codeLine "ldy #$00", .codeLine "jsr ldeaxysp"] }) :=
  ⟨by decide, by decide, by decide, by decide⟩

/-! ## Epilogue range check, compound assignment, OR, local add, shifts -/

/-- With a known argument size `g_leave` checks the byte count of the frame
shrink: from 256 on the too-many-locals error is reported. -/
theorem g_leave_fixed_range_check (st : CGState) (hf : 0 ≤ st.funcargs)
    (hk : 256 ≤ -st.oursp + st.funcargs) (hhi : -st.oursp + st.funcargs ≤ 2147483647) :
    g_leave st = .ok ((), { st with
      out := st.out ++ [.code .OPC_SPACE .AM_IMM (some (NumToStr (-(-st.oursp + st.funcargs)))),
        .code .OPC_RET .AM_IMP none],
      diags := st.diags ++ [tooManyLocals] }) := by
  have h1 : toUnsigned (-st.oursp + st.funcargs) ≥ 256 := by
    unfold toUnsigned
    omega
  have h2 : -st.oursp + st.funcargs > 0 := by omega
  have h3 : st.oursp < st.funcargs := by omega
  unfold g_leave CheckLocalOffs
  simp [Gen.bind_apply, Gen.pure_apply, getOursp_apply, getFuncargs_apply, hf, h1, h2, h3,
    AddCode_apply, Error_apply, tooManyLocals]

/-- C31 (failing input): with an unknown argument count (`funcargs = -1`) and
300 bytes of locals `g_leave` emits the frame shrink of 300 bytes, the generic
leave and the return and reports no diagnostic; with a known argument size
the same frame reports the too-many-locals error. -/
theorem g_leave_variadic_no_range_check :
    g_leave { initState with oursp := -300, funcargs := -1 } =
      .ok ((), { initState with
        oursp := -300,
        funcargs := -1,
        out := [.code .OPC_SPACE .AM_IMM (some (NumToStr (-300))),
          .code .OPC_LEAVE .AM_IMP none, .code .OPC_RET .AM_IMP none],
        diags := [] }) ∧
    g_leave { initState with oursp := -300, funcargs := 0 } =
      .ok ((), { initState with
        oursp := -300,
        funcargs := 0,
        out := [.code .OPC_SPACE .AM_IMM (some (NumToStr (-300))),
          .code .OPC_RET .AM_IMP none],
        diags := [tooManyLocals] }) :=
  ⟨by decide, by decide⟩

/-- C33 (failing input): `g_addeqind` and `g_subeqind` on a long (flag word
`0x00`) at offset 0 with `val = 1` leave the virtual stack offset at -2
instead of 0: the address is accounted for with the four bytes of a long when
pushed and with the two bytes of a pointer when popped. -/
theorem eqind_long_not_stack_neutral :
    ValidWidth sampleEnv 0x00 ∧ 0x00 &&& sampleEnv.CF_TYPE = sampleEnv.CF_LONG ∧
    g_addeqind sampleEnv 0x00 0 1 initState = .ok ((), { initState with
      oursp := -2,
      out := [.codeLine "jsr pushax", .codeLine "jsr ldeaxi", .codeLine "ldy #$01",
        .codeLine "jsr inceaxy", .codeLine "jsr steaxspp"] }) ∧
    g_subeqind sampleEnv 0x00 0 1 initState = .ok ((), { initState with
      oursp := -2,
      out := [.codeLine "jsr pushax", .codeLine "jsr ldeaxi", .codeLine "ldy #$01",
        .codeLine "jsr deceaxy", .codeLine "jsr steaxspp"] }) :=
  ⟨by decide, by decide, by decide, by decide⟩

/-- The OR with a constant on a forced 8 bit char: `g_or` emits the line
`ora #$XX` iff `val mod 256` is not `0xFF`, and nothing else. -/
theorem g_or_forced_char (E : Env) (flags val : Nat) (st : CGState)
    (hc : flags &&& E.CF_CONST ≠ 0) (ht : flags &&& E.CF_TYPE = E.CF_CHAR)
    (hf : flags &&& E.CF_FORCECHAR ≠ 0) :
    (val % 256 ≠ 0xFF → g_or E flags val st = .ok ((), { st with
      out := st.out ++ [.codeLine ("ora #$" ++ fmtHex 2 (val % 256))] })) ∧
    (val % 256 = 0xFF → g_or E flags val st = .ok ((), st)) := by
  have hm : val &&& 0xFF = val % 256 := and_ff val
  unfold g_or
  simp only [hc, ht, hf, hm, ne_eq, not_false_eq_true, and_self, if_true]
  constructor
  · intro h
    rw [if_pos h]
    rfl
  · intro h
    rw [if_neg (by simpa using h)]
    rfl

/-- C35 (failing input): `g_or` on a forced 8 bit char (flag word `0x223`) with
the constant `0xFF` emits nothing: the OR with a nonzero constant is elided. -/
theorem g_or_elides_ff :
    0x223 &&& sampleEnv.CF_CONST ≠ 0 ∧ 0x223 &&& sampleEnv.CF_TYPE = sampleEnv.CF_CHAR ∧
    0x223 &&& sampleEnv.CF_FORCECHAR ≠ 0 ∧ 0xFF % 256 ≠ 0 ∧
    g_or sampleEnv 0x223 0xFF initState = .ok ((), initState) ∧
    g_or sampleEnv 0x223 0 initState =
      .ok ((), { initState with out := [.codeLine "ora #$00"] }) :=
  ⟨by decide, by decide, by decide, by decide, by decide, by decide⟩

/-- C36 (failing input): `g_addlocal` on a long (flag word `0x00`) at frame
offset 0 with the virtual stack offset -4 loads the index 15 into Y before
`jsr ldeaxysp`, not `(offs - s) + 7 = 11`: the offset, already adjusted by
`g_addlocal`, is adjusted a second time by `g_getlocal`. The sequence
`g_push`, `g_getlocal`, `g_add` run from the same state loads the index 11. -/
theorem g_addlocal_long_adjusts_twice :
    0x00 &&& sampleEnv.CF_TYPE = sampleEnv.CF_LONG ∧
    g_addlocal sampleEnv 0x00 0 { initState with oursp := -4 } =
      .ok ((), { initState with
        oursp := -4,
        out := [.codeLine "jsr pusheax", .codeLine "ldy #$0F", .codeLine "jsr ldeaxysp",
          .codeLine "jsr tosaddeax"] }) ∧
    (do g_push sampleEnv 0x00 0; g_getlocal sampleEnv 0x00 0; g_add sampleEnv 0x00 0 : Gen Unit)
        { initState with oursp := -4 } =
      .ok ((), { initState with
        oursp := -4,
        out := [.codeLine "jsr pusheax", .codeLine "ldy #$0B", .codeLine "jsr ldeaxysp",
          .codeLine "jsr tosaddeax"] }) :=
  ⟨by decide, by decide, by decide⟩

/-- With the virtual stack offset 0 the second adjustment changes nothing:
`g_addlocal` on a long is the sequence `g_push`, `g_getlocal`, `g_add`. -/
theorem g_addlocal_long_at_zero (E : Env) (hE : E.WF) (flags : Nat) (offs : Int) (st : CGState)
    (ht : flags &&& E.CF_TYPE = E.CF_LONG) (hs : st.oursp = 0) (h0 : 0 ≤ offs)
    (h1 : offs ≤ 255) :
    g_addlocal E flags offs st =
      (do g_push E flags 0; g_getlocal E flags offs; g_add E flags 0 : Gen Unit) st := by
  have hcl : ¬ (E.CF_LONG = E.CF_CHAR) := Ne.symm hE.char_ne_long
  have hil : ¬ (E.CF_LONG = E.CF_INT) := Ne.symm hE.int_ne_long
  have hlt : ¬ toUnsigned offs ≥ 256 := by
    unfold toUnsigned
    omega
  unfold g_addlocal CheckLocalOffs
  simp only [Gen.bind_apply, getOursp_apply, hs, sub_zero, if_neg hlt, Gen.pure_apply, ht, hcl,
    hil, if_false, if_true]

/-- C38 (failing input): `g_asl` and `g_asr` on a forced 8 bit char (flag word
`0x223`) with the constant 4 push the left operand as a single byte with
`jsr pusha` and then call the 16 bit routine `tosasla0` / `tosasra0`. -/
theorem shift_forced_char_pushes_byte :
    0x223 &&& sampleEnv.CF_CONST ≠ 0 ∧ 0x223 &&& sampleEnv.CF_TYPE = sampleEnv.CF_CHAR ∧
    0x223 &&& sampleEnv.CF_FORCECHAR ≠ 0 ∧
    g_asl sampleEnv 0x223 4 initState = .ok ((), { initState with
      out := [.codeLine "jsr pusha", .codeLine "lda #$04", .codeLine "jsr tosasla0"] }) ∧
    g_asr sampleEnv 0x223 4 initState = .ok ((), { initState with
      out := [.codeLine "jsr pusha", .codeLine "lda #$04", .codeLine "jsr tosasra0"] }) ∧
    g_add sampleEnv 0x223 0x104 initState = .ok ((), { initState with
      out := [.codeLine "jsr pushax", .code .OPC_LDAX .AM_IMM (some "$0104"),
        .codeLine "jsr tosaddax"] }) :=
  ⟨by decide, by decide, by decide, by decide, by decide, by decide⟩

/-! ## The label of g_addaddr_local, register variables -/

/-- The allocator returns its counter and advances it: from a positive
counter, as in `initState`, the id returned is not 0 and the counter stays
positive. -/
theorem GetLocalLabel_pos (st : CGState) (h : 0 < st.nextLabel) :
    ∃ l st1, GetLocalLabel st = .ok (l, st1) ∧ 0 < l ∧ 0 < st1.nextLabel :=
  ⟨_, _, rfl, h, Nat.succ_pos _⟩

/-- The stack adjustment `g_space` appends code and possibly reports the
too-many-locals error; it allocates no label and leaves the virtual stack
offset alone. -/
theorem g_space_apply (space : Int) (st : CGState) :
    ∃ st1, g_space space st = .ok ((), st1) ∧ st1.oursp = st.oursp ∧
      st1.nextLabel = st.nextLabel ∧ ∃ pre, st1.out = st.out ++ pre := by
  unfold g_space mod_internal CheckLocalOffs
  split_ifs
  · exact ⟨_, rfl, rfl, rfl, [_], rfl⟩
  · exact ⟨_, rfl, rfl, rfl, [_, _], List.append_assoc _ _ _⟩
  · exact ⟨_, rfl, rfl, rfl, [_, _], List.append_assoc _ _ _⟩
  · exact ⟨_, rfl, rfl, rfl, [_], rfl⟩
  · exact ⟨_, rfl, rfl, rfl, [_, _], List.append_assoc _ _ _⟩
  · exact ⟨_, rfl, rfl, rfl, [_, _], List.append_assoc _ _ _⟩
  · exact ⟨_, rfl, rfl, rfl, [], (List.append_nil _).symm⟩

/-- For `Bytes = 0` `g_save_regvars` and `g_restore_regvars` take the branch
commented "More than two bytes - loop" and emit the counted loop with a newly
allocated label and X loaded with 0. -/
theorem regvars_loop_for_zero_bytes :
    g_save_regvars sampleEnv 0 0 initState = .ok ((), { initState with
      nextLabel := 2,
      out := [.codeLine "ldy #$FF", .codeLine "ldx #$00", .codeLabel "L0001",
        .codeLine "lda regbank-1,x", .codeLine "sta (sp),y", .codeLine "dey",
        .codeLine "dex", .codeLine "bne L0001"] }) ∧
    g_restore_regvars sampleEnv 0 0 0 initState = .ok ((), { initState with
      nextLabel := 2,
      out := [.codeLine "ldy #$FF", .codeLine "ldx #$00", .codeLabel "L0001",
        .codeLine "lda (sp),y", .codeLine "sta regbank-1,x", .codeLine "dey",
        .codeLine "dex", .codeLine "bne L0001"] }) :=
  ⟨by decide, by decide⟩

/-- C32 (as stated, refuted): with the offset 0 and `Bytes = 0xFFFFFFFF`,
`g_save_regvars` leaves the virtual stack offset at 1, not at
`0 - 4294967295`: the offset is an `int`. -/
theorem g_save_regvars_offset_wraps :
    g_save_regvars sampleEnv 0 0xFFFFFFFF initState = .ok ((), { initState with
      oursp := 1,
      nextLabel := 2,
      out := [.codeLine "jsr incsp1", .codeLine "ldy #$FE", .codeLine "ldx #$FF",
        .codeLabel "L0001", .codeLine "lda regbank-1,x", .codeLine "sta (sp),y",
        .codeLine "dey", .codeLine "dex", .codeLine "bne L0001"] }) ∧
    (1 : Int) ≠ initState.oursp - ((0xFFFFFFFF : Nat) : Int) :=
  ⟨by decide, by decide⟩

/-- C32 (amended): `g_save_regvars` sets the virtual stack offset to its
previous value minus `Bytes`, subtracted in `unsigned` and converted back to
`int`: to the previous value minus `Bytes` itself whenever that difference is
at least `INT_MIN`; `g_restore_regvars` leaves the offset unchanged. For
`Bytes` 1 or 2 both emit straight-line moves through the primary register and
allocate no label; for `Bytes >= 3` both allocate a label `L` and emit the
counted loop: Y and X loaded, X with `Bytes`, the definition of `L`, the
move, `dey`, `dex`, `bne L`; `g_save_regvars` makes room on the stack
first. -/
theorem regvars_contract (E : Env) (RegOffs StackOffs : Int) (Bytes : Nat) (st : CGState) :
    (∃ st1, g_save_regvars E RegOffs Bytes st = .ok ((), st1) ∧
      st1.oursp = intSubUnsigned st.oursp Bytes ∧
      (st.oursp ≤ 2147483647 → -2147483648 ≤ st.oursp - Bytes →
        st1.oursp = st.oursp - Bytes)) ∧
    (∃ st1, g_restore_regvars E StackOffs RegOffs Bytes st = .ok ((), st1) ∧
      st1.oursp = st.oursp) ∧
    (Bytes = 1 →
      g_save_regvars E RegOffs Bytes st = .ok ((), { st with
        out := st.out ++ [.codeLine ("lda regbank" ++ fmtSigned RegOffs),
          .codeLine "jsr pusha"],
        oursp := intSubUnsigned st.oursp Bytes }) ∧
      ∃ st1, g_restore_regvars E StackOffs RegOffs Bytes st = .ok ((), st1) ∧
        st1.nextLabel = st.nextLabel ∧
        st1.out = st.out ++
          [.codeLine ("ldy #$" ++ fmtHex 2 (toUnsigned (StackOffs - st.oursp) &&& 0xFF)),
           .codeLine "lda (sp),y", .codeLine ("sta regbank" ++ fmtSigned RegOffs)]) ∧
    (Bytes = 2 →
      g_save_regvars E RegOffs Bytes st = .ok ((), { st with
        out := st.out ++ [.codeLine ("lda regbank" ++ fmtSigned RegOffs),
          .codeLine ("ldx regbank" ++ fmtSigned (RegOffs + 1)), .codeLine "jsr pushax"],
        oursp := intSubUnsigned st.oursp Bytes }) ∧
      ∃ st1, g_restore_regvars E StackOffs RegOffs Bytes st = .ok ((), st1) ∧
        st1.nextLabel = st.nextLabel ∧
        st1.out = st.out ++
          [.codeLine ("ldy #$" ++ fmtHex 2 (toUnsigned (StackOffs - st.oursp) &&& 0xFF)),
           .codeLine "lda (sp),y", .codeLine ("sta regbank" ++ fmtSigned RegOffs),
           .codeLine "iny", .codeLine "lda (sp),y",
           .codeLine ("sta regbank" ++ fmtSigned (RegOffs + 1))]) ∧
    (3 ≤ Bytes →
      (∃ st1 pre, g_save_regvars E RegOffs Bytes st = .ok ((), st1) ∧
        st1.nextLabel = st.nextLabel + 1 ∧
        st1.out = st.out ++ pre ++
          [.codeLine ("ldy #$" ++ fmtHex 2 (toUnsigned ((Bytes : Int) - 1) &&& 0xFF)),
           .codeLine ("ldx #$" ++ fmtHex 2 (Bytes &&& 0xFF)),
           .codeLabel (E.LocalLabelName st.nextLabel),
           .codeLine ("lda regbank" ++ fmtSigned (RegOffs - 1) ++ ",x"),
           .codeLine "sta (sp),y", .codeLine "dey", .codeLine "dex",
           .codeLine ("bne " ++ E.LocalLabelName st.nextLabel)]) ∧
      (∃ st1, g_restore_regvars E StackOffs RegOffs Bytes st = .ok ((), st1) ∧
        st1.nextLabel = st.nextLabel + 1 ∧
        st1.out = st.out ++
          [.codeLine ("ldy #$" ++
             fmtHex 2 (toUnsigned (StackOffs - st.oursp + Bytes - 1) &&& 0xFF)),
           .codeLine ("ldx #$" ++ fmtHex 2 (Bytes &&& 0xFF)),
           .codeLabel (E.LocalLabelName st.nextLabel),
           .codeLine "lda (sp),y",
           .codeLine ("sta regbank" ++ fmtSigned (RegOffs - 1) ++ ",x"),
           .codeLine "dey", .codeLine "dex",
           .codeLine ("bne " ++ E.LocalLabelName st.nextLabel)])) := by
  have hsave : Bytes ≠ 1 → Bytes ≠ 2 →
      ∃ st1 pre, g_save_regvars E RegOffs Bytes st = .ok ((), st1) ∧
        st1.oursp = intSubUnsigned st.oursp Bytes ∧ st1.nextLabel = st.nextLabel + 1 ∧
        st1.out = st.out ++ pre ++
          [.codeLine ("ldy #$" ++ fmtHex 2 (toUnsigned ((Bytes : Int) - 1) &&& 0xFF)),
           .codeLine ("ldx #$" ++ fmtHex 2 (Bytes &&& 0xFF)),
           .codeLabel (E.LocalLabelName st.nextLabel),
           .codeLine ("lda regbank" ++ fmtSigned (RegOffs - 1) ++ ",x"),
           .codeLine "sta (sp),y", .codeLine "dey", .codeLine "dex",
           .codeLine ("bne " ++ E.LocalLabelName st.nextLabel)] := by
    intro h1 h2
    obtain ⟨st0, hsp, hsp0, hl0, pre, hpre⟩ := g_space_apply (toInt Bytes)
      { st with nextLabel := st.nextLabel + 1 }
    refine ⟨{ st0 with
        out := st0.out ++
          [.codeLine ("ldy #$" ++ fmtHex 2 (toUnsigned ((Bytes : Int) - 1) &&& 0xFF)),
           .codeLine ("ldx #$" ++ fmtHex 2 (Bytes &&& 0xFF)),
           .codeLabel (E.LocalLabelName st.nextLabel),
           .codeLine ("lda regbank" ++ fmtSigned (RegOffs - 1) ++ ",x"),
           .codeLine "sta (sp),y", .codeLine "dey", .codeLine "dex",
           .codeLine ("bne " ++ E.LocalLabelName st.nextLabel)],
        oursp := intSubUnsigned st0.oursp Bytes }, pre, ?_, ?_, ?_, ?_⟩
    · unfold g_save_regvars
      simp only [if_neg h1, if_neg h2, Gen.bind_apply, GetLocalLabel_apply, hsp,
        ldyconst_apply, ldxconst_apply, g_defcodelabel_apply, AddCodeLine_apply,
        getOursp_apply, setOursp_apply, List.append_assoc, List.singleton_append,
        List.cons_append, List.nil_append]
    · simp only [hsp0]
    · exact hl0
    · simp only [hpre]
  have hrest : Bytes ≠ 1 → Bytes ≠ 2 →
      ∃ st1, g_restore_regvars E StackOffs RegOffs Bytes st = .ok ((), st1) ∧
        st1.oursp = st.oursp ∧ st1.nextLabel = st.nextLabel + 1 ∧
        st1.out = st.out ++
          [.codeLine ("ldy #$" ++
             fmtHex 2 (toUnsigned (StackOffs - st.oursp + Bytes - 1) &&& 0xFF)),
           .codeLine ("ldx #$" ++ fmtHex 2 (Bytes &&& 0xFF)),
           .codeLabel (E.LocalLabelName st.nextLabel),
           .codeLine "lda (sp),y",
           .codeLine ("sta regbank" ++ fmtSigned (RegOffs - 1) ++ ",x"),
           .codeLine "dey", .codeLine "dex",
           .codeLine ("bne " ++ E.LocalLabelName st.nextLabel)] := by
    intro h1 h2
    unfold g_restore_regvars CheckLocalOffs
    simp only [Gen.bind_apply, getOursp_apply, if_neg h1, if_neg h2]
    split_ifs <;>
      simp [Gen.bind_apply, Gen.pure_apply, Error_apply, GetLocalLabel_apply, ldyconst_apply,
        ldxconst_apply, g_defcodelabel_apply, AddCodeLine_apply]
  have hs1 : Bytes = 1 → g_save_regvars E RegOffs Bytes st = .ok ((), { st with
        out := st.out ++ [.codeLine ("lda regbank" ++ fmtSigned RegOffs),
          .codeLine "jsr pusha"],
        oursp := intSubUnsigned st.oursp Bytes }) := by
    intro h
    subst h
    unfold g_save_regvars
    simp [Gen.bind_apply, AddCodeLine_apply, getOursp_apply, setOursp_apply]
  have hs2 : Bytes = 2 → g_save_regvars E RegOffs Bytes st = .ok ((), { st with
        out := st.out ++ [.codeLine ("lda regbank" ++ fmtSigned RegOffs),
          .codeLine ("ldx regbank" ++ fmtSigned (RegOffs + 1)), .codeLine "jsr pushax"],
        oursp := intSubUnsigned st.oursp Bytes }) := by
    intro h
    subst h
    unfold g_save_regvars
    simp [Gen.bind_apply, AddCodeLine_apply, getOursp_apply, setOursp_apply]
  have hr1 : Bytes = 1 →
      ∃ st1, g_restore_regvars E StackOffs RegOffs Bytes st = .ok ((), st1) ∧
        st1.oursp = st.oursp ∧ st1.nextLabel = st.nextLabel ∧
        st1.out = st.out ++
          [.codeLine ("ldy #$" ++ fmtHex 2 (toUnsigned (StackOffs - st.oursp) &&& 0xFF)),
           .codeLine "lda (sp),y", .codeLine ("sta regbank" ++ fmtSigned RegOffs)] := by
    intro h
    subst h
    unfold g_restore_regvars CheckLocalOffs
    simp only [Gen.bind_apply, getOursp_apply, if_true]
    split_ifs <;>
      simp [Gen.bind_apply, Gen.pure_apply, Error_apply, ldyconst_apply, AddCodeLine_apply]
  have hr2 : Bytes = 2 →
      ∃ st1, g_restore_regvars E StackOffs RegOffs Bytes st = .ok ((), st1) ∧
        st1.oursp = st.oursp ∧ st1.nextLabel = st.nextLabel ∧
        st1.out = st.out ++
          [.codeLine ("ldy #$" ++ fmtHex 2 (toUnsigned (StackOffs - st.oursp) &&& 0xFF)),
           .codeLine "lda (sp),y", .codeLine ("sta regbank" ++ fmtSigned RegOffs),
           .codeLine "iny", .codeLine "lda (sp),y",
           .codeLine ("sta regbank" ++ fmtSigned (RegOffs + 1))] := by
    intro h
    subst h
    unfold g_restore_regvars CheckLocalOffs
    simp only [Gen.bind_apply, getOursp_apply, if_neg (by decide : ¬ (2 : Nat) = 1), if_true]
    split_ifs <;>
      simp [Gen.bind_apply, Gen.pure_apply, Error_apply, ldyconst_apply, AddCodeLine_apply]
  have hsp : ∃ st1, g_save_regvars E RegOffs Bytes st = .ok ((), st1) ∧
      st1.oursp = intSubUnsigned st.oursp Bytes := by
    by_cases h1 : Bytes = 1
    · exact ⟨_, hs1 h1, rfl⟩
    · by_cases h2 : Bytes = 2
      · exact ⟨_, hs2 h2, rfl⟩
      · obtain ⟨st1, _, hrun, hsp, _, _⟩ := hsave h1 h2
        exact ⟨st1, hrun, hsp⟩
  refine ⟨?_, ?_, ?_, ?_, ?_⟩
  · obtain ⟨st1, hrun, hsp1⟩ := hsp
    refine ⟨st1, hrun, hsp1, ?_⟩
    intro hle hge
    rw [hsp1, intSubUnsigned_eq st.oursp Bytes hle hge]
  · by_cases h1 : Bytes = 1
    · obtain ⟨st1, hrun, hsp, _, _⟩ := hr1 h1
      exact ⟨st1, hrun, hsp⟩
    · by_cases h2 : Bytes = 2
      · obtain ⟨st1, hrun, hsp, _, _⟩ := hr2 h2
        exact ⟨st1, hrun, hsp⟩
      · obtain ⟨st1, hrun, hsp, _, _⟩ := hrest h1 h2
        exact ⟨st1, hrun, hsp⟩
  · intro h
    obtain ⟨st1, hrun, _, hl, ho⟩ := hr1 h
    exact ⟨hs1 h, st1, hrun, hl, ho⟩
  · intro h
    obtain ⟨st1, hrun, _, hl, ho⟩ := hr2 h
    exact ⟨hs2 h, st1, hrun, hl, ho⟩
  · intro h3
    have h1 : Bytes ≠ 1 := by omega
    have h2 : Bytes ≠ 2 := by omega
    obtain ⟨st1, pre, hrun, _, hl, ho⟩ := hsave h1 h2
    obtain ⟨st2, hrun2, _, hl2, ho2⟩ := hrest h1 h2
    exact ⟨⟨st1, pre, hrun, hl, ho⟩, st2, hrun2, hl2, ho2⟩

theorem regvars_contract_witness :
    (3 : Nat) ≤ 3 ∧
    (∃ st1 pre, g_save_regvars sampleEnv 0 3 initState = .ok ((), st1) ∧
      st1.nextLabel = initState.nextLabel + 1 ∧
      st1.out = initState.out ++ pre ++
        [.codeLine ("ldy #$" ++ fmtHex 2 (toUnsigned (((3 : Nat) : Int) - 1) &&& 0xFF)),
         .codeLine ("ldx #$" ++ fmtHex 2 (3 &&& 0xFF)),
         .codeLabel (sampleEnv.LocalLabelName initState.nextLabel),
         .codeLine ("lda regbank" ++ fmtSigned (0 - 1) ++ ",x"),
         .codeLine "sta (sp),y", .codeLine "dey", .codeLine "dex",
         .codeLine ("bne " ++ sampleEnv.LocalLabelName initState.nextLabel)]) ∧
    ∃ st1, g_save_regvars sampleEnv 0 3 initState = .ok ((), st1) ∧
      st1.oursp = intSubUnsigned initState.oursp 3 ∧
      (initState.oursp ≤ 2147483647 → -2147483648 ≤ initState.oursp - ((3 : Nat) : Int) →
        st1.oursp = initState.oursp - ((3 : Nat) : Int)) :=
  ⟨by decide,
    ((regvars_contract sampleEnv 0 0 3 initState).2.2.2.2 (by decide)).1,
    (regvars_contract sampleEnv 0 0 3 initState).1⟩

/-! ## Stack neutrality of the operators on a constant -/

theorem StackNeutral.of_emitsOnly {g : Gen Unit} {st : CGState} (h : EmitsOnly g st 0) :
    StackNeutral g st := by
  obtain ⟨st1, h1, h2, _⟩ := h
  refine ⟨st1, h1, ?_⟩
  rw [h2]
  simp

theorem pushOper_neutral (E : Env) (hE : E.WF) (flags val : Nat) (ops : List (Option String))
    (hv : ValidWidth E flags) (hc : flags &&& E.CF_CONST ≠ 0) (st : CGState) :
    StackNeutral (pushOper E flags val ops) st :=
  StackNeutral.of_emitsOnly (pushOper_emitsOnly E hE flags val ops hv hc st)

theorem clearForcechar_type (E : Env) (hE : E.WF) (flags : Nat) :
    (flags &&& unot E.CF_FORCECHAR) &&& E.CF_TYPE = flags &&& E.CF_TYPE :=
  and_unot_and _ _ _ hE.forcechar_type hE.type_lt

theorem clearForcechar_const (E : Env) (hE : E.WF) (flags : Nat) :
    (flags &&& unot E.CF_FORCECHAR) &&& E.CF_CONST = flags &&& E.CF_CONST :=
  and_unot_and _ _ _
    (by rw [Nat.and_comm]
        exact isBit_disjoint _ _ hE.const_bit hE.forcechar_bit hE.const_ne_forcechar)
    (isBit_lt _ hE.const_bit)

theorem clearForcechar_forcechar (E : Env) (hE : E.WF) (flags : Nat) :
    (flags &&& unot E.CF_FORCECHAR) &&& E.CF_FORCECHAR = 0 :=
  and_unot_self _ _ (isBit_lt _ hE.forcechar_bit)

theorem clearForcechar_valid (E : Env) (hE : E.WF) (flags : Nat) (hv : ValidWidth E flags) :
    ValidWidth E (flags &&& unot E.CF_FORCECHAR) := by
  unfold ValidWidth at hv ⊢
  rw [clearForcechar_type E hE]
  exact hv

/-- The generic path of the operators that handle chars as ints: the flag
word without `CF_FORCECHAR`. -/
theorem pushOper_neutral_word (E : Env) (hE : E.WF) (flags val : Nat)
    (ops : List (Option String)) (hv : ValidWidth E flags) (hc : flags &&& E.CF_CONST ≠ 0)
    (st : CGState) : StackNeutral (pushOper E (flags &&& unot E.CF_FORCECHAR) val ops) st :=
  pushOper_neutral E hE _ val ops (clearForcechar_valid E hE flags hv)
    (by rw [clearForcechar_const E hE]; exact hc) st

theorem cmpWord_neutral (E : Env) (val : Nat) (routine : String) (st : CGState) :
    StackNeutral (cmpWord E val routine) st :=
  ⟨_, cmpWord_apply E val routine st, rfl⟩

theorem g_add_neutral (E : Env) (hE : E.WF) (flags val : Nat) (hv : ValidWidth E flags)
    (hc : flags &&& E.CF_CONST ≠ 0) (st : CGState) : StackNeutral (g_add E flags val) st := by
  unfold g_add
  rw [if_pos hc]
  exact pushOper_neutral_word E hE flags val _ hv hc st

theorem g_sub_neutral (E : Env) (hE : E.WF) (flags val : Nat) (hv : ValidWidth E flags)
    (hc : flags &&& E.CF_CONST ≠ 0) (st : CGState) : StackNeutral (g_sub E flags val) st := by
  unfold g_sub
  rw [if_pos hc]
  exact pushOper_neutral_word E hE flags val _ hv hc st

theorem g_or_neutral (E : Env) (hE : E.WF) (flags val : Nat) (hv : ValidWidth E flags)
    (hc : flags &&& E.CF_CONST ≠ 0) (st : CGState) : StackNeutral (g_or E flags val) st := by
  have hv2 := hv
  unfold ValidWidth at hv2
  unfold g_or
  rw [if_pos hc]
  split_ifs <;> first
    | exact pushOper_neutral E hE flags val _ hv hc st
    | exact ⟨_, rfl, rfl⟩
    | (exfalso; tauto)

theorem g_xor_neutral (E : Env) (hE : E.WF) (flags val : Nat) (hv : ValidWidth E flags)
    (hc : flags &&& E.CF_CONST ≠ 0) (st : CGState) : StackNeutral (g_xor E flags val) st := by
  have hv2 := hv
  unfold ValidWidth at hv2
  unfold g_xor
  rw [if_pos hc]
  split_ifs <;> first
    | exact pushOper_neutral E hE flags val _ hv hc st
    | exact ⟨_, rfl, rfl⟩
    | (exfalso; tauto)

theorem g_and_neutral (E : Env) (hE : E.WF) (flags val : Nat) (hv : ValidWidth E flags)
    (hc : flags &&& E.CF_CONST ≠ 0) (st : CGState) : StackNeutral (g_and E flags val) st := by
  have hv2 := hv
  unfold ValidWidth at hv2
  unfold g_and
  rw [if_pos hc]
  split_ifs <;> first
    | exact pushOper_neutral E hE flags val _ hv hc st
    | exact ⟨_, rfl, rfl⟩
    | (exfalso; tauto)

theorem g_asr_neutral (E : Env) (hE : E.WF) (flags val : Nat) (hv : ValidWidth E flags)
    (hc : flags &&& E.CF_CONST ≠ 0) (st : CGState) : StackNeutral (g_asr E flags val) st := by
  have hv2 := hv
  unfold ValidWidth at hv2
  unfold g_asr
  rw [if_pos hc]
  split_ifs <;> first
    | exact pushOper_neutral E hE flags val _ hv hc st
    | exact ⟨_, rfl, rfl⟩
    | (exfalso; tauto)

theorem g_asl_neutral (E : Env) (hE : E.WF) (flags val : Nat) (hv : ValidWidth E flags)
    (hc : flags &&& E.CF_CONST ≠ 0) (st : CGState) : StackNeutral (g_asl E flags val) st := by
  have hv2 := hv
  unfold ValidWidth at hv2
  unfold g_asl
  rw [if_pos hc]
  split_ifs <;> first
    | exact pushOper_neutral E hE flags val _ hv hc st
    | exact ⟨_, rfl, rfl⟩
    | (exfalso; tauto)

theorem g_mul_neutral (E : Env) (hE : E.WF) (flags val : Nat) (hv : ValidWidth E flags)
    (hc : flags &&& E.CF_CONST ≠ 0) (st : CGState) : StackNeutral (g_mul E flags val) st := by
  have hv2 := hv
  unfold ValidWidth at hv2
  unfold g_mul
  split_ifs <;> first
    | exact g_asl_neutral E hE flags _ hv hc st
    | exact pushOper_neutral_word E hE flags val _ hv hc st
    | exact ⟨_, rfl, rfl⟩
    | (exfalso; tauto)

theorem g_div_neutral (E : Env) (hE : E.WF) (flags val : Nat) (hv : ValidWidth E flags)
    (hc : flags &&& E.CF_CONST ≠ 0) (st : CGState) : StackNeutral (g_div E flags val) st := by
  unfold g_div
  split_ifs <;> first
    | exact g_asr_neutral E hE flags _ hv hc st
    | exact pushOper_neutral_word E hE flags val _ hv hc st

theorem g_mod_neutral (E : Env) (hE : E.WF) (flags val : Nat) (hv : ValidWidth E flags)
    (hc : flags &&& E.CF_CONST ≠ 0) (st : CGState) : StackNeutral (g_mod E flags val) st := by
  unfold g_mod
  split_ifs <;> first
    | exact g_and_neutral E hE flags _ hv hc st
    | exact pushOper_neutral_word E hE flags val _ hv hc st

theorem g_eq_neutral (E : Env) (hE : E.WF) (flags val : Nat) (hv : ValidWidth E flags)
    (hc : flags &&& E.CF_CONST ≠ 0) (st : CGState) : StackNeutral (g_eq E flags val) st := by
  have hv2 := hv
  unfold ValidWidth at hv2
  unfold g_eq
  rw [if_pos hc]
  split_ifs <;> first
    | exact pushOper_neutral E hE flags val _ hv hc st
    | exact cmpWord_neutral E val _ st
    | exact ⟨_, rfl, rfl⟩
    | (exfalso; tauto)

theorem g_ne_neutral (E : Env) (hE : E.WF) (flags val : Nat) (hv : ValidWidth E flags)
    (hc : flags &&& E.CF_CONST ≠ 0) (st : CGState) : StackNeutral (g_ne E flags val) st := by
  have hv2 := hv
  unfold ValidWidth at hv2
  unfold g_ne
  rw [if_pos hc]
  split_ifs <;> first
    | exact pushOper_neutral E hE flags val _ hv hc st
    | exact cmpWord_neutral E val _ st
    | exact ⟨_, rfl, rfl⟩
    | (exfalso; tauto)

theorem g_le_neutral (E : Env) (hE : E.WF) (flags val : Nat) (hv : ValidWidth E flags)
    (hc : flags &&& E.CF_CONST ≠ 0) (st : CGState) : StackNeutral (g_le E flags val) st := by
  have hv2 := hv
  unfold ValidWidth at hv2
  unfold g_le
  rw [if_pos hc]
  split_ifs <;> first
    | exact pushOper_neutral E hE flags val _ hv hc st
    | exact cmpWord_neutral E val _ st
    | exact ⟨_, rfl, rfl⟩
    | (exfalso; tauto)

theorem g_gt_neutral (E : Env) (hE : E.WF) (flags val : Nat) (hv : ValidWidth E flags)
    (hc : flags &&& E.CF_CONST ≠ 0) (st : CGState) : StackNeutral (g_gt E flags val) st := by
  have hv2 := hv
  unfold ValidWidth at hv2
  unfold g_gt
  rw [if_pos hc]
  split_ifs <;> first
    | exact pushOper_neutral E hE flags val _ hv hc st
    | exact cmpWord_neutral E val _ st
    | exact ⟨_, rfl, rfl⟩
    | (exfalso; tauto)

theorem g_lt_const_neutral (E : Env) (hE : E.WF) (flags val : Nat) (hv : ValidWidth E flags)
    (hc : flags &&& E.CF_CONST ≠ 0) (st : CGState) :
    StackNeutral (g_lt_const E flags val) st := by
  have hv2 := hv
  unfold ValidWidth at hv2
  unfold g_lt_const
  split_ifs <;> first
    | exact pushOper_neutral E hE flags val _ hv hc st
    | exact cmpWord_neutral E val _ st
    | exact ⟨_, rfl, rfl⟩
    | (exfalso; tauto)

theorem g_ge_const_neutral (E : Env) (hE : E.WF) (flags val : Nat) (hv : ValidWidth E flags)
    (hc : flags &&& E.CF_CONST ≠ 0) (st : CGState) :
    StackNeutral (g_ge_const E flags val) st := by
  have hv2 := hv
  unfold ValidWidth at hv2
  unfold g_ge_const
  split_ifs <;> first
    | exact pushOper_neutral E hE flags val _ hv hc st
    | exact cmpWord_neutral E val _ st
    | exact ⟨_, rfl, rfl⟩
    | (exfalso; tauto)

theorem g_lt_neutral (E : Env) (hE : E.WF) (flags val : Nat) (hv : ValidWidth E flags)
    (hc : flags &&& E.CF_CONST ≠ 0) (st : CGState) : StackNeutral (g_lt E flags val) st := by
  unfold g_lt StackNeutral
  rw [if_pos hc]
  split_ifs
  · rw [Gen.bind_of_ok (Warning_apply _ st)]
    exact g_lt_const_neutral E hE flags val hv hc _
  · rw [Gen.bind_of_ok (Gen.pure_apply _ st)]
    exact g_lt_const_neutral E hE flags val hv hc st

theorem g_ge_neutral (E : Env) (hE : E.WF) (flags val : Nat) (hv : ValidWidth E flags)
    (hc : flags &&& E.CF_CONST ≠ 0) (st : CGState) : StackNeutral (g_ge E flags val) st := by
  unfold g_ge StackNeutral
  rw [if_pos hc]
  split_ifs
  · rw [Gen.bind_of_ok (Warning_apply _ st)]
    exact g_ge_const_neutral E hE flags val hv hc _
  · rw [Gen.bind_of_ok (Gen.pure_apply _ st)]
    exact g_ge_const_neutral E hE flags val hv hc st

/-- C34: each of the sixteen binary operators with a constant path, called
with `CF_CONST` set and a valid width field, returns with the virtual stack
offset it was called with, for every `val`: on a fast path nothing is pushed,
on the generic path the push of the left operand and the pop by `oper`
cancel. -/
theorem const_operators_stack_neutral (E : Env) (hE : E.WF) (flags val : Nat)
    (hv : ValidWidth E flags) (hc : flags &&& E.CF_CONST ≠ 0) (st : CGState) :
    constOperators.length = 16 ∧
    ∀ op ∈ constOperators, ∃ st1, op E flags val st = .ok ((), st1) ∧ st1.oursp = st.oursp := by
  refine ⟨rfl, ?_⟩
  intro op hop
  simp only [constOperators, List.mem_cons, List.mem_singleton, List.mem_nil_iff,
    or_false] at hop
  rcases hop with h | h | h | h | h | h | h | h | h | h | h | h | h | h | h | h <;> subst h
  · exact g_add_neutral E hE flags val hv hc st
  · exact g_sub_neutral E hE flags val hv hc st
  · exact g_mul_neutral E hE flags val hv hc st
  · exact g_div_neutral E hE flags val hv hc st
  · exact g_mod_neutral E hE flags val hv hc st
  · exact g_or_neutral E hE flags val hv hc st
  · exact g_xor_neutral E hE flags val hv hc st
  · exact g_and_neutral E hE flags val hv hc st
  · exact g_asr_neutral E hE flags val hv hc st
  · exact g_asl_neutral E hE flags val hv hc st
  · exact g_eq_neutral E hE flags val hv hc st
  · exact g_ne_neutral E hE flags val hv hc st
  · exact g_lt_neutral E hE flags val hv hc st
  · exact g_le_neutral E hE flags val hv hc st
  · exact g_gt_neutral E hE flags val hv hc st
  · exact g_ge_neutral E hE flags val hv hc st

theorem const_operators_stack_neutral_witness :
    sampleEnv.WF ∧ ValidWidth sampleEnv 0x21 ∧ 0x21 &&& sampleEnv.CF_CONST ≠ 0 ∧
    ∀ op ∈ constOperators, ∃ st1, op sampleEnv 0x21 0x1234 initState = .ok ((), st1) ∧
      st1.oursp = initState.oursp :=
  ⟨sampleEnv_wf, by decide, by decide,
    (const_operators_stack_neutral sampleEnv sampleEnv_wf 0x21 0x1234 (by decide) (by decide)
      initState).2⟩

/-! ## Strength reduction -/

theorem powerof2From_pow (k : Nat) :
    ∀ fuel i, i ≤ k → k - i < fuel → powerof2From fuel i (2 ^ k) = (k : Int) := by
  intro fuel
  induction fuel with
  | zero =>
    intro i _ h
    omega
  | succ f ih =>
    intro i hik hf
    unfold powerof2From
    by_cases h1 : 2 ^ k = 2 ^ i
    · rw [if_pos h1]
      have := Nat.pow_right_injective (le_refl 2) h1
      rw [this]
    · rw [if_neg h1]
      have hle : 2 ^ i ≤ 2 ^ k := Nat.pow_le_pow_right (by norm_num) hik
      rw [if_neg (by omega)]
      have hne : i ≠ k := fun h => h1 (by rw [h])
      exact ih (i + 1) (by omega) (by omega)

theorem powerof2_pow (k : Nat) : powerof2 (2 ^ k) = (k : Int) := by
  unfold powerof2
  have h : k < 2 ^ k := Nat.lt_two_pow k
  exact powerof2From_pow k _ 0 (Nat.zero_le k) (by omega)

theorem pow_two_ne_ffffffff (k : Nat) : 2 ^ k ≠ 0xFFFFFFFF := by
  cases k with
  | zero => norm_num
  | succ n =>
    rw [pow_succ]
    omega

/-- The push of the primary register (no constant) emits one of the three
push calls. -/
theorem g_push_nonconst_line (E : Env) (flags val : Nat) (hv : ValidWidth E flags)
    (hc : flags &&& E.CF_CONST = 0) (st : CGState) :
    ∃ p, (p = "jsr pusha" ∨ p = "jsr pushax" ∨ p = "jsr pusheax") ∧
      g_push E flags val st = .ok ((), { st with
        out := st.out ++ [.codeLine p], oursp := st.oursp - argSize E flags }) := by
  have hpush := push_eq E flags hv
  unfold g_push
  unfold ValidWidth at hv
  simp only [hc, ne_eq, not_true_eq_false, false_and, if_false, Gen.bind_apply, Gen.pure_apply]
  split_ifs <;> first
    | (refine ⟨"jsr pusha", Or.inl rfl, ?_⟩
       simp [Gen.bind_apply, Gen.pure_apply, AddCodeLine_apply, hpush]
       done)
    | (refine ⟨"jsr pushax", Or.inr (Or.inl rfl), ?_⟩
       simp [Gen.bind_apply, Gen.pure_apply, AddCodeLine_apply, hpush]
       done)
    | (refine ⟨"jsr pusheax", Or.inr (Or.inr rfl), ?_⟩
       simp [Gen.bind_apply, Gen.pure_apply, AddCodeLine_apply, hpush]
       done)
    | (exfalso; tauto)

/-- The lines of `oper` on a constant: nothing, a load of A or the load of
the constant, and then the call of an entry of the table, entry `i`, which is
populated or is the general slot. -/
theorem oper_const_lines (E : Env) (hE : E.WF) (flags val : Nat) (subs : List (Option String))
    (hv : ValidWidth E flags) (hc : flags &&& E.CF_CONST ≠ 0) (st : CGState) :
    ∃ pre i, (pre = [] ∨ pre = [.codeLine ("lda #$" ++ fmtHex 2 (val &&& 0xFF))] ∨
        ∃ o a s, pre = [.code o a s]) ∧
      i < 12 ∧ ((subs.getD i none).isSome = true ∨ i = generalSlot E flags) ∧
      oper E flags val subs st = .ok ((), { st with
        out := st.out ++ pre ++ [.codeLine ("jsr " ++ fmtStr (subs.getD i none))],
        oursp := st.oursp + argSize E flags }) := by
  have hpop := pop_eq E flags hv
  have hoffs : ∃ o, o + 2 = generalSlot E flags ∧ o < 10 ∧
      (if flags &&& E.CF_TYPE = E.CF_CHAR ∨ flags &&& E.CF_TYPE = E.CF_INT then
        (pure (if flags &&& E.CF_UNSIGNED ≠ 0 then 3 else 0) : Gen Nat)
      else if flags &&& E.CF_TYPE = E.CF_LONG then
        pure ((if flags &&& E.CF_UNSIGNED ≠ 0 then 3 else 0) + 6)
      else
        typeerror E flags) st = .ok (o, st) := by
    unfold generalSlot
    unfold ValidWidth at hv
    rcases hv with ht | ht | ht
    · refine ⟨if flags &&& E.CF_UNSIGNED ≠ 0 then 3 else 0, ?_, ?_, ?_⟩
      · rw [ht, if_neg hE.char_ne_long]
      · split_ifs <;> norm_num
      · rw [if_pos (Or.inl ht)]
        rfl
    · refine ⟨if flags &&& E.CF_UNSIGNED ≠ 0 then 3 else 0, ?_, ?_, ?_⟩
      · rw [ht, if_neg hE.int_ne_long]
      · split_ifs <;> norm_num
      · rw [if_pos (Or.inr ht)]
        rfl
    · refine ⟨(if flags &&& E.CF_UNSIGNED ≠ 0 then 3 else 0) + 6, ?_, ?_, ?_⟩
      · rw [if_pos ht]
      · split_ifs <;> norm_num
      · rw [ht, if_neg (by
          rintro (h | h)
          · exact hE.char_ne_long h.symm
          · exact hE.int_ne_long h.symm), if_pos rfl]
        rfl
  obtain ⟨o, ho, ho10, hrun⟩ := hoffs
  unfold oper g_getimmed
  simp only [Gen.bind_apply, hrun, hc, ne_eq, not_false_eq_true, if_true, Nat.add_zero]
  by_cases h1 : val = 0 ∧ (subs.getD o none).isSome = true
  · refine ⟨[], o, Or.inl rfl, by omega, Or.inl h1.2, ?_⟩
    simp only [if_pos h1, AddCodeLine_apply, hpop, Gen.pure_apply, List.append_nil]
  · by_cases h2 : val < 256 ∧ (subs.getD (o + 1) none).isSome = true
    · refine ⟨[.codeLine ("lda #$" ++ fmtHex 2 (val &&& 0xFF))], o + 1, Or.inr (Or.inl rfl),
        by omega, Or.inl h2.2, ?_⟩
      simp only [if_neg h1, if_pos h2, Gen.bind_apply, ldaconst_apply, AddCodeLine_apply, hpop,
        Gen.pure_apply, List.append_assoc]
    · have hload : ∃ c, (if flags &&& E.CF_TYPE = E.CF_CHAR then
            if ¬ flags &&& E.CF_FORCECHAR = 0 then
              AddCode .OPC_LDA .AM_IMM (some (ByteToStr val))
            else AddCode .OPC_LDAX .AM_IMM (some (WordToStr val))
          else if flags &&& E.CF_TYPE = E.CF_INT then
            AddCode .OPC_LDAX .AM_IMM (some (WordToStr val))
          else if flags &&& E.CF_TYPE = E.CF_LONG then
            AddCode .OPC_LDEAX .AM_IMM (some (DWordToStr val))
          else typeerror E flags) st =
            .ok ((), { st with out := st.out ++ [c] }) ∧ ∃ op a s, c = Emit.code op a s := by
        unfold ValidWidth at hv
        split_ifs <;> first
          | exact ⟨_, rfl, _, _, _, rfl⟩
          | (exfalso; tauto)
      obtain ⟨c, hc1, hc2⟩ := hload
      refine ⟨[c], o + 2, Or.inr (Or.inr ?_), by omega, Or.inr ho, ?_⟩
      · obtain ⟨op, a, s, hs⟩ := hc2
        exact ⟨op, a, s, by rw [hs]⟩
      · simp only [if_neg h1, if_neg h2, Gen.bind_apply, hc1, AddCodeLine_apply, hpop,
          Gen.pure_apply, List.append_assoc]

/-- The generic path of an operator on a constant: the push call, the load
of the constant (if any) and the call of an entry of the table; the virtual
stack offset is the same afterwards. -/
theorem pushOper_lines (E : Env) (hE : E.WF) (flags val : Nat) (ops : List (Option String))
    (hv : ValidWidth E flags) (hc : flags &&& E.CF_CONST ≠ 0) (st : CGState) :
    ∃ p pre i, (p = "jsr pusha" ∨ p = "jsr pushax" ∨ p = "jsr pusheax") ∧
      (pre = [] ∨ pre = [.codeLine ("lda #$" ++ fmtHex 2 (val &&& 0xFF))] ∨
        ∃ o a s, pre = [.code o a s]) ∧
      i < 12 ∧ ((ops.getD i none).isSome = true ∨ i = generalSlot E flags) ∧
      pushOper E flags val ops st = .ok ((), { st with
        out := st.out ++ [.codeLine p] ++ pre ++
          [.codeLine ("jsr " ++ fmtStr (ops.getD i none))] }) := by
  obtain ⟨p, hp, hpush⟩ := g_push_nonconst_line E (flags &&& unot E.CF_CONST) 0
    (clearConst_valid E hE flags hv) (clearConst_const E hE flags) st
  rw [clearConst_argSize E hE] at hpush
  obtain ⟨pre, i, hpre, hi, hslot, hoper⟩ := oper_const_lines E hE flags val ops hv hc
    { st with out := st.out ++ [.codeLine p], oursp := st.oursp - argSize E flags }
  refine ⟨p, pre, i, hp, hpre, hi, hslot, ?_⟩
  unfold pushOper
  rw [Gen.bind_of_ok hpush, hoper]
  simp

theorem isModCall_append (p s : String) (c : Char) (cs : List Char) (hp : p.data = c :: cs)
    (hc : c ≠ 'j') : isModCall (.codeLine (p ++ s)) = false := by
  have h : ('j' == c) = false := by
    simp only [beq_eq_false_iff_ne, ne_eq]
    exact fun h => hc h.symm
  have h1 : "jsr tosmod".data = 'j' :: "sr tosmod".data := rfl
  have h2 : "jsr tosumod".data = 'j' :: "sr tosumod".data := rfl
  simp [isModCall, String.data_append, hp, h1, h2, List.isPrefixOf, h]

theorem isModCall_code (o : Opc) (a : AM) (s : Option String) :
    isModCall (.code o a s) = false := rfl

/-- `g_and` on a constant calls no modulo routine. -/
theorem g_and_no_mod_call (E : Env) (hE : E.WF) (flags val : Nat) (hv : ValidWidth E flags)
    (hc : flags &&& E.CF_CONST ≠ 0) (st : CGState) :
    ∃ st1, g_and E flags val st = .ok ((), st1) ∧
      ∀ l ∈ emitted st st1, isModCall l = false := by
  have hand : ∀ s, isModCall (.codeLine ("and #$" ++ s)) = false :=
    fun s => isModCall_append _ s 'a' _ rfl (by decide)
  have hlda : ∀ s, isModCall (.codeLine ("lda #$" ++ s)) = false :=
    fun s => isModCall_append _ s 'l' _ rfl (by decide)
  have hldx : ∀ s, isModCall (.codeLine ("ldx #$" ++ s)) = false :=
    fun s => isModCall_append _ s 'l' _ rfl (by decide)
  have hlit : ∀ t ∈ ["txa", "tax", "tay", "tya", "stx sreg+1", "stx sreg", "sta sreg+1",
      "sta sreg", "jsr pusha", "jsr pushax", "jsr pusheax"],
      isModCall (.codeLine t) = false := by decide
  have hops : ∀ i, i < 12 → isModCall (.codeLine ("jsr " ++ fmtStr (g_and_ops.getD i none))) =
      false := by decide
  have hv2 := hv
  unfold ValidWidth at hv2
  have hgen : ∃ st1, pushOper E flags val g_and_ops st = .ok ((), st1) ∧
      ∀ l ∈ emitted st st1, isModCall l = false := by
    obtain ⟨p, pre, i, hp, hpre, hi, _, hrun⟩ := pushOper_lines E hE flags val g_and_ops hv hc st
    refine ⟨_, hrun, ?_⟩
    have hem : emitted st { st with out := st.out ++ [.codeLine p] ++ pre ++
        [.codeLine ("jsr " ++ fmtStr (g_and_ops.getD i none))] } =
        [.codeLine p] ++ pre ++ [.codeLine ("jsr " ++ fmtStr (g_and_ops.getD i none))] := by
      simp [emitted]
    rw [hem]
    intro l hl
    simp only [List.mem_append, List.mem_singleton] at hl
    rcases hl with (hl | hl) | hl
    · subst hl
      rcases hp with rfl | rfl | rfl <;> exact hlit _ (by simp)
    · rcases hpre with rfl | rfl | ⟨o, a, s, rfl⟩
      · simp at hl
      · simp only [List.mem_singleton] at hl
        subst hl
        exact hlda _
      · simp only [List.mem_singleton] at hl
        subst hl
        rfl
    · subst hl
      exact hops i hi
  unfold g_and
  rw [if_pos hc]
  split_ifs <;> first
    | exact hgen
    | (refine ⟨_, rfl, ?_⟩
       simp only [emitted, ldxconst, ldaconst, AddCodeLine, emit]
       simp [hand, hlda, hldx, hlit])
    | (exfalso; tauto)

/-- The generic path of `g_mod` ends with the call of a modulo routine. -/
theorem pushOper_mod_last (E : Env) (hE : E.WF) (flags val : Nat) (hv : ValidWidth E flags)
    (hc : flags &&& E.CF_CONST ≠ 0) (st : CGState) :
    ∃ st1, pushOper E flags val g_mod_ops st = .ok ((), st1) ∧
      ∃ l, st1.out.getLast? = some l ∧ isModCall l = true := by
  have hops : ∀ i, i < 12 → ((g_mod_ops.getD i none).isSome = true ∨ i = 2 ∨ i = 5 ∨ i = 8 ∨
      i = 11) → isModCall (.codeLine ("jsr " ++ fmtStr (g_mod_ops.getD i none))) = true := by
    decide
  obtain ⟨p, pre, i, _, _, hi, hslot, hrun⟩ := pushOper_lines E hE flags val g_mod_ops hv hc st
  refine ⟨_, hrun, _, List.getLast?_concat _, ?_⟩
  apply hops i hi
  rcases hslot with h | h
  · exact Or.inl h
  · right
    rw [h]
    exact generalSlot_mem E flags

/-- C39: strength reduction is delegation. With `CF_CONST` set, `g_mul` by
`2 ^ k` is the call `g_asl (flags, k)` and `g_div` by `2 ^ k` is the call
`g_asr (flags, k)`: same output, same final state. With `CF_CONST` and
`CF_UNSIGNED` set, `g_mod` by `2 ^ k` is the call `g_and (flags, 2 ^ k - 1)`,
and for a valid width no line of it calls a modulo routine. For a signed
operand `g_mod` takes, for every `val`, the generic path over the stack,
whose last line, for a valid width, is the call of a modulo routine. -/
theorem strength_reduction (E : Env) (hE : E.WF) (flags k : Nat) (st : CGState)
    (hc : flags &&& E.CF_CONST ≠ 0) :
    g_mul E flags (2 ^ k) st = g_asl E flags k st ∧
    g_div E flags (2 ^ k) st = g_asr E flags k st ∧
    (flags &&& E.CF_UNSIGNED ≠ 0 →
      g_mod E flags (2 ^ k) st = g_and E flags (2 ^ k - 1) st ∧
      (ValidWidth E flags → ∃ st1, g_mod E flags (2 ^ k) st = .ok ((), st1) ∧
        ∀ l ∈ emitted st st1, isModCall l = false)) ∧
    (flags &&& E.CF_UNSIGNED = 0 → ∀ val,
      g_mod E flags val st = pushOper E (flags &&& unot E.CF_FORCECHAR) val g_mod_ops st ∧
      (ValidWidth E flags → ∃ st1, g_mod E flags val st = .ok ((), st1) ∧
        ∃ l, st1.out.getLast? = some l ∧ isModCall l = true)) := by
  have hp : powerof2 (2 ^ k) ≥ 0 := by
    rw [powerof2_pow]
    exact Int.natCast_nonneg k
  have hmul : g_mul E flags (2 ^ k) st = g_asl E flags k st := by
    unfold g_mul
    rw [if_pos ⟨hc, hp⟩, powerof2_pow, Int.toNat_natCast]
  have hdiv : g_div E flags (2 ^ k) st = g_asr E flags k st := by
    unfold g_div
    rw [if_pos ⟨hc, hp⟩, powerof2_pow, Int.toNat_natCast]
  refine ⟨hmul, hdiv, ?_, ?_⟩
  · intro hu
    have hmod : g_mod E flags (2 ^ k) st = g_and E flags (2 ^ k - 1) st := by
      unfold g_mod
      rw [if_pos ⟨hc, hu, pow_two_ne_ffffffff k, hp⟩]
    refine ⟨hmod, ?_⟩
    intro hv
    rw [hmod]
    exact g_and_no_mod_call E hE flags _ hv hc st
  · intro hu val
    have hmod : g_mod E flags val st =
        pushOper E (flags &&& unot E.CF_FORCECHAR) val g_mod_ops st := by
      unfold g_mod
      rw [if_neg (fun h => h.2.1 hu), if_pos hc]
    refine ⟨hmod, ?_⟩
    intro hv
    rw [hmod]
    exact pushOper_mod_last E hE _ val (clearForcechar_valid E hE flags hv)
      (by rw [clearForcechar_const E hE]; exact hc) st

theorem strength_reduction_witness :
    sampleEnv.WF ∧ 0x31 &&& sampleEnv.CF_CONST ≠ 0 ∧
    g_mul sampleEnv 0x31 (2 ^ 5) initState = g_asl sampleEnv 0x31 5 initState ∧
    g_div sampleEnv 0x31 (2 ^ 5) initState = g_asr sampleEnv 0x31 5 initState :=
  ⟨sampleEnv_wf, by decide,
    (strength_reduction sampleEnv sampleEnv_wf 0x31 5 initState (by decide)).1,
    (strength_reduction sampleEnv sampleEnv_wf 0x31 5 initState (by decide)).2.1⟩

/-! ## Rows of bytes -/

theorem AddDataLine_apply (text : String) (st : CGState) :
    AddDataLine text st = .ok ((), { st with out := st.out ++ [.dataLine text] }) := rfl

/-- The inner loop of `g_defbytes` appends the comma-separated items of the
next `n + 1` bytes to the buffer. -/
theorem defbytesLine_eq (n : Nat) : ∀ (Data : List Nat) (Buf : String), n < Data.length →
    defbytesLine n Data Buf =
      (Buf ++ joinItems ((Data.take (n + 1)).map (fun b => byteItem (b % 256))),
       Data.drop (n + 1)) := by
  induction n with
  | zero =>
    intro Data Buf h
    cases Data with
    | nil => simp at h
    | cons d ds =>
      simp [defbytesLine, joinItems, byteItem, String.append_assoc]
  | succ n ih =>
    intro Data Buf h
    cases Data with
    | nil => simp at h
    | cons d ds =>
      cases ds with
      | nil => simp at h
      | cons e es =>
        have h2 : n < (e :: es).length := by
          simp only [List.length_cons] at h ⊢
          omega
        simp only [defbytesLine, List.headD_cons, List.tail_cons]
        rw [ih (e :: es) _ h2]
        simp [joinItems, byteItem, String.append_assoc]

theorem chunks16_props (fuel : Nat) : ∀ bs : List Nat, bs.length ≤ fuel →
    (chunks16 fuel bs).length = (bs.length + 15) / 16 ∧
    (chunks16 fuel bs).flatten = bs ∧
    (∀ c ∈ chunks16 fuel bs, 1 ≤ c.length ∧ c.length ≤ 16) ∧
    (∀ c ∈ (chunks16 fuel bs).dropLast, c.length = 16) := by
  induction fuel with
  | zero =>
    intro bs h
    have : bs = [] := List.length_eq_zero.1 (by omega)
    subst this
    simp [chunks16]
  | succ f ih =>
    intro bs h
    cases bs with
    | nil => simp [chunks16]
    | cons b t =>
      have hlen : ((b :: t).drop 16).length ≤ f := by
        simp only [List.length_drop, List.length_cons] at h ⊢
        omega
      obtain ⟨h1, h2, h3, h4⟩ := ih _ hlen
      simp only [chunks16]
      refine ⟨?_, ?_, ?_, ?_⟩
      · simp only [List.length_cons, h1, List.length_drop]
        omega
      · simp only [List.flatten_cons, h2]
        exact List.take_append_drop 16 (b :: t)
      · intro c hc
        simp only [List.mem_cons] at hc
        rcases hc with rfl | hc
        · simp only [List.length_take, List.length_cons]
          omega
        · exact h3 c hc
      · intro c hc
        cases hrest : chunks16 f ((b :: t).drop 16) with
        | nil =>
          rw [hrest] at hc
          simp at hc
        | cons x xs =>
          rw [hrest, List.dropLast_cons₂] at hc
          simp only [List.mem_cons] at hc
          rcases hc with rfl | hc
          · have hne : (chunks16 f ((b :: t).drop 16)).length ≠ 0 := by
              rw [hrest]
              simp
            rw [h1] at hne
            simp only [List.length_drop, List.length_cons] at hne
            simp only [List.length_take, List.length_cons]
            omega
          · apply h4
            rw [hrest]
            exact hc

/-- The outer loop of `g_defbytes` emits one data line for every chunk of 16
bytes. -/
theorem defbytesLoop_eq (fuel : Nat) : ∀ (Data : List Nat) (st : CGState), Data.length ≤ fuel →
    defbytesLoop fuel Data Data.length st = .ok ((), { st with
      out := st.out ++ (chunks16 fuel Data).map (fun c =>
        Emit.dataLine ("\t.byte\t" ++ joinItems (c.map (fun b => byteItem (b % 256))))) }) := by
  induction fuel with
  | zero =>
    intro Data st h
    simp [defbytesLoop, chunks16, Gen.pure_apply]
  | succ f ih =>
    intro Data st h
    cases Data with
    | nil => simp [defbytesLoop, chunks16, Gen.pure_apply]
    | cons d ds =>
      have hlen : ((d :: ds).drop 16).length ≤ f := by
        simp only [List.length_drop, List.length_cons] at h ⊢
        omega
      by_cases hbig : (d :: ds).length > 16
      · have hline := defbytesLine_eq 15 (d :: ds) "\t.byte\t" (by omega)
        have hcnt : (d :: ds).length - 16 = ((d :: ds).drop 16).length := by
          rw [List.length_drop]
        simp only [defbytesLoop, chunks16, if_pos hbig, Nat.add_one_sub_one]
        rw [if_pos (by simp), hline]
        simp only [Gen.bind_apply, AddDataLine_apply, hcnt]
        rw [ih _ _ hlen]
        simp
      · have hchunk : (d :: ds).length - 1 < (d :: ds).length := by
          simp only [List.length_cons]
          omega
        have hline := defbytesLine_eq ((d :: ds).length - 1) (d :: ds) "\t.byte\t" hchunk
        have hsub : (d :: ds).length - 1 + 1 = (d :: ds).length := by
          simp only [List.length_cons]
          omega
        rw [hsub, List.take_length, List.drop_length] at hline
        have htake : (d :: ds).take 16 = d :: ds := List.take_of_length_le (by omega)
        have hdrop : (d :: ds).drop 16 = [] := List.drop_of_length_le (by omega)
        simp only [defbytesLoop, if_neg hbig]
        rw [if_pos (by simp), hline]
        simp only [Gen.bind_apply, AddDataLine_apply, Nat.sub_self]
        have hnil := ih [] { st with out := st.out ++ [Emit.dataLine ("\t.byte\t" ++
          joinItems ((d :: ds).map (fun b => byteItem (b % 256))))] } (Nat.zero_le f)
        simp only [List.length_nil] at hnil
        rw [hnil]
        simp only [chunks16, htake, hdrop]
        cases f <;> simp [chunks16]

/-- The characters of comma-separated items are the characters of the items
with one comma between neighbours: no comma leads or trails. -/
theorem joinItems_data : ∀ l : List String,
    (joinItems l).data = List.intercalate [','] (l.map String.data)
  | [] => rfl
  | [a] => by simp [joinItems, List.intercalate]
  | a :: b :: rest => by
    have ih := joinItems_data (b :: rest)
    simp only [joinItems, String.data_append, ih, List.map_cons, List.intercalate,
      List.intersperse_cons₂, List.flatten_cons]
    simp

/-- C40: for a sequence of `Count` bytes, `g_defbytes` returns and emits one
data line for each chunk of 16 bytes and nothing else: `(Count + 15) / 16`
lines (none for no bytes); every line is `\t.byte\t` and the items of its
bytes with one comma between neighbours; an item is `$` and two upper case
hexadecimal digits that read back as the byte; every line but the last holds
16 items, every line between 1 and 16, and the bytes of the lines in order
are the input. -/
theorem g_defbytes_contract (Bytes : List Nat) (hb : ∀ b ∈ Bytes, b < 256) (st : CGState) :
    g_defbytes Bytes Bytes.length st = .ok ((), { st with
      out := st.out ++ (byteChunks Bytes).map (fun c => Emit.dataLine (byteLine c)) }) ∧
    (byteChunks Bytes).length = (Bytes.length + 15) / 16 ∧
    (Bytes.length = 0 → byteChunks Bytes = []) ∧
    (byteChunks Bytes).flatten = Bytes ∧
    (∀ c ∈ byteChunks Bytes, 1 ≤ c.length ∧ c.length ≤ 16) ∧
    (∀ c ∈ (byteChunks Bytes).dropLast, c.length = 16) ∧
    (∀ c : List Nat, (byteLine c).data =
      "\t.byte\t".data ++ List.intercalate [','] (c.map (fun b => '$' :: (fmtHex 2 b).data))) ∧
    (∀ b ∈ Bytes, (fmtHex 2 b).data.length = 2 ∧
      (∀ ch ∈ (fmtHex 2 b).data, IsUpperHexDigit ch) ∧
      parseHex (fmtHex 2 b).data = some b) := by
  obtain ⟨h1, h2, h3, h4⟩ := chunks16_props Bytes.length Bytes (le_refl _)
  have hmem : ∀ c ∈ byteChunks Bytes, ∀ b ∈ c, b ∈ Bytes := by
    intro c hc b hbc
    have : b ∈ (byteChunks Bytes).flatten := List.mem_flatten.2 ⟨c, hc, hbc⟩
    rw [byteChunks, h2] at this
    exact this
  refine ⟨?_, h1, ?_, h2, h3, h4, ?_, ?_⟩
  · unfold g_defbytes
    rw [defbytesLoop_eq Bytes.length Bytes st (le_refl _)]
    have hmap : (chunks16 Bytes.length Bytes).map (fun c =>
        Emit.dataLine ("\t.byte\t" ++ joinItems (c.map (fun b => byteItem (b % 256))))) =
        (byteChunks Bytes).map (fun c => Emit.dataLine (byteLine c)) := by
      apply List.map_congr_left
      intro c hc
      have hitems : c.map (fun b => byteItem (b % 256)) = c.map byteItem := by
        apply List.map_congr_left
        intro b hbc
        rw [Nat.mod_eq_of_lt (hb b (hmem c hc b hbc))]
      rw [hitems, byteLine]
    rw [hmap]
  · intro h0
    have : Bytes = [] := List.length_eq_zero.1 h0
    subst this
    rfl
  · intro c
    rw [byteLine, String.data_append, joinItems_data, List.map_map]
    rfl
  · intro b hbB
    exact fmtHex_props 2 b (by norm_num) (by have := hb b hbB; omega)

theorem g_defbytes_contract_witness :
    (∀ b ∈ ([1, 2, 255] : List Nat), b < 256) ∧
    g_defbytes [1, 2, 255] 3 initState = .ok ((), { initState with
      out := [.dataLine "\t.byte\t$01,$02,$FF"] }) :=
  ⟨by decide, (g_defbytes_contract [1, 2, 255] (by decide) initState).1.trans (by decide)⟩

end CodeGen

